import Mathlib

/-! # aircontrol: the Warema / Manchester air-command transmitter

A shallow embedding of `WaremaSend.cpp`, `ManchesterCodeTarget.cpp` and
`WaremaSendParameters.{h,cpp}`.

* A `std::string` is the list of its `char` elements.
* `int32_t` values are integers; the places where the program converts them
  (`static_cast<uint8_t>`, the `useconds_t` argument of `usleep`) reduce them
  explicitly.
* The three hardware calls `pinMode`, `digitalWrite` and `usleep` append one event
  each to a trace that is threaded through the code.
* A failed `assert` aborts the process: functions that can reach one return an
  `Option`, and `none` is the abort.
-/

namespace AirControl

/-! ## Strings, events, traces -/

/-- A `std::string`, as the sequence of its `char` elements. -/
abbrev CppString := List Char

/-- The pin modes of wiringPi used by the program. -/
inductive PinMode
  | INPUT
  | OUTPUT
  deriving DecidableEq, Repr

/-- The pin levels of wiringPi used by the program. -/
inductive PinLevel
  | LOW
  | HIGH
  deriving DecidableEq, Repr

/-- One call into the hardware layer, with the arguments it receives. -/
inductive Event
  | pinMode (pin : Nat) (mode : PinMode)
  | digitalWrite (pin : Nat) (value : PinLevel)
  | usleep (usec : Nat)
  deriving DecidableEq, Repr

/-- The calls into the hardware layer made so far, oldest first. -/
abbrev Trace := List Event

def INT32_MIN : Int := -2147483648

def INT32_MAX : Int := 2147483647

def EXIT_SUCCESS : Int := 0

def EXIT_FAILURE : Int := 1

/-- Conversion of an `int32_t` argument to the `useconds_t` (unsigned 32-bit) parameter of
`usleep`: reduction modulo `2^32`. -/
def toUseconds (x : Int) : Nat := (x % 4294967296).toNat

/-- The call `pinMode(pin, mode)`. -/
def pinMode (pin : Nat) (mode : PinMode) (t : Trace) : Trace :=
  t ++ [Event.pinMode pin mode]

/-- The call `digitalWrite(pin, value)`. -/
def digitalWrite (pin : Nat) (value : PinLevel) (t : Trace) : Trace :=
  t ++ [Event.digitalWrite pin value]

/-- The call `usleep(x)` with an `int32_t` argument `x`. -/
def usleep (x : Int) (t : Trace) : Trace :=
  t ++ [Event.usleep (toUseconds x)]

/-! ## What the sources use but do not define -/

/-- The constants `Types::INVALID_GPIO_PIN` (a `uint8_t`), `Types::INVALID_PARAMETER` (an
`int32_t`) and the predicate `Task::isValidGpioPin`. `Types.h` and `Task.h` are not among the
sources, so their values are parameters of the development. -/
structure Platform where
  INVALID_GPIO_PIN : Nat
  INVALID_PARAMETER : Int
  isValidGpioPin : Int → Bool

/-- The read interface of `Configuration` used by the sources: `isValidSection`, and
`getValue(section, name, value)` at the types `int32_t` and `std::string`, where `none` is the
`false` return. `Configuration.h` is not among the sources. -/
structure Configuration where
  isValidSection : CppString → Bool
  getValueInt : CppString → CppString → Option Int
  getValueString : CppString → CppString → Option CppString

/-- `Types::AirCode`. Only the enumerator `MANCHESTER` occurs in the sources; every other
enumerator is an `other k`. -/
inductive AirCode
  | MANCHESTER
  | other (k : Nat)
  deriving DecidableEq, Repr

/-- What the getters of `TargetParameters` return after a successful `load()`.
`TargetParameters` is used by `ManchesterCodeTarget` but is not among the sources. -/
structure TargetParameters where
  getGpioPin : Nat
  getAirCode : AirCode
  getDataLength : Int
  getSyncLength : Int
  getSendCommand : Int
  getSendDelay : Int

/-! ## `WaremaSendParameters` -/

/-- The data members of `WaremaSendParameters` (the `configuration_` reference is passed
separately where it is read). -/
structure WaremaSendParameters where
  devicename_ : CppString
  gpioPin_ : Nat
  dataLengthUs_ : Int
  syncLengthUs_ : Int
  manchesterCodeDevice_ : CppString
  manchesterCodeDown_ : CppString
  manchesterCodeUp_ : CppString
  manchesterCodeStop_ : CppString
  sendCommand_ : Int
  sendDelayUs_ : Int
  deriving DecidableEq, Repr

namespace WaremaSendParameters

/-- `getGpioPin()`: asserts `gpioPin_ != Types::INVALID_GPIO_PIN`. -/
def getGpioPin (P : Platform) (p : WaremaSendParameters) : Option Nat :=
  if p.gpioPin_ ≠ P.INVALID_GPIO_PIN then some p.gpioPin_ else none

/-- `getDataLength()`: asserts `dataLengthUs_ != Types::INVALID_PARAMETER`. -/
def getDataLength (P : Platform) (p : WaremaSendParameters) : Option Int :=
  if p.dataLengthUs_ ≠ P.INVALID_PARAMETER then some p.dataLengthUs_ else none

/-- `getSyncLength()`: asserts `syncLengthUs_ != Types::INVALID_PARAMETER`. -/
def getSyncLength (P : Platform) (p : WaremaSendParameters) : Option Int :=
  if p.syncLengthUs_ ≠ P.INVALID_PARAMETER then some p.syncLengthUs_ else none

/-- `getManchesterCodeDevice()`: asserts `manchesterCodeDevice_.length() != 0U`. -/
def getManchesterCodeDevice (p : WaremaSendParameters) : Option CppString :=
  if p.manchesterCodeDevice_.length ≠ 0 then some p.manchesterCodeDevice_ else none

/-- `getManchesterCodeDown()`: asserts `manchesterCodeDown_.length() != 0U`. -/
def getManchesterCodeDown (p : WaremaSendParameters) : Option CppString :=
  if p.manchesterCodeDown_.length ≠ 0 then some p.manchesterCodeDown_ else none

/-- `getManchesterCodeUp()`: asserts `manchesterCodeUp_.length() != 0U`. -/
def getManchesterCodeUp (p : WaremaSendParameters) : Option CppString :=
  if p.manchesterCodeUp_.length ≠ 0 then some p.manchesterCodeUp_ else none

/-- `getManchesterCodeStop()`: asserts `manchesterCodeStop_.length() != 0U`. -/
def getManchesterCodeStop (p : WaremaSendParameters) : Option CppString :=
  if p.manchesterCodeStop_.length ≠ 0 then some p.manchesterCodeStop_ else none

/-- `getSendCommand()`: asserts `sendCommand_ != Types::INVALID_PARAMETER`. -/
def getSendCommand (P : Platform) (p : WaremaSendParameters) : Option Int :=
  if p.sendCommand_ ≠ P.INVALID_PARAMETER then some p.sendCommand_ else none

/-- `getSendDelay()`: asserts `sendDelayUs_ != Types::INVALID_PARAMETER`. -/
def getSendDelay (P : Platform) (p : WaremaSendParameters) : Option Int :=
  if p.sendDelayUs_ ≠ P.INVALID_PARAMETER then some p.sendDelayUs_ else none

end WaremaSendParameters

/-! ## Diagnostics -/

/-- The messages the sources write to `std::cerr`, one constructor per message text, with the
values that are inserted into it. -/
inductive Diag
  /-- Message "Error: param deviceandaction: ...". -/
  | paramDeviceAndAction (deviceandaction : CppString)
  /-- Message "Error: Section (...) for waremadevice ... cannot be found". -/
  | sectionNotFound (sectionname devicename : CppString)
  /-- Message "Error: Given target ... cannot be found". -/
  | targetNotFound (name : CppString)
  /-- Message "Error: Given GPIO pin ... is invalid". -/
  | givenGpioPinInvalid (gpioPin : Nat)
  /-- Message "Error: Action ... is invalid". -/
  | actionInvalid (action : CppString)
  /-- Message "Error: Missing configuration parameter '...'". -/
  | missingParameter (name : CppString)
  /-- Message "Error: Configuration error (devicename_ ...): gpioPin ... is invalid". -/
  | gpioPinInvalid (devicename : CppString) (value : Int)
  /-- Message "Error: Configuration error (devicename_ ...): ... is undefined". -/
  | isUndefined (devicename name : CppString)
  /-- Message "Error: Configuration error (devicename_ ...): ... is invalid". -/
  | isInvalid (devicename name : CppString)
  /-- Message "Error: Configuration error (devicename_ ...): ... contains illegal character
  at position ...", with the position as printed. -/
  | illegalCharacter (devicename name : CppString) (position : Nat)
  deriving DecidableEq, Repr

/-- The messages written by `WaremaSendParameters::load()` and the functions it calls. -/
def Diag.fromLoad : Diag → Bool
  | Diag.missingParameter _ => true
  | Diag.gpioPinInvalid _ _ => true
  | Diag.isUndefined _ _ => true
  | Diag.isInvalid _ _ => true
  | Diag.illegalCharacter _ _ _ => true
  | _ => false

/-! ## `WaremaSendParameters`: loading -/

/-- The constant `waremasend` of `WaremaSendParameters.h`. -/
def waremasend : CppString := "waremasend".toList

/-- `var.find_first_not_of(elements)`: the index of the first character of `var` that is not
in `elements`; `none` is `std::string::npos`. -/
def find_first_not_of (elements : CppString) : CppString → Option Nat
  | [] => none
  | c :: rest =>
    if c ∈ elements then (find_first_not_of elements rest).map (· + 1) else some 0

namespace WaremaSendParameters

/-- The constructor `WaremaSendParameters(configuration, devicename)`. -/
def new (P : Platform) (devicename : CppString) : WaremaSendParameters where
  devicename_ := devicename
  gpioPin_ := P.INVALID_GPIO_PIN
  dataLengthUs_ := P.INVALID_PARAMETER
  syncLengthUs_ := P.INVALID_PARAMETER
  manchesterCodeDevice_ := []
  manchesterCodeDown_ := []
  manchesterCodeUp_ := []
  manchesterCodeStop_ := []
  sendCommand_ := P.INVALID_PARAMETER
  sendDelayUs_ := P.INVALID_PARAMETER

/-- The template `getValue(section, name, value)`, for the accessor `get` of the value type:
the section `waremasend_<devicename_>` first, then the section `waremasend`. The argument
`section` is not read, as in the source. An error is the `false` return, with the message
written. -/
def getValue {α : Type} (get : CppString → CppString → Option α) (devicename_ : CppString)
    (_section name : CppString) : Except Diag α :=
  let tmp := waremasend ++ "_".toList ++ devicename_
  match get tmp name with
  | some value => Except.ok value
  | none =>
    match get waremasend name with
    | some value => Except.ok value
    | none => Except.error (Diag.missingParameter name)

/-- `loadGpioPin()`. An error is the `false` return, with the message written. -/
def loadGpioPin (P : Platform) (configuration_ : Configuration) (p : WaremaSendParameters) :
    Except Diag WaremaSendParameters :=
  match getValue configuration_.getValueInt p.devicename_ p.devicename_ "gpioPin".toList with
  | Except.error d => Except.error d
  | Except.ok value =>
    if !P.isValidGpioPin value then
      Except.error (Diag.gpioPinInvalid p.devicename_ value)
    else
      Except.ok { p with gpioPin_ := (value % 256).toNat }

/-- `loadDataLength()`. -/
def loadDataLength (P : Platform) (configuration_ : Configuration) (p : WaremaSendParameters) :
    Except Diag WaremaSendParameters :=
  match getValue configuration_.getValueInt p.devicename_ p.devicename_ "dataLength".toList with
  | Except.error d => Except.error d
  | Except.ok value =>
    let p := { p with dataLengthUs_ := value }
    if p.dataLengthUs_ = P.INVALID_PARAMETER then
      Except.error (Diag.isUndefined p.devicename_ "dataLength".toList)
    else if p.dataLengthUs_ ≤ 0 then
      Except.error (Diag.isInvalid p.devicename_ "dataLength".toList)
    else
      Except.ok p

/-- `loadSyncLength()`. -/
def loadSyncLength (P : Platform) (configuration_ : Configuration) (p : WaremaSendParameters) :
    Except Diag WaremaSendParameters :=
  match getValue configuration_.getValueInt p.devicename_ p.devicename_ "syncLength".toList with
  | Except.error d => Except.error d
  | Except.ok value =>
    let p := { p with syncLengthUs_ := value }
    if p.syncLengthUs_ = P.INVALID_PARAMETER then
      Except.error (Diag.isUndefined p.devicename_ "syncLength".toList)
    else if p.syncLengthUs_ < 0 then
      Except.error (Diag.isInvalid p.devicename_ "syncLength".toList)
    else
      Except.ok p

/-- `loadManchestercode(manchestercode, var)`: on success the value read, to be stored in
the member that `var` refers to. -/
def loadManchestercode (configuration_ : Configuration) (p : WaremaSendParameters)
    (manchestercode : CppString) : Except Diag CppString :=
  match getValue configuration_.getValueString p.devicename_ p.devicename_ manchestercode with
  | Except.error d => Except.error d
  | Except.ok var =>
    if var.length = 0 then
      Except.error (Diag.isUndefined p.devicename_ manchestercode)
    else
      match find_first_not_of "01sS".toList var with
      | some position =>
        Except.error (Diag.illegalCharacter p.devicename_ manchestercode (position + 1))
      | none => Except.ok var

/-- `loadManchesterCodeDevice()`. -/
def loadManchesterCodeDevice (configuration_ : Configuration) (p : WaremaSendParameters) :
    Except Diag WaremaSendParameters :=
  (loadManchestercode configuration_ p "manchesterCodeDevice".toList).map
    fun var => { p with manchesterCodeDevice_ := var }

/-- `loadManchesterCodeDown()`. -/
def loadManchesterCodeDown (configuration_ : Configuration) (p : WaremaSendParameters) :
    Except Diag WaremaSendParameters :=
  (loadManchestercode configuration_ p "manchesterCodeDown".toList).map
    fun var => { p with manchesterCodeDown_ := var }

/-- `loadManchesterCodeUp()`. -/
def loadManchesterCodeUp (configuration_ : Configuration) (p : WaremaSendParameters) :
    Except Diag WaremaSendParameters :=
  (loadManchestercode configuration_ p "manchesterCodeUp".toList).map
    fun var => { p with manchesterCodeUp_ := var }

/-- `loadManchesterCodeStop()`. -/
def loadManchesterCodeStop (configuration_ : Configuration) (p : WaremaSendParameters) :
    Except Diag WaremaSendParameters :=
  (loadManchestercode configuration_ p "manchesterCodeStop".toList).map
    fun var => { p with manchesterCodeStop_ := var }

/-- `loadSendCommand()`. -/
def loadSendCommand (P : Platform) (configuration_ : Configuration) (p : WaremaSendParameters) :
    Except Diag WaremaSendParameters :=
  match getValue configuration_.getValueInt p.devicename_ p.devicename_ "sendCommand".toList with
  | Except.error d => Except.error d
  | Except.ok value =>
    let p := { p with sendCommand_ := value }
    if p.sendCommand_ = P.INVALID_PARAMETER then
      Except.error (Diag.isUndefined p.devicename_ "sendCommand".toList)
    else if p.sendCommand_ ≤ 0 then
      Except.error (Diag.isInvalid p.devicename_ "sendCommand".toList)
    else
      Except.ok p

/-- `loadSendDelay()`. -/
def loadSendDelay (P : Platform) (configuration_ : Configuration) (p : WaremaSendParameters) :
    Except Diag WaremaSendParameters :=
  match getValue configuration_.getValueInt p.devicename_ p.devicename_ "sendDelay".toList with
  | Except.error d => Except.error d
  | Except.ok value =>
    let p := { p with sendDelayUs_ := value }
    if p.sendDelayUs_ = P.INVALID_PARAMETER then
      Except.error (Diag.isUndefined p.devicename_ "sendDelay".toList)
    else
      Except.ok p

/-- `load()`: the nine loaders in the order of the `&&` chain, stopping at the first that
returns `false`. `Except.ok` is the `true` return. -/
def load (P : Platform) (configuration_ : Configuration) (p : WaremaSendParameters) :
    Except Diag WaremaSendParameters :=
  loadGpioPin P configuration_ p
    >>= loadDataLength P configuration_
    >>= loadSyncLength P configuration_
    >>= loadManchesterCodeDevice configuration_
    >>= loadManchesterCodeDown configuration_
    >>= loadManchesterCodeUp configuration_
    >>= loadManchesterCodeStop configuration_
    >>= loadSendCommand P configuration_
    >>= loadSendDelay P configuration_

end WaremaSendParameters

/-! ## `WaremaSend`: the transmitter -/

namespace WaremaSend

/-- The body of the `for` loop of `WaremaSend::sendAirCommand`: the `switch` on one
character of `manchestercode_`. -/
def sendAirCommandStep (P : Platform) (gpioPin_ : Nat) (parameters_ : WaremaSendParameters)
    (c : Char) (t : Trace) : Option Trace :=
  if c = 's' then do
    let t := digitalWrite gpioPin_ PinLevel.LOW t
    let syncLength ← parameters_.getSyncLength P
    pure (usleep syncLength t)
  else if c = 'S' then do
    let t := digitalWrite gpioPin_ PinLevel.HIGH t
    let syncLength ← parameters_.getSyncLength P
    pure (usleep syncLength t)
  else if c = '0' then do
    let t := digitalWrite gpioPin_ PinLevel.HIGH t
    let dataLength ← parameters_.getDataLength P
    let t := usleep (Int.tdiv dataLength 2) t
    let t := digitalWrite gpioPin_ PinLevel.LOW t
    let dataLength ← parameters_.getDataLength P
    pure (usleep (Int.tdiv dataLength 2) t)
  else if c = '1' then do
    let t := digitalWrite gpioPin_ PinLevel.LOW t
    let dataLength ← parameters_.getDataLength P
    let t := usleep (Int.tdiv dataLength 2) t
    let t := digitalWrite gpioPin_ PinLevel.HIGH t
    let dataLength ← parameters_.getDataLength P
    pure (usleep (Int.tdiv dataLength 2) t)
  else
    pure t

/-- The `for (auto i = 0U; i < manchestercode_.length(); i++)` loop of
`WaremaSend::sendAirCommand`, over the characters from position `i` on. -/
def sendAirCommandLoop (P : Platform) (gpioPin_ : Nat) (parameters_ : WaremaSendParameters) :
    List Char → Trace → Option Trace
  | [], t => some t
  | c :: rest, t =>
    (sendAirCommandStep P gpioPin_ parameters_ c t).bind
      (sendAirCommandLoop P gpioPin_ parameters_ rest)

/-- `WaremaSend::sendAirCommand`. -/
def sendAirCommand (P : Platform) (gpioPin_ : Nat) (parameters_ : WaremaSendParameters)
    (manchestercode_ : CppString) (t : Trace) : Option Trace :=
  sendAirCommandLoop P gpioPin_ parameters_ manchestercode_ t

/-- The `for (auto n = 0; n < parameters_->getSendCommand(); n++)` loop of
`WaremaSend::airControl`, entered with counter `n`. The first argument bounds the number of
guard evaluations still to come; `airControl` supplies enough of them. -/
def airControlLoop (P : Platform) (gpioPin_ : Nat) (parameters_ : WaremaSendParameters)
    (manchestercode_ : CppString) : Nat → Int → Trace → Option Trace
  | 0, _, _ => none
  | fuel + 1, n, t => do
    let sendCommand ← parameters_.getSendCommand P
    if n < sendCommand then
      let t ← sendAirCommand P gpioPin_ parameters_ manchestercode_ t
      let sendCommand ← parameters_.getSendCommand P
      if n ≠ sendCommand - 1 then
        let t := digitalWrite gpioPin_ PinLevel.LOW t
        let sendDelay ← parameters_.getSendDelay P
        let t := usleep sendDelay t
        airControlLoop P gpioPin_ parameters_ manchestercode_ fuel (n + 1) t
      else
        airControlLoop P gpioPin_ parameters_ manchestercode_ fuel (n + 1) t
    else
      pure t

/-- `WaremaSend::airControl`. The loop guard is evaluated `sendCommand_ + 1` times when
`sendCommand_` is positive and once otherwise. -/
def airControl (P : Platform) (gpioPin_ : Nat) (parameters_ : WaremaSendParameters)
    (manchestercode_ : CppString) (t : Trace) : Option Trace := do
  let t := pinMode gpioPin_ PinMode.OUTPUT t
  let t ← airControlLoop P gpioPin_ parameters_ manchestercode_
    (parameters_.sendCommand_.toNat + 1) 0 t
  pure (pinMode gpioPin_ PinMode.INPUT t)

/-- The function `to_lower` of `WaremaSend.cpp`: `std::tolower` on every character (in the
default "C" locale: `A`..`Z` become `a`..`z`, every other character is kept). -/
def to_lower (s : CppString) : CppString :=
  s.map Char.toLower

/-- One successful `getline(tokenStream, token, delimiter)` on a stream whose unread part is
`s`: the characters before the first delimiter, and the unread part after that delimiter
(which is extracted and dropped); without a delimiter everything is read. -/
def getlineExtract (delimiter : Char) : List Char → CppString × List Char
  | [] => ([], [])
  | c :: rest =>
    if c = delimiter then ([], rest)
    else ((c :: (getlineExtract delimiter rest).1), (getlineExtract delimiter rest).2)

/-- The call `getline(tokenStream, token, delimiter)` on a stream whose unread part is `s`.
It fails (`none`) exactly when no character can be extracted, that is at the end of the
stream; otherwise it yields the token and the new unread part. -/
def getline (delimiter : Char) (s : List Char) : Option (CppString × List Char) :=
  match s with
  | [] => none
  | _ :: _ => some (getlineExtract delimiter s)

/-- The `while (getline(tokenStream, token, delimiter))` loop of `split`. The first argument
bounds the number of `getline` calls still to come; `split` supplies enough of them. -/
def splitLoop (delimiter : Char) : Nat → List Char → List CppString → List CppString
  | 0, _, tokens => tokens
  | fuel + 1, stream, tokens =>
    match getline delimiter stream with
    | none => tokens
    | some (token, rest) => splitLoop delimiter fuel rest (tokens ++ [token])

/-- The function `split` of `WaremaSend.cpp`. Every successful `getline` extracts at least one
character, so there are at most `s.length + 1` calls. -/
def split (s : CppString) (delimiter : Char) : List CppString :=
  splitLoop delimiter (s.length + 1) s []

/-- What `WaremaSend::start` leaves behind when it returns: the exit code, the messages
written to `std::cerr`, the hardware calls made, and the members `gpioPin_` and
`manchestercode_`. -/
structure StartResult where
  exitCode : Int
  stderr : List Diag
  trace : Trace
  gpioPin_ : Nat
  manchestercode_ : CppString
  deriving DecidableEq, Repr

/-- The end of `WaremaSend::start` (from `manchestercode_ = manchestercode_ + ...` on), with
the action fragment already in `manchestercode_`. -/
def startSend (P : Platform) (parameters_ : WaremaSendParameters) (gpioPin_ : Nat)
    (manchestercode_ : CppString) : Option StartResult := do
  let device ← parameters_.getManchesterCodeDevice
  let manchestercode_ := manchestercode_ ++ device ++ "S".toList
  let t ← airControl P gpioPin_ parameters_ manchestercode_ []
  pure ⟨EXIT_SUCCESS, [], t, gpioPin_, manchestercode_⟩

/-- The part of `WaremaSend::start` that selects the action fragment (the `if (action_ ==
"up") ... else` chain), followed by `startSend`. -/
def startAction (P : Platform) (parameters_ : WaremaSendParameters) (gpioPin_ : Nat)
    (action_ : CppString) : Option StartResult :=
  if action_ = "up".toList then
    parameters_.getManchesterCodeUp.bind (startSend P parameters_ gpioPin_)
  else if action_ = "down".toList then
    parameters_.getManchesterCodeDown.bind (startSend P parameters_ gpioPin_)
  else if action_ = "stop".toList then
    parameters_.getManchesterCodeStop.bind (startSend P parameters_ gpioPin_)
  else
    some ⟨EXIT_FAILURE, [Diag.actionInvalid action_], [], gpioPin_, []⟩

/-- `WaremaSend::start`, for an object constructed with `deviceandaction_` whose inherited
member `gpioPin_` holds the pin given on the command line, or `Types::INVALID_GPIO_PIN`.
`parameters_` is `nullptr` after construction, so `assert(parameters_ == nullptr)` holds.
Output to `std::cout` is not recorded. -/
def start (P : Platform) (configuration_ : Configuration) (gpioPin_ : Nat)
    (deviceandaction_ : CppString) : Option StartResult :=
  let p := split deviceandaction_ '.'
  if p.length ≠ 2 then
    some ⟨EXIT_FAILURE, [Diag.paramDeviceAndAction deviceandaction_], [], gpioPin_, []⟩
  else
    let devicename_ := p.getD 0 []
    let action_ := to_lower (p.getD 1 [])
    let sectionname := "waremasend_".toList ++ devicename_
    if !configuration_.isValidSection sectionname then
      some ⟨EXIT_FAILURE, [Diag.sectionNotFound sectionname devicename_], [], gpioPin_, []⟩
    else
      match WaremaSendParameters.load P configuration_
          (WaremaSendParameters.new P devicename_) with
      | Except.error d => some ⟨EXIT_FAILURE, [d], [], gpioPin_, []⟩
      | Except.ok parameters_ =>
        if gpioPin_ = P.INVALID_GPIO_PIN then
          (parameters_.getGpioPin P).bind fun gpioPin_ =>
            startAction P parameters_ gpioPin_ action_
        else if !P.isValidGpioPin gpioPin_ then
          some ⟨EXIT_FAILURE, [Diag.givenGpioPinInvalid gpioPin_], [], gpioPin_, []⟩
        else
          startAction P parameters_ gpioPin_ action_

end WaremaSend

/-! ## `ManchesterCodeTarget`: the transmitter -/

namespace ManchesterCodeTarget

/-- The body of the `for` loop of `ManchesterCodeTarget::sendAirCommandManchester`: the
`switch` on one character of `manchestercode_`. -/
def sendAirCommandManchesterStep (gpioPin_ : Nat) (parameters_ : TargetParameters)
    (c : Char) (t : Trace) : Trace :=
  if c = 's' then
    let t := digitalWrite gpioPin_ PinLevel.LOW t
    usleep parameters_.getSyncLength t
  else if c = 'S' then
    let t := digitalWrite gpioPin_ PinLevel.HIGH t
    usleep parameters_.getSyncLength t
  else if c = '0' then
    let t := digitalWrite gpioPin_ PinLevel.HIGH t
    let t := usleep (Int.tdiv parameters_.getDataLength 2) t
    let t := digitalWrite gpioPin_ PinLevel.LOW t
    usleep (Int.tdiv parameters_.getDataLength 2) t
  else if c = '1' then
    let t := digitalWrite gpioPin_ PinLevel.LOW t
    let t := usleep (Int.tdiv parameters_.getDataLength 2) t
    let t := digitalWrite gpioPin_ PinLevel.HIGH t
    usleep (Int.tdiv parameters_.getDataLength 2) t
  else
    t

/-- The `for (auto i = 0U; i < manchestercode_.length(); i++)` loop of
`ManchesterCodeTarget::sendAirCommandManchester`, over the characters from position `i` on. -/
def sendAirCommandManchesterLoop (gpioPin_ : Nat) (parameters_ : TargetParameters) :
    List Char → Trace → Trace
  | [], t => t
  | c :: rest, t =>
    sendAirCommandManchesterLoop gpioPin_ parameters_ rest
      (sendAirCommandManchesterStep gpioPin_ parameters_ c t)

/-- `ManchesterCodeTarget::sendAirCommandManchester`: asserts
`parameters_->getAirCode() == Types::AirCode::MANCHESTER`, then runs the loop. -/
def sendAirCommandManchester (gpioPin_ : Nat) (parameters_ : TargetParameters)
    (manchestercode_ : CppString) (t : Trace) : Option Trace :=
  if parameters_.getAirCode = AirCode.MANCHESTER then
    some (sendAirCommandManchesterLoop gpioPin_ parameters_ manchestercode_ t)
  else
    none

/-- The `for (auto n = 0; n < parameters_->getSendCommand(); n++)` loop of
`ManchesterCodeTarget::airControl`, entered with counter `n`; the member pointer
`sendAirCommand` always holds `&ManchesterCodeTarget::sendAirCommandManchester`. The first
argument bounds the number of guard evaluations still to come. -/
def airControlLoop (gpioPin_ : Nat) (parameters_ : TargetParameters)
    (manchestercode_ : CppString) : Nat → Int → Trace → Option Trace
  | 0, _, _ => none
  | fuel + 1, n, t =>
    if n < parameters_.getSendCommand then do
      let t ← sendAirCommandManchester gpioPin_ parameters_ manchestercode_ t
      if n ≠ parameters_.getSendCommand - 1 then
        let t := digitalWrite gpioPin_ PinLevel.LOW t
        let t := usleep parameters_.getSendDelay t
        airControlLoop gpioPin_ parameters_ manchestercode_ fuel (n + 1) t
      else
        airControlLoop gpioPin_ parameters_ manchestercode_ fuel (n + 1) t
    else
      pure t

/-- `ManchesterCodeTarget::airControl`. -/
def airControl (gpioPin_ : Nat) (parameters_ : TargetParameters)
    (manchestercode_ : CppString) (t : Trace) : Option Trace := do
  let t := pinMode gpioPin_ PinMode.OUTPUT t
  let t ← airControlLoop gpioPin_ parameters_ manchestercode_
    (parameters_.getSendCommand.toNat + 1) 0 t
  pure (pinMode gpioPin_ PinMode.INPUT t)

/-- What `ManchesterCodeTarget::start` leaves behind when it returns: the exit code, the
messages written to `std::cerr`, the hardware calls made, and the member `gpioPin_`. -/
structure StartResult where
  exitCode : Int
  stderr : List Diag
  trace : Trace
  gpioPin_ : Nat
  deriving DecidableEq, Repr

/-- The member `name_`, set by the constructor. -/
def name_ : CppString := "warema_sample".toList

/-- `ManchesterCodeTarget::start`, for an object constructed with `manchestercode_` whose
inherited member `gpioPin_` holds the pin given on the command line, or
`Types::INVALID_GPIO_PIN`. The argument `load` stands for `TargetParameters(configuration_,
name_).load()`, which is not among the sources: `none` is its `false` return, and otherwise it
gives what the getters return afterwards. Output to `std::cout`, and what `load()` itself
writes to `std::cerr`, is not recorded. -/
def start (P : Platform) (configuration_ : Configuration)
    (load : Configuration → CppString → Option TargetParameters) (gpioPin_ : Nat)
    (manchestercode_ : CppString) : Option StartResult :=
  if !configuration_.isValidSection name_ then
    some ⟨EXIT_FAILURE, [Diag.targetNotFound name_], [], gpioPin_⟩
  else
    match load configuration_ name_ with
    | none => some ⟨EXIT_FAILURE, [], [], gpioPin_⟩
    | some parameters_ =>
      if gpioPin_ = P.INVALID_GPIO_PIN then
        (airControl parameters_.getGpioPin parameters_ manchestercode_ []).map fun t =>
          ⟨EXIT_SUCCESS, [], t, parameters_.getGpioPin⟩
      else if !P.isValidGpioPin gpioPin_ then
        some ⟨EXIT_FAILURE, [Diag.givenGpioPinInvalid gpioPin_], [], gpioPin_⟩
      else
        (airControl gpioPin_ parameters_ manchestercode_ []).map fun t =>
          ⟨EXIT_SUCCESS, [], t, gpioPin_⟩

end ManchesterCodeTarget

/-! ## Observations on traces -/

/-- The levels of the `digitalWrite` calls of a trace, in order. -/
def levelWrites : Trace → List PinLevel
  | [] => []
  | Event.digitalWrite _ value :: rest => value :: levelWrites rest
  | _ :: rest => levelWrites rest

/-- The sum of the durations of the `usleep` calls of a trace, in microseconds. -/
def sleepSum : Trace → Nat
  | [] => 0
  | Event.usleep usec :: rest => usec + sleepSum rest
  | _ :: rest => sleepSum rest

/-- The mode of `pin` after the calls of a trace, when it was `init` before them. -/
def modeAfter (pin : Nat) (init : PinMode) : Trace → PinMode
  | [] => init
  | Event.pinMode q mode :: rest => modeAfter pin (if q = pin then mode else init) rest
  | _ :: rest => modeAfter pin init rest

/-- The calls of a trace that come before its first `digitalWrite`. -/
def beforeFirstWrite : Trace → Trace
  | [] => []
  | Event.digitalWrite _ _ :: _ => []
  | e :: rest => e :: beforeFirstWrite rest

/-- The events of one iteration of the `switch` of the two encoders, when the half data
pulse reaches `usleep` as `half` and the sync pulse as `sync`. -/
def encodeEvents (pin half sync : Nat) (c : Char) : List Event :=
  if c = 's' then [Event.digitalWrite pin PinLevel.LOW, Event.usleep sync]
  else if c = 'S' then [Event.digitalWrite pin PinLevel.HIGH, Event.usleep sync]
  else if c = '0' then
    [Event.digitalWrite pin PinLevel.HIGH, Event.usleep half,
      Event.digitalWrite pin PinLevel.LOW, Event.usleep half]
  else if c = '1' then
    [Event.digitalWrite pin PinLevel.LOW, Event.usleep half,
      Event.digitalWrite pin PinLevel.HIGH, Event.usleep half]
  else []

/-- The two events between two passes of `airControl`. -/
def gapEvents (pin : Nat) (sendDelay : Int) : List Event :=
  [Event.digitalWrite pin PinLevel.LOW, Event.usleep (toUseconds sendDelay)]

/-- The events of `k` passes `pass` with `gap` after each pass but the last. -/
def repeatEvents {α : Type} (pass gap : List α) : Nat → List α
  | 0 => []
  | 1 => pass
  | k + 2 => pass ++ gap ++ repeatEvents pass gap (k + 1)

/-- The four getters read by `WaremaSend::airControl` and `WaremaSend::sendAirCommand` pass
their assertion: no member holds `Types::INVALID_PARAMETER`. -/
def WaremaSendParameters.Loaded (P : Platform) (p : WaremaSendParameters) : Prop :=
  p.dataLengthUs_ ≠ P.INVALID_PARAMETER ∧ p.syncLengthUs_ ≠ P.INVALID_PARAMETER ∧
    p.sendCommand_ ≠ P.INVALID_PARAMETER ∧ p.sendDelayUs_ ≠ P.INVALID_PARAMETER

instance (P : Platform) (p : WaremaSendParameters) : Decidable (p.Loaded P) := by
  unfold WaremaSendParameters.Loaded
  infer_instance

/-- The pins addressed by the `pinMode` and `digitalWrite` calls of a trace, in order. -/
def pinsOf : Trace → List Nat
  | [] => []
  | Event.pinMode pin _ :: rest => pin :: pinsOf rest
  | Event.digitalWrite pin _ :: rest => pin :: pinsOf rest
  | Event.usleep _ :: rest => pinsOf rest

/-- The sentinel `Types::INVALID_GPIO_PIN` is not a valid pin: no value accepted by
`Task::isValidGpioPin` is stored (as `uint8_t`) as the sentinel. -/
def Platform.SentinelNotValid (P : Platform) : Prop :=
  ∀ value : Int, P.isValidGpioPin value = true → (value % 256).toNat ≠ P.INVALID_GPIO_PIN

/-! ## The specification's words -/

namespace Spec

/-- The symbol encoding table of the specification: what is done to the line for one
symbol, with hold durations in microseconds. -/
def symbolEvents (pin dataLength syncLength : Nat) (c : Char) : List Event :=
  match c with
  | 's' => [Event.digitalWrite pin PinLevel.LOW, Event.usleep syncLength]
  | 'S' => [Event.digitalWrite pin PinLevel.HIGH, Event.usleep syncLength]
  | '0' =>
    [Event.digitalWrite pin PinLevel.HIGH, Event.usleep (dataLength / 2),
      Event.digitalWrite pin PinLevel.LOW, Event.usleep (dataLength / 2)]
  | '1' =>
    [Event.digitalWrite pin PinLevel.LOW, Event.usleep (dataLength / 2),
      Event.digitalWrite pin PinLevel.HIGH, Event.usleep (dataLength / 2)]
  | _ => []

/-- The level-set calls of the specification for one symbol: one for a sync symbol, two
for a data symbol. -/
def symbolLevels (c : Char) : List PinLevel :=
  match c with
  | 's' => [PinLevel.LOW]
  | 'S' => [PinLevel.HIGH]
  | '0' => [PinLevel.HIGH, PinLevel.LOW]
  | '1' => [PinLevel.LOW, PinLevel.HIGH]
  | _ => []

/-- The number of sync symbols of a symbol string. -/
def countSync (code : CppString) : Nat :=
  code.count 's' + code.count 'S'

/-- The number of data symbols of a symbol string. -/
def countData (code : CppString) : Nat :=
  code.count '0' + code.count '1'

/-- A valid symbol string: only characters from the four-letter alphabet. -/
def ValidSymbolString (code : CppString) : Prop :=
  ∀ c ∈ code, c = '0' ∨ c = '1' ∨ c = 's' ∨ c = 'S'

/-- The four symbols of the alphabet. -/
def isSymbol (c : Char) : Bool :=
  c == '0' || c == '1' || c == 's' || c == 'S'

instance (code : CppString) : Decidable (Spec.ValidSymbolString code) := by
  unfold Spec.ValidSymbolString
  infer_instance

end Spec

/-! ## Example platform and parameters -/

/-- An example platform: sentinel pin 255, sentinel parameter -1, pins 0 to 27 valid. -/
def examplePlatform : Platform where
  INVALID_GPIO_PIN := 255
  INVALID_PARAMETER := -1
  isValidGpioPin := fun value => decide (0 ≤ value ∧ value ≤ 27)

/-- Example parameters as `load()` leaves them: pin 17, data pulse 500, sync pulse 5000,
`sendCommand` and `sendDelay` as given. -/
def exampleParameters (sendCommand sendDelay : Int) : WaremaSendParameters where
  devicename_ := "shutter1".toList
  gpioPin_ := 17
  dataLengthUs_ := 500
  syncLengthUs_ := 5000
  manchesterCodeDevice_ := "0011".toList
  manchesterCodeDown_ := "0101".toList
  manchesterCodeUp_ := "1010".toList
  manchesterCodeStop_ := "s1".toList
  sendCommand_ := sendCommand
  sendDelayUs_ := sendDelay

/-- Example target parameters: pin 17, Manchester, data pulse 500, sync pulse 5000. -/
def exampleTargetParameters (sendCommand sendDelay : Int) : TargetParameters where
  getGpioPin := 17
  getAirCode := AirCode.MANCHESTER
  getDataLength := 500
  getSyncLength := 5000
  getSendCommand := sendCommand
  getSendDelay := sendDelay

/-- An example configuration. The section `waremasend_shutter1` gives the pin and the device
code of the device `shutter1`; the section `waremasend` gives the timing, the three action
codes, and three transmissions with a delay of 1000 between them. -/
def exampleConfiguration : Configuration where
  isValidSection := fun s =>
    decide (s = "waremasend_shutter1".toList ∨ s = "waremasend".toList)
  getValueInt := fun s name =>
    if s = "waremasend_shutter1".toList then
      if name = "gpioPin".toList then some 17 else none
    else if s = "waremasend".toList then
      if name = "dataLength".toList then some 500
      else if name = "syncLength".toList then some 5000
      else if name = "sendCommand".toList then some 3
      else if name = "sendDelay".toList then some 1000
      else none
    else none
  getValueString := fun s name =>
    if s = "waremasend_shutter1".toList then
      if name = "manchesterCodeDevice".toList then some "0011".toList else none
    else if s = "waremasend".toList then
      if name = "manchesterCodeUp".toList then some "1010".toList
      else if name = "manchesterCodeDown".toList then some "0101".toList
      else if name = "manchesterCodeStop".toList then some "s1".toList
      else none
    else none

/-- A variant of the example configuration: `dataLength` as given (`none`: absent from both
sections), `sendDelay` and `manchesterCodeUp` as given, everything else as in
`exampleConfiguration`. -/
def exampleConfigurationWith (dataLength : Option Int) (sendDelay : Int)
    (manchesterCodeUp : CppString) : Configuration where
  isValidSection := fun s =>
    decide (s = "waremasend_shutter1".toList ∨ s = "waremasend".toList)
  getValueInt := fun s name =>
    if s = "waremasend_shutter1".toList then
      if name = "gpioPin".toList then some 17 else none
    else if s = "waremasend".toList then
      if name = "dataLength".toList then dataLength
      else if name = "syncLength".toList then some 5000
      else if name = "sendCommand".toList then some 3
      else if name = "sendDelay".toList then some sendDelay
      else none
    else none
  getValueString := fun s name =>
    if s = "waremasend_shutter1".toList then
      if name = "manchesterCodeDevice".toList then some "0011".toList else none
    else if s = "waremasend".toList then
      if name = "manchesterCodeUp".toList then some manchesterCodeUp
      else if name = "manchesterCodeDown".toList then some "0101".toList
      else if name = "manchesterCodeStop".toList then some "s1".toList
      else none
    else none

/-- An example of `TargetParameters(configuration_, name_).load()`: it succeeds with
`exampleTargetParameters 3 1000`. -/
def exampleTargetLoad (_configuration : Configuration) (_name : CppString) :
    Option TargetParameters :=
  some (exampleTargetParameters 3 1000)

/-- An example configuration in which every section is valid and every key is found in the
type-wide section `waremasend` only: pin 17, data pulse 500, sync pulse 5000, one
transmission, and the four codes. -/
def exampleConfigurationTypeWide : Configuration where
  isValidSection := fun _ => true
  getValueInt := fun s name =>
    if s = "waremasend".toList then
      if name = "gpioPin".toList then some 17
      else if name = "dataLength".toList then some 500
      else if name = "syncLength".toList then some 5000
      else if name = "sendCommand".toList then some 1
      else if name = "sendDelay".toList then some 1000
      else none
    else none
  getValueString := fun s name =>
    if s = "waremasend".toList then
      if name = "manchesterCodeDevice".toList then some "0011".toList
      else if name = "manchesterCodeUp".toList then some "1010".toList
      else if name = "manchesterCodeDown".toList then some "0101".toList
      else if name = "manchesterCodeStop".toList then some "s1".toList
      else none
    else none

/-! ## Lemmas: the encoding pass -/

theorem toUseconds_of_nonneg (x : Int) (h0 : 0 ≤ x) (h1 : x ≤ INT32_MAX) :
    toUseconds x = x.toNat := by
  unfold toUseconds
  unfold INT32_MAX at h1
  rw [Int.emod_eq_of_lt h0 (by omega)]

theorem toUseconds_natCast (n : Nat) (h : (n : Int) ≤ INT32_MAX) :
    toUseconds (n : Int) = n := by
  rw [toUseconds_of_nonneg _ (Int.ofNat_nonneg n) h]
  simp

theorem toUseconds_half (n : Nat) (h : (n : Int) ≤ INT32_MAX) :
    toUseconds (Int.tdiv (n : Int) 2) = n / 2 := by
  have h2 : Int.tdiv (n : Int) 2 = ((n / 2 : Nat) : Int) := by
    simpa using (Int.ofNat_tdiv n 2).symm
  rw [h2]
  apply toUseconds_natCast
  have : ((n / 2 : Nat) : Int) ≤ (n : Int) := by
    exact_mod_cast Nat.div_le_self n 2
  omega

theorem symbolEvents_eq_encodeEvents (pin dataLength syncLength : Nat) (c : Char) :
    Spec.symbolEvents pin dataLength syncLength c
      = encodeEvents pin (dataLength / 2) syncLength c := by
  unfold Spec.symbolEvents encodeEvents
  split <;> simp_all

namespace WaremaSend

theorem sendAirCommandStep_eq (P : Platform) (pin : Nat) (p : WaremaSendParameters)
    (hd : p.dataLengthUs_ ≠ P.INVALID_PARAMETER) (hs : p.syncLengthUs_ ≠ P.INVALID_PARAMETER)
    (c : Char) (t : Trace) :
    sendAirCommandStep P pin p c t
      = some (t ++ encodeEvents pin (toUseconds (Int.tdiv p.dataLengthUs_ 2))
          (toUseconds p.syncLengthUs_) c) := by
  unfold sendAirCommandStep encodeEvents
  simp only [WaremaSendParameters.getSyncLength, WaremaSendParameters.getDataLength, hd, hs,
    digitalWrite, usleep]
  split_ifs <;> simp

theorem sendAirCommandLoop_eq (P : Platform) (pin : Nat) (p : WaremaSendParameters)
    (hd : p.dataLengthUs_ ≠ P.INVALID_PARAMETER) (hs : p.syncLengthUs_ ≠ P.INVALID_PARAMETER)
    (code : List Char) (t : Trace) :
    sendAirCommandLoop P pin p code t
      = some (t ++ code.flatMap (encodeEvents pin (toUseconds (Int.tdiv p.dataLengthUs_ 2))
          (toUseconds p.syncLengthUs_))) := by
  induction code generalizing t with
  | nil => simp [sendAirCommandLoop]
  | cons c rest ih =>
    simp [sendAirCommandLoop, sendAirCommandStep_eq P pin p hd hs, ih, List.append_assoc]

end WaremaSend

namespace ManchesterCodeTarget

theorem sendAirCommandManchesterStep_eq (pin : Nat) (tp : TargetParameters) (c : Char)
    (t : Trace) :
    sendAirCommandManchesterStep pin tp c t
      = t ++ encodeEvents pin (toUseconds (Int.tdiv tp.getDataLength 2))
          (toUseconds tp.getSyncLength) c := by
  unfold sendAirCommandManchesterStep encodeEvents
  simp only [digitalWrite, usleep]
  split_ifs <;> simp

theorem sendAirCommandManchesterLoop_eq (pin : Nat) (tp : TargetParameters)
    (code : List Char) (t : Trace) :
    sendAirCommandManchesterLoop pin tp code t
      = t ++ code.flatMap (encodeEvents pin (toUseconds (Int.tdiv tp.getDataLength 2))
          (toUseconds tp.getSyncLength)) := by
  induction code generalizing t with
  | nil => simp [sendAirCommandManchesterLoop]
  | cons c rest ih =>
    simp [sendAirCommandManchesterLoop, sendAirCommandManchesterStep_eq, ih,
      List.append_assoc]

end ManchesterCodeTarget

/-! ## Lemmas: the repeat loop -/

namespace WaremaSend

theorem sendAirCommand_eq (P : Platform) (pin : Nat) (p : WaremaSendParameters)
    (hL : p.Loaded P) (code : CppString) (t : Trace) :
    sendAirCommand P pin p code t
      = some (t ++ code.flatMap (encodeEvents pin (toUseconds (Int.tdiv p.dataLengthUs_ 2))
          (toUseconds p.syncLengthUs_))) :=
  sendAirCommandLoop_eq P pin p hL.1 hL.2.1 code t

theorem airControlLoop_eq (P : Platform) (pin : Nat) (p : WaremaSendParameters)
    (hL : p.Loaded P) (code : CppString) (k : Nat) :
    ∀ (n : Int) (fuel : Nat) (t : Trace), (p.sendCommand_ - n).toNat = k → k + 1 ≤ fuel →
      airControlLoop P pin p code fuel n t
        = some (t ++ repeatEvents
            (code.flatMap (encodeEvents pin (toUseconds (Int.tdiv p.dataLengthUs_ 2))
              (toUseconds p.syncLengthUs_)))
            (gapEvents pin p.sendDelayUs_) k) := by
  obtain ⟨hd, hs, hc, hdl⟩ := hL
  induction k with
  | zero =>
    intro n fuel t hk hf
    obtain ⟨f, rfl⟩ : ∃ f, fuel = f + 1 := ⟨fuel - 1, by omega⟩
    have hn : ¬ n < p.sendCommand_ := by omega
    simp [airControlLoop, WaremaSendParameters.getSendCommand, hc, hn, repeatEvents]
  | succ k ih =>
    intro n fuel t hk hf
    obtain ⟨f, rfl⟩ : ∃ f, fuel = f + 1 := ⟨fuel - 1, by omega⟩
    have hn : n < p.sendCommand_ := by omega
    have hk2 : (p.sendCommand_ - (n + 1)).toNat = k := by omega
    have hpass := sendAirCommand_eq P pin p ⟨hd, hs, hc, hdl⟩ code t
    cases k with
    | zero =>
      have hlast : n = p.sendCommand_ - 1 := by omega
      have hrest := ih (n + 1) f
        (t ++ code.flatMap (encodeEvents pin (toUseconds (Int.tdiv p.dataLengthUs_ 2))
          (toUseconds p.syncLengthUs_))) hk2 (by omega)
      rw [airControlLoop]
      simp only [WaremaSendParameters.getSendCommand, hc, ne_eq, not_false_eq_true, if_true,
        Option.bind_eq_bind, Option.some_bind, hn, hpass]
      rw [if_neg (not_not.mpr hlast), hrest]
      simp only [repeatEvents, List.append_nil, Nat.zero_add]
    | succ j =>
      have hnot : n ≠ p.sendCommand_ - 1 := by omega
      have hrest := ih (n + 1) f
        (usleep p.sendDelayUs_ (digitalWrite pin PinLevel.LOW
          (t ++ code.flatMap (encodeEvents pin (toUseconds (Int.tdiv p.dataLengthUs_ 2))
            (toUseconds p.syncLengthUs_))))) hk2 (by omega)
      rw [airControlLoop]
      simp only [WaremaSendParameters.getSendCommand, WaremaSendParameters.getSendDelay, hc,
        hdl, ne_eq, not_false_eq_true, if_true, Option.bind_eq_bind, Option.some_bind, hn,
        hpass, hnot]
      rw [hrest]
      simp [repeatEvents, usleep, digitalWrite, gapEvents, List.append_assoc]

theorem airControl_eq (P : Platform) (pin : Nat) (p : WaremaSendParameters)
    (hL : p.Loaded P) (code : CppString) (t : Trace) :
    airControl P pin p code t
      = some (t ++ Event.pinMode pin PinMode.OUTPUT ::
          (repeatEvents
            (code.flatMap (encodeEvents pin (toUseconds (Int.tdiv p.dataLengthUs_ 2))
              (toUseconds p.syncLengthUs_)))
            (gapEvents pin p.sendDelayUs_) p.sendCommand_.toNat
            ++ [Event.pinMode pin PinMode.INPUT])) := by
  unfold airControl
  have h := airControlLoop_eq P pin p hL code p.sendCommand_.toNat 0
    (p.sendCommand_.toNat + 1) (pinMode pin PinMode.OUTPUT t) (by simp) (le_refl _)
  simp only [h, Option.bind_eq_bind, Option.some_bind]
  simp [pinMode, List.append_assoc]

end WaremaSend

namespace ManchesterCodeTarget

theorem sendAirCommandManchester_eq (pin : Nat) (tp : TargetParameters)
    (ha : tp.getAirCode = AirCode.MANCHESTER) (code : CppString) (t : Trace) :
    sendAirCommandManchester pin tp code t
      = some (t ++ code.flatMap (encodeEvents pin (toUseconds (Int.tdiv tp.getDataLength 2))
          (toUseconds tp.getSyncLength))) := by
  simp [sendAirCommandManchester, ha, sendAirCommandManchesterLoop_eq]

theorem targetAirControlLoop_eq (pin : Nat) (tp : TargetParameters)
    (ha : tp.getAirCode = AirCode.MANCHESTER) (code : CppString) (k : Nat) :
    ∀ (n : Int) (fuel : Nat) (t : Trace), (tp.getSendCommand - n).toNat = k → k + 1 ≤ fuel →
      airControlLoop pin tp code fuel n t
        = some (t ++ repeatEvents
            (code.flatMap (encodeEvents pin (toUseconds (Int.tdiv tp.getDataLength 2))
              (toUseconds tp.getSyncLength)))
            (gapEvents pin tp.getSendDelay) k) := by
  induction k with
  | zero =>
    intro n fuel t hk hf
    obtain ⟨f, rfl⟩ : ∃ f, fuel = f + 1 := ⟨fuel - 1, by omega⟩
    have hn : ¬ n < tp.getSendCommand := by omega
    simp [airControlLoop, hn, repeatEvents]
  | succ k ih =>
    intro n fuel t hk hf
    obtain ⟨f, rfl⟩ : ∃ f, fuel = f + 1 := ⟨fuel - 1, by omega⟩
    have hn : n < tp.getSendCommand := by omega
    have hk2 : (tp.getSendCommand - (n + 1)).toNat = k := by omega
    have hpass := sendAirCommandManchester_eq pin tp ha code t
    cases k with
    | zero =>
      have hlast : n = tp.getSendCommand - 1 := by omega
      have hrest := ih (n + 1) f
        (t ++ code.flatMap (encodeEvents pin (toUseconds (Int.tdiv tp.getDataLength 2))
          (toUseconds tp.getSyncLength))) hk2 (by omega)
      rw [airControlLoop]
      simp only [hn, if_true, Option.bind_eq_bind, Option.some_bind, hpass, ne_eq]
      rw [if_neg (not_not.mpr hlast), hrest]
      simp only [repeatEvents, List.append_nil, Nat.zero_add]
    | succ j =>
      have hnot : n ≠ tp.getSendCommand - 1 := by omega
      have hrest := ih (n + 1) f
        (usleep tp.getSendDelay (digitalWrite pin PinLevel.LOW
          (t ++ code.flatMap (encodeEvents pin (toUseconds (Int.tdiv tp.getDataLength 2))
            (toUseconds tp.getSyncLength))))) hk2 (by omega)
      rw [airControlLoop]
      simp only [hn, if_true, Option.bind_eq_bind, Option.some_bind, hpass, hnot, ne_eq,
        not_false_eq_true]
      rw [hrest]
      simp [repeatEvents, usleep, digitalWrite, gapEvents, List.append_assoc]

theorem targetAirControl_eq (pin : Nat) (tp : TargetParameters)
    (ha : tp.getAirCode = AirCode.MANCHESTER) (code : CppString) (t : Trace) :
    airControl pin tp code t
      = some (t ++ Event.pinMode pin PinMode.OUTPUT ::
          (repeatEvents
            (code.flatMap (encodeEvents pin (toUseconds (Int.tdiv tp.getDataLength 2))
              (toUseconds tp.getSyncLength)))
            (gapEvents pin tp.getSendDelay) tp.getSendCommand.toNat
            ++ [Event.pinMode pin PinMode.INPUT])) := by
  unfold airControl
  have h := targetAirControlLoop_eq pin tp ha code tp.getSendCommand.toNat 0
    (tp.getSendCommand.toNat + 1) (pinMode pin PinMode.OUTPUT t) (by simp) (le_refl _)
  simp only [h, Option.bind_eq_bind, Option.some_bind]
  simp [pinMode, List.append_assoc]

end ManchesterCodeTarget

/-! ## Lemmas: observations -/

theorem levelWrites_append (a b : Trace) :
    levelWrites (a ++ b) = levelWrites a ++ levelWrites b := by
  induction a with
  | nil => rfl
  | cons e rest ih => cases e <;> simp [levelWrites, ih]

theorem sleepSum_append (a b : Trace) : sleepSum (a ++ b) = sleepSum a + sleepSum b := by
  induction a with
  | nil => simp [sleepSum]
  | cons e rest ih => cases e <;> simp [sleepSum, ih, Nat.add_assoc]

theorem levelWrites_encodeEvents (pin half sync : Nat) (c : Char) :
    levelWrites (encodeEvents pin half sync c) = Spec.symbolLevels c := by
  unfold Spec.symbolLevels
  split <;> simp_all [encodeEvents, levelWrites]

theorem levelWrites_flatMap_encodeEvents (pin half sync : Nat) (code : List Char) :
    levelWrites (code.flatMap (encodeEvents pin half sync))
      = code.flatMap Spec.symbolLevels := by
  induction code with
  | nil => rfl
  | cons c rest ih =>
    simp [List.flatMap_cons, levelWrites_append, levelWrites_encodeEvents, ih]

theorem sleepSum_flatMap_encodeEvents (pin half sync : Nat) (code : List Char) :
    sleepSum (code.flatMap (encodeEvents pin half sync))
      = Spec.countSync code * sync + Spec.countData code * (2 * half) := by
  induction code with
  | nil => simp [sleepSum, Spec.countSync, Spec.countData]
  | cons c rest ih =>
    rw [List.flatMap_cons, sleepSum_append, ih]
    unfold encodeEvents Spec.countSync Spec.countData
    simp only [List.count_cons]
    split_ifs <;> simp_all [sleepSum] <;> ring

theorem levelWrites_repeatEvents (pass gap : Trace) (k : Nat) :
    levelWrites (repeatEvents pass gap k)
      = repeatEvents (levelWrites pass) (levelWrites gap) k := by
  induction k using Nat.strong_induction_on with
  | _ k ih =>
    match k with
    | 0 => rfl
    | 1 => rfl
    | j + 2 =>
      simp only [repeatEvents, levelWrites_append, ih (j + 1) (by omega)]

theorem sleepSum_repeatEvents (pass gap : Trace) (k : Nat) :
    sleepSum (repeatEvents pass gap k) = k * sleepSum pass + (k - 1) * sleepSum gap := by
  induction k using Nat.strong_induction_on with
  | _ k ih =>
    match k with
    | 0 => simp [repeatEvents, sleepSum]
    | 1 => simp [repeatEvents]
    | j + 2 =>
      simp only [repeatEvents, sleepSum_append, ih (j + 1) (by omega)]
      rw [show j + 2 - 1 = j + 1 by omega, show j + 1 - 1 = j by omega]
      ring

theorem repeatEvents_succ {α : Type} (pass gap : List α) (k : Nat) :
    repeatEvents pass gap (k + 1) = pass ++ (List.replicate k (gap ++ pass)).flatten := by
  induction k with
  | zero => simp [repeatEvents]
  | succ j ih =>
    rw [repeatEvents, ih]
    simp [List.replicate_succ, List.append_assoc]

theorem sleepSum_gapEvents (pin : Nat) (sendDelay : Int) :
    sleepSum (gapEvents pin sendDelay) = toUseconds sendDelay := by
  simp [gapEvents, sleepSum]

theorem mem_flatMap_encodeEvents (pin half sync : Nat) (code : List Char) (e : Event)
    (he : e ∈ code.flatMap (encodeEvents pin half sync)) :
    (∃ value, e = Event.digitalWrite pin value) ∨ ∃ usec, e = Event.usleep usec := by
  rw [List.mem_flatMap] at he
  obtain ⟨c, -, hc⟩ := he
  unfold encodeEvents at hc
  split_ifs at hc <;>
    simp only [List.mem_cons, List.mem_singleton, List.not_mem_nil, or_false] at hc <;>
    aesop

theorem mem_repeatEvents {α : Type} (pass gap : List α) (k : Nat) (e : α)
    (he : e ∈ repeatEvents pass gap k) : e ∈ pass ∨ e ∈ gap := by
  induction k using Nat.strong_induction_on with
  | _ k ih =>
    match k with
    | 0 => simp [repeatEvents] at he
    | 1 => exact Or.inl (by simpa [repeatEvents] using he)
    | j + 2 =>
      simp only [repeatEvents, List.mem_append] at he
      rcases he with (h | h) | h
      · exact Or.inl h
      · exact Or.inr h
      · exact ih (j + 1) (by omega) h

theorem mem_transmission_body (pin half sync : Nat) (sendDelay : Int) (code : List Char)
    (k : Nat) (e : Event)
    (he : e ∈ repeatEvents (code.flatMap (encodeEvents pin half sync))
      (gapEvents pin sendDelay) k) :
    (∃ value, e = Event.digitalWrite pin value) ∨ ∃ usec, e = Event.usleep usec := by
  rcases mem_repeatEvents _ _ k e he with h | h
  · exact mem_flatMap_encodeEvents pin half sync code e h
  · simp only [gapEvents, List.mem_cons, List.mem_singleton, List.not_mem_nil, or_false] at h
    rcases h with h | h
    · exact Or.inl ⟨_, h⟩
    · exact Or.inr ⟨_, h⟩

theorem modeAfter_body (pin : Nat) (init : PinMode) (body : Trace)
    (hb : ∀ e ∈ body, (∃ value, e = Event.digitalWrite pin value) ∨ ∃ usec, e = Event.usleep usec)
    (rest : Trace) : modeAfter pin init (body ++ rest) = modeAfter pin init rest := by
  induction body with
  | nil => rfl
  | cons e tl ih =>
    have htl := ih (fun x hx => hb x (List.mem_cons_of_mem _ hx))
    rcases hb e (List.mem_cons_self _ _) with ⟨v, rfl⟩ | ⟨u, rfl⟩ <;> simpa [modeAfter] using htl

theorem modeAfter_beforeFirstWrite_body (pin : Nat) (init : PinMode) (body : Trace)
    (hb : ∀ e ∈ body, (∃ value, e = Event.digitalWrite pin value) ∨ ∃ usec, e = Event.usleep usec)
    (rest : Trace) (hw : levelWrites body ≠ []) :
    modeAfter pin init (beforeFirstWrite (body ++ rest)) = init := by
  induction body with
  | nil => simp [levelWrites] at hw
  | cons e tl ih =>
    rcases hb e (List.mem_cons_self _ _) with ⟨v, rfl⟩ | ⟨u, rfl⟩
    · simp [beforeFirstWrite, modeAfter]
    · have htl := ih (fun x hx => hb x (List.mem_cons_of_mem _ hx))
        (by simpa [levelWrites] using hw)
      simpa [beforeFirstWrite, modeAfter] using htl

/-! ## Lemmas: `split` -/

namespace WaremaSend

theorem getlineExtract_no_delimiter (d : Char) (a : List Char) (h : d ∉ a) :
    getlineExtract d a = (a, []) := by
  induction a with
  | nil => rfl
  | cons c rest ih =>
    have hc : c ≠ d := fun hcd => h (hcd ▸ List.mem_cons_self _ _)
    have hr : d ∉ rest := fun hm => h (List.mem_cons_of_mem _ hm)
    simp [getlineExtract, hc, ih hr]

theorem getlineExtract_delimiter (d : Char) (a rest : List Char) (h : d ∉ a) :
    getlineExtract d (a ++ d :: rest) = (a, rest) := by
  induction a with
  | nil => simp [getlineExtract]
  | cons c tl ih =>
    have hc : c ≠ d := fun hcd => h (hcd ▸ List.mem_cons_self _ _)
    have hr : d ∉ tl := fun hm => h (List.mem_cons_of_mem _ hm)
    simp [getlineExtract, hc, ih hr]

theorem getlineExtract_rest_length (d : Char) (s : List Char) :
    (getlineExtract d s).2.length ≤ s.length - 1 := by
  induction s with
  | nil => simp [getlineExtract]
  | cons c rest ih =>
    unfold getlineExtract
    split_ifs
    · simp
    · simp only [List.length_cons, Nat.add_sub_cancel]
      omega

theorem splitLoop_enough_fuel (d : Char) (n : Nat) :
    ∀ (s : List Char), s.length ≤ n → ∀ (fuel1 fuel2 : Nat) (tokens : List CppString),
      s.length + 1 ≤ fuel1 → s.length + 1 ≤ fuel2 →
      splitLoop d fuel1 s tokens = tokens ++ splitLoop d fuel2 s [] := by
  induction n with
  | zero =>
    intro s hs fuel1 fuel2 tokens h1 h2
    have hnil : s = [] := List.length_eq_zero.mp (by omega)
    subst hnil
    obtain ⟨f1, rfl⟩ : ∃ f, fuel1 = f + 1 := ⟨fuel1 - 1, by omega⟩
    obtain ⟨f2, rfl⟩ : ∃ f, fuel2 = f + 1 := ⟨fuel2 - 1, by omega⟩
    simp [splitLoop, getline]
  | succ n ih =>
    intro s hs fuel1 fuel2 tokens h1 h2
    obtain ⟨f1, rfl⟩ : ∃ f, fuel1 = f + 1 := ⟨fuel1 - 1, by omega⟩
    obtain ⟨f2, rfl⟩ : ∃ f, fuel2 = f + 1 := ⟨fuel2 - 1, by omega⟩
    cases s with
    | nil => simp [splitLoop, getline]
    | cons c cs =>
      have hlen := getlineExtract_rest_length d (c :: cs)
      simp only [List.length_cons, Nat.add_sub_cancel] at hlen h1 h2 hs
      have e1 := ih (getlineExtract d (c :: cs)).2 (by omega) f1
        ((getlineExtract d (c :: cs)).2.length + 1)
        (tokens ++ [(getlineExtract d (c :: cs)).1]) (by omega) (le_refl _)
      have e2 := ih (getlineExtract d (c :: cs)).2 (by omega) f2
        ((getlineExtract d (c :: cs)).2.length + 1)
        ([] ++ [(getlineExtract d (c :: cs)).1]) (by omega) (le_refl _)
      have l1 : splitLoop d (f1 + 1) (c :: cs) tokens
          = splitLoop d f1 (getlineExtract d (c :: cs)).2
              (tokens ++ [(getlineExtract d (c :: cs)).1]) := rfl
      have l2 : splitLoop d (f2 + 1) (c :: cs) []
          = splitLoop d f2 (getlineExtract d (c :: cs)).2
              ([] ++ [(getlineExtract d (c :: cs)).1]) := rfl
      rw [l1, l2, e1, e2]
      simp only [List.nil_append, List.append_assoc]

theorem split_nil (d : Char) : split [] d = [] := rfl

theorem split_no_delimiter (d : Char) (a : List Char) (ha : a ≠ []) (h : d ∉ a) :
    split a d = [a] := by
  cases a with
  | nil => exact absurd rfl ha
  | cons c cs =>
    simp only [split, splitLoop, getline, getlineExtract_no_delimiter d (c :: cs) h,
      List.nil_append]

theorem split_delimiter (d : Char) (a rest : List Char) (h : d ∉ a) :
    split (a ++ d :: rest) d = a :: split rest d := by
  have hne : ∃ c cs, a ++ d :: rest = c :: cs := by
    cases a with
    | nil => exact ⟨d, rest, rfl⟩
    | cons c cs => exact ⟨c, cs ++ d :: rest, rfl⟩
  obtain ⟨c, cs, hcs⟩ := hne
  have hx := getlineExtract_delimiter d a rest h
  rw [hcs] at hx
  have hl : (a ++ d :: rest).length = a.length + rest.length + 1 := by
    simp [Nat.add_assoc]
  unfold split
  rw [hl, hcs]
  simp only [splitLoop, getline, hx, List.nil_append]
  exact splitLoop_enough_fuel d rest.length rest (le_refl _) (a.length + rest.length + 1)
    (rest.length + 1) [a] (by omega) (le_refl _)

theorem first_delimiter (d : Char) (s : List Char) :
    d ∉ s ∨ ∃ a rest, d ∉ a ∧ s = a ++ d :: rest := by
  by_cases h : d ∈ s
  · obtain ⟨a, rest, hs, ha⟩ := List.eq_append_cons_of_mem h
    exact Or.inr ⟨a, rest, ha, hs⟩
  · exact Or.inl h

theorem split_eq_nil (d : Char) (s : List Char) (h : split s d = []) : s = [] := by
  rcases first_delimiter d s with hs | ⟨a, rest, ha, rfl⟩
  · by_contra hne
    rw [split_no_delimiter d s hne hs] at h
    simp at h
  · rw [split_delimiter d a rest ha] at h
    simp at h

theorem split_eq_singleton (d : Char) (s a : List Char) (h : split s d = [a]) :
    d ∉ a ∧ (s = a ∧ a ≠ [] ∨ s = a ++ [d]) := by
  rcases first_delimiter d s with hs | ⟨x, rest, hx, rfl⟩
  · by_cases hne : s = []
    · subst hne
      simp [split_nil] at h
    · rw [split_no_delimiter d s hne hs] at h
      have hsa : s = a := by simpa using h
      subst hsa
      exact ⟨hs, Or.inl ⟨rfl, hne⟩⟩
  · rw [split_delimiter d x rest hx] at h
    have hxa : x = a := by simpa using (List.cons.inj h).1
    have hrest : rest = [] := split_eq_nil d rest (List.cons.inj h).2
    subst hxa hrest
    exact ⟨hx, Or.inr rfl⟩

theorem split_eq_pair_iff (d : Char) (s device action : List Char) :
    split s d = [device, action] ↔
      d ∉ device ∧ d ∉ action ∧
        (s = device ++ d :: action ∧ action ≠ [] ∨ s = device ++ d :: (action ++ [d])) := by
  constructor
  · intro h
    rcases first_delimiter d s with hs | ⟨x, rest, hx, rfl⟩
    · by_cases hne : s = []
      · subst hne
        simp [split_nil] at h
      · rw [split_no_delimiter d s hne hs] at h
        simp at h
    · rw [split_delimiter d x rest hx] at h
      have hxd : x = device := (List.cons.inj h).1
      have hrest := split_eq_singleton d rest action (List.cons.inj h).2
      subst hxd
      refine ⟨hx, hrest.1, ?_⟩
      rcases hrest.2 with ⟨h1, h2⟩ | h1
      · exact Or.inl ⟨by rw [h1], h2⟩
      · exact Or.inr (by rw [h1])
  · rintro ⟨hd, ha, ⟨rfl, hne⟩ | rfl⟩
    · rw [split_delimiter d device action hd, split_no_delimiter d action hne ha]
    · rw [split_delimiter d device _ hd, split_delimiter d action [] ha, split_nil]

theorem split_length_two_iff (d : Char) (s : List Char) :
    (split s d).length = 2 ↔
      ∃ device action, d ∉ device ∧ d ∉ action ∧
        (s = device ++ d :: action ∧ action ≠ [] ∨ s = device ++ d :: (action ++ [d])) := by
  constructor
  · intro h
    obtain ⟨device, action, hp⟩ := List.length_eq_two.mp h
    exact ⟨device, action, (split_eq_pair_iff d s device action).mp hp⟩
  · rintro ⟨device, action, h⟩
    rw [(split_eq_pair_iff d s device action).mpr h]
    rfl

end WaremaSend

/-! ## Lemmas: `load` and `start` -/

theorem except_bind_error {ε α β : Type} (x : Except ε α) (f : α → Except ε β) (e : ε)
    (h : x >>= f = Except.error e) :
    x = Except.error e ∨ ∃ a, x = Except.ok a ∧ f a = Except.error e := by
  cases x with
  | error e2 =>
    left
    simpa [bind, Except.bind] using h
  | ok a => exact Or.inr ⟨a, rfl, h⟩

namespace WaremaSendParameters

theorem getValue_error {α : Type} (get : CppString → CppString → Option α)
    (devicename section_ name : CppString) (d : Diag)
    (h : getValue get devicename section_ name = Except.error d) : d.fromLoad = true := by
  unfold getValue at h
  cases h1 : get (waremasend ++ "_".toList ++ devicename) name with
  | some v =>
    simp only [h1] at h
    cases h
  | none =>
    cases h2 : get waremasend name with
    | some v =>
      simp only [h1, h2] at h
      cases h
    | none =>
      simp only [h1, h2] at h
      cases h
      rfl

theorem loadGpioPin_error (P : Platform) (cfg : Configuration) (p : WaremaSendParameters)
    (d : Diag) (h : loadGpioPin P cfg p = Except.error d) : d.fromLoad = true := by
  unfold loadGpioPin at h
  split at h
  · next d2 hg =>
    cases h
    exact getValue_error _ _ _ _ _ hg
  · split at h
    · cases h
      rfl
    · simp at h

theorem loadDataLength_error (P : Platform) (cfg : Configuration) (p : WaremaSendParameters)
    (d : Diag) (h : loadDataLength P cfg p = Except.error d) : d.fromLoad = true := by
  unfold loadDataLength at h
  split at h
  · next d2 hg =>
    cases h
    exact getValue_error _ _ _ _ _ hg
  · simp only at h
    split_ifs at h <;> (cases h; rfl)

theorem loadSyncLength_error (P : Platform) (cfg : Configuration) (p : WaremaSendParameters)
    (d : Diag) (h : loadSyncLength P cfg p = Except.error d) : d.fromLoad = true := by
  unfold loadSyncLength at h
  split at h
  · next d2 hg =>
    cases h
    exact getValue_error _ _ _ _ _ hg
  · simp only at h
    split_ifs at h <;> (cases h; rfl)

theorem loadManchestercode_error (cfg : Configuration) (p : WaremaSendParameters)
    (name : CppString) (d : Diag) (h : loadManchestercode cfg p name = Except.error d) :
    d.fromLoad = true := by
  unfold loadManchestercode at h
  split at h
  · next d2 hg =>
    cases h
    exact getValue_error _ _ _ _ _ hg
  · split_ifs at h
    · cases h
      rfl
    · split at h
      · cases h
        rfl
      · simp at h

theorem except_map_error {ε α β : Type} (x : Except ε α) (f : α → β) (e : ε)
    (h : x.map f = Except.error e) : x = Except.error e := by
  cases x with
  | error e2 => simpa [Except.map] using h
  | ok a => simp [Except.map] at h

theorem loadSendCommand_error (P : Platform) (cfg : Configuration) (p : WaremaSendParameters)
    (d : Diag) (h : loadSendCommand P cfg p = Except.error d) : d.fromLoad = true := by
  unfold loadSendCommand at h
  split at h
  · next d2 hg =>
    cases h
    exact getValue_error _ _ _ _ _ hg
  · simp only at h
    split_ifs at h <;> (cases h; rfl)

theorem loadSendDelay_error (P : Platform) (cfg : Configuration) (p : WaremaSendParameters)
    (d : Diag) (h : loadSendDelay P cfg p = Except.error d) : d.fromLoad = true := by
  unfold loadSendDelay at h
  split at h
  · next d2 hg =>
    cases h
    exact getValue_error _ _ _ _ _ hg
  · simp only at h
    split_ifs at h
    cases h
    rfl

theorem load_error (P : Platform) (cfg : Configuration) (p : WaremaSendParameters)
    (d : Diag) (h : load P cfg p = Except.error d) : d.fromLoad = true := by
  unfold load at h
  rcases except_bind_error _ _ _ h with h | ⟨_, h, h9⟩
  · rcases except_bind_error _ _ _ h with h | ⟨_, h, h8⟩
    · rcases except_bind_error _ _ _ h with h | ⟨_, h, h7⟩
      · rcases except_bind_error _ _ _ h with h | ⟨_, h, h6⟩
        · rcases except_bind_error _ _ _ h with h | ⟨_, h, h5⟩
          · rcases except_bind_error _ _ _ h with h | ⟨_, h, h4⟩
            · rcases except_bind_error _ _ _ h with h | ⟨_, h, h3⟩
              · rcases except_bind_error _ _ _ h with h | ⟨_, h, h2⟩
                · exact loadGpioPin_error _ _ _ _ h
                · exact loadDataLength_error _ _ _ _ h2
              · exact loadSyncLength_error _ _ _ _ h3
            · exact loadManchestercode_error _ _ _ _ (except_map_error _ _ _ h4)
          · exact loadManchestercode_error _ _ _ _ (except_map_error _ _ _ h5)
        · exact loadManchestercode_error _ _ _ _ (except_map_error _ _ _ h6)
      · exact loadManchestercode_error _ _ _ _ (except_map_error _ _ _ h7)
    · exact loadSendCommand_error _ _ _ _ h8
  · exact loadSendDelay_error _ _ _ _ h9

end WaremaSendParameters

namespace WaremaSend

theorem start_of_not_pair (P : Platform) (cfg : Configuration) (pin : Nat) (desc : CppString)
    (h : (split desc '.').length ≠ 2) :
    start P cfg pin desc
      = some ⟨EXIT_FAILURE, [Diag.paramDeviceAndAction desc], [], pin, []⟩ := by
  unfold start
  simp only [h, ne_eq, not_false_eq_true, if_true]

theorem start_of_pair (P : Platform) (cfg : Configuration) (pin : Nat)
    (desc device action : CppString) (h : split desc '.' = [device, action]) :
    start P cfg pin desc
      = if !cfg.isValidSection ("waremasend_".toList ++ device) then
          some ⟨EXIT_FAILURE, [Diag.sectionNotFound ("waremasend_".toList ++ device) device],
            [], pin, []⟩
        else
          match WaremaSendParameters.load P cfg (WaremaSendParameters.new P device) with
          | Except.error d => some ⟨EXIT_FAILURE, [d], [], pin, []⟩
          | Except.ok parameters_ =>
            if pin = P.INVALID_GPIO_PIN then
              (parameters_.getGpioPin P).bind fun gpioPin_ =>
                startAction P parameters_ gpioPin_ (to_lower action)
            else if !P.isValidGpioPin pin then
              some ⟨EXIT_FAILURE, [Diag.givenGpioPinInvalid pin], [], pin, []⟩
            else
              startAction P parameters_ pin (to_lower action) := by
  unfold start
  simp only [h, List.length_cons, List.length_nil, ne_eq, not_true_eq_false, if_false]
  rfl

theorem startSend_eq_some (P : Platform) (p : WaremaSendParameters) (pin : Nat)
    (fragment : CppString) (r : StartResult) (h : startSend P p pin fragment = some r) :
    r.exitCode = EXIT_SUCCESS ∧ r.stderr = [] ∧ r.gpioPin_ = pin
      ∧ r.manchestercode_ = fragment ++ p.manchesterCodeDevice_ ++ "S".toList
      ∧ airControl P pin p r.manchestercode_ [] = some r.trace := by
  unfold startSend WaremaSendParameters.getManchesterCodeDevice at h
  split_ifs at h with hdev
  · simp only [Option.bind_eq_bind, Option.some_bind] at h
    cases hair : airControl P pin p (fragment ++ p.manchesterCodeDevice_ ++ "S".toList) [] with
    | none =>
      rw [hair] at h
      simp at h
    | some t =>
      simp only [hair, Option.some_bind, Option.pure_def, Option.some.injEq] at h
      subst h
      exact ⟨rfl, rfl, rfl, rfl, hair⟩
  · simp at h

theorem startAction_eq_some (P : Platform) (p : WaremaSendParameters) (pin : Nat)
    (action_ : CppString) (r : StartResult) (h : startAction P p pin action_ = some r) :
    (r = ⟨EXIT_FAILURE, [Diag.actionInvalid action_], [], pin, []⟩
        ∧ action_ ≠ "up".toList ∧ action_ ≠ "down".toList ∧ action_ ≠ "stop".toList)
      ∨ (r.exitCode = EXIT_SUCCESS ∧ r.stderr = [] ∧ r.gpioPin_ = pin
        ∧ airControl P pin p r.manchestercode_ [] = some r.trace
        ∧ ((action_ = "up".toList ∧ r.manchestercode_
              = p.manchesterCodeUp_ ++ p.manchesterCodeDevice_ ++ "S".toList)
          ∨ (action_ = "down".toList ∧ r.manchestercode_
              = p.manchesterCodeDown_ ++ p.manchesterCodeDevice_ ++ "S".toList)
          ∨ (action_ = "stop".toList ∧ r.manchestercode_
              = p.manchesterCodeStop_ ++ p.manchesterCodeDevice_ ++ "S".toList))) := by
  unfold startAction at h
  split_ifs at h with hup hdown hstop
  · right
    unfold WaremaSendParameters.getManchesterCodeUp at h
    split_ifs at h
    · obtain ⟨h1, h2, h3, h4, h5⟩ := startSend_eq_some P p pin _ r h
      exact ⟨h1, h2, h3, h5, Or.inl ⟨hup, h4⟩⟩
    · simp at h
  · right
    unfold WaremaSendParameters.getManchesterCodeDown at h
    split_ifs at h
    · obtain ⟨h1, h2, h3, h4, h5⟩ := startSend_eq_some P p pin _ r h
      exact ⟨h1, h2, h3, h5, Or.inr (Or.inl ⟨hdown, h4⟩)⟩
    · simp at h
  · right
    unfold WaremaSendParameters.getManchesterCodeStop at h
    split_ifs at h
    · obtain ⟨h1, h2, h3, h4, h5⟩ := startSend_eq_some P p pin _ r h
      exact ⟨h1, h2, h3, h5, Or.inr (Or.inr ⟨hstop, h4⟩)⟩
    · simp at h
  · left
    exact ⟨(Option.some.inj h).symm, hup, hdown, hstop⟩

/-- The cases of a returning `start` on a descriptor with two parts. -/
theorem start_pair_cases (P : Platform) (cfg : Configuration) (pin : Nat)
    (desc device action : CppString) (r : StartResult)
    (hsplit : split desc '.' = [device, action]) (h : start P cfg pin desc = some r) :
    (cfg.isValidSection ("waremasend_".toList ++ device) = false
        ∧ r = ⟨EXIT_FAILURE,
            [Diag.sectionNotFound ("waremasend_".toList ++ device) device], [], pin, []⟩)
      ∨ (cfg.isValidSection ("waremasend_".toList ++ device) = true
        ∧ ∃ d, WaremaSendParameters.load P cfg (WaremaSendParameters.new P device)
            = Except.error d
          ∧ r = ⟨EXIT_FAILURE, [d], [], pin, []⟩)
      ∨ (cfg.isValidSection ("waremasend_".toList ++ device) = true
        ∧ ∃ p, WaremaSendParameters.load P cfg (WaremaSendParameters.new P device)
            = Except.ok p
          ∧ pin ≠ P.INVALID_GPIO_PIN ∧ P.isValidGpioPin pin = false
          ∧ r = ⟨EXIT_FAILURE, [Diag.givenGpioPinInvalid pin], [], pin, []⟩)
      ∨ (cfg.isValidSection ("waremasend_".toList ++ device) = true
        ∧ ∃ p, WaremaSendParameters.load P cfg (WaremaSendParameters.new P device)
            = Except.ok p
          ∧ ∃ used, (pin = P.INVALID_GPIO_PIN ∧ p.getGpioPin P = some used
              ∨ pin ≠ P.INVALID_GPIO_PIN ∧ P.isValidGpioPin pin = true ∧ used = pin)
            ∧ startAction P p used (to_lower action) = some r) := by
  rw [start_of_pair P cfg pin desc device action hsplit] at h
  cases hsec : cfg.isValidSection ("waremasend_".toList ++ device) with
  | false =>
    left
    simp only [hsec, Bool.not_false, if_true] at h
    exact ⟨rfl, (Option.some.inj h).symm⟩
  | true =>
    right
    simp only [hsec, Bool.not_true, Bool.false_eq_true, if_false] at h
    cases hload : WaremaSendParameters.load P cfg (WaremaSendParameters.new P device) with
    | error d =>
      left
      simp only [hload] at h
      exact ⟨rfl, d, rfl, (Option.some.inj h).symm⟩
    | ok p =>
      right
      simp only [hload] at h
      by_cases hpin : pin = P.INVALID_GPIO_PIN
      · right
        simp only [hpin, if_true] at h
        cases hget : p.getGpioPin P with
        | none => simp [hget] at h
        | some used =>
          simp only [hget, Option.some_bind] at h
          exact ⟨rfl, p, rfl, used, Or.inl ⟨hpin, hget⟩, h⟩
      · simp only [hpin, if_false] at h
        cases hval : P.isValidGpioPin pin with
        | false =>
          left
          simp only [hval, Bool.not_false, if_true] at h
          exact ⟨rfl, p, rfl, hpin, rfl, (Option.some.inj h).symm⟩
        | true =>
          right
          simp only [hval, Bool.not_true, Bool.false_eq_true, if_false] at h
          exact ⟨rfl, p, rfl, pin, Or.inr ⟨hpin, rfl, rfl⟩, h⟩

end WaremaSend

/-! ## Lemmas: what a successful `load` establishes -/

theorem except_bind_ok {ε α β : Type} (x : Except ε α) (f : α → Except ε β) (b : β)
    (h : x >>= f = Except.ok b) : ∃ a, x = Except.ok a ∧ f a = Except.ok b := by
  cases x with
  | error e => simp [bind, Except.bind] at h
  | ok a => exact ⟨a, rfl, h⟩

theorem except_map_ok {ε α β : Type} (x : Except ε α) (f : α → β) (b : β)
    (h : x.map f = Except.ok b) : ∃ a, x = Except.ok a ∧ f a = b := by
  cases x with
  | error e => simp [Except.map] at h
  | ok a => exact ⟨a, rfl, by simpa [Except.map] using h⟩

theorem find_first_not_of_eq_none (elements : CppString) (var : CppString) :
    find_first_not_of elements var = none ↔ ∀ c ∈ var, c ∈ elements := by
  induction var with
  | nil => simp [find_first_not_of]
  | cons c rest ih =>
    unfold find_first_not_of
    split_ifs with hc
    · simp [ih, hc]
    · simp [hc]

theorem find_first_not_of_eq_some (elements : CppString) (var : CppString) (i : Nat)
    (h : find_first_not_of elements var = some i) :
    ∃ before c after, var = before ++ c :: after ∧ before.length = i ∧ c ∉ elements
      ∧ ∀ x ∈ before, x ∈ elements := by
  induction var generalizing i with
  | nil => simp [find_first_not_of] at h
  | cons c rest ih =>
    unfold find_first_not_of at h
    split_ifs at h with hc
    · cases hr : find_first_not_of elements rest with
      | none => simp [hr] at h
      | some j =>
        simp only [hr, Option.map_some', Option.some.injEq] at h
        obtain ⟨before, x, after, hvar, hlen, hx, hall⟩ := ih j hr
        refine ⟨c :: before, x, after, by rw [hvar]; rfl, by simp [hlen, h], hx, ?_⟩
        intro y hy
        rcases List.mem_cons.mp hy with rfl | hy
        · exact hc
        · exact hall y hy
    · cases h
      exact ⟨[], c, rest, rfl, rfl, hc, by simp⟩

namespace WaremaSendParameters

theorem loadGpioPin_ok (P : Platform) (cfg : Configuration) (q r : WaremaSendParameters)
    (h : loadGpioPin P cfg q = Except.ok r) :
    ∃ value, getValue cfg.getValueInt q.devicename_ q.devicename_ "gpioPin".toList
        = Except.ok value
      ∧ P.isValidGpioPin value = true ∧ r = { q with gpioPin_ := (value % 256).toNat } := by
  unfold loadGpioPin at h
  split at h
  · cases h
  · next value hg =>
    cases hv : P.isValidGpioPin value with
    | false => simp [hv] at h
    | true =>
      simp only [hv, Bool.not_true, Bool.false_eq_true, if_false] at h
      exact ⟨value, hg, hv, (Except.ok.inj h).symm⟩

theorem loadDataLength_ok (P : Platform) (cfg : Configuration) (q r : WaremaSendParameters)
    (h : loadDataLength P cfg q = Except.ok r) :
    ∃ value, getValue cfg.getValueInt q.devicename_ q.devicename_ "dataLength".toList
        = Except.ok value
      ∧ value ≠ P.INVALID_PARAMETER ∧ 0 < value ∧ r = { q with dataLengthUs_ := value } := by
  unfold loadDataLength at h
  split at h
  · cases h
  · next value hg =>
    simp only at h
    split_ifs at h with h1 h2
    exact ⟨value, hg, h1, by omega, (Except.ok.inj h).symm⟩

theorem loadSyncLength_ok (P : Platform) (cfg : Configuration) (q r : WaremaSendParameters)
    (h : loadSyncLength P cfg q = Except.ok r) :
    ∃ value, getValue cfg.getValueInt q.devicename_ q.devicename_ "syncLength".toList
        = Except.ok value
      ∧ value ≠ P.INVALID_PARAMETER ∧ 0 ≤ value ∧ r = { q with syncLengthUs_ := value } := by
  unfold loadSyncLength at h
  split at h
  · cases h
  · next value hg =>
    simp only at h
    split_ifs at h with h1 h2
    exact ⟨value, hg, h1, by omega, (Except.ok.inj h).symm⟩

theorem loadManchestercode_ok (cfg : Configuration) (q : WaremaSendParameters)
    (name var : CppString) (h : loadManchestercode cfg q name = Except.ok var) :
    getValue cfg.getValueString q.devicename_ q.devicename_ name = Except.ok var
      ∧ var ≠ [] ∧ ∀ c ∈ var, c ∈ "01sS".toList := by
  unfold loadManchestercode at h
  split at h
  · cases h
  · next value hg =>
    split_ifs at h with h1
    split at h
    · cases h
    · next hnone =>
      cases h
      exact ⟨hg, fun hnil => h1 (by rw [hnil]; rfl),
        (find_first_not_of_eq_none _ _).mp hnone⟩

theorem loadSendCommand_ok (P : Platform) (cfg : Configuration) (q r : WaremaSendParameters)
    (h : loadSendCommand P cfg q = Except.ok r) :
    ∃ value, getValue cfg.getValueInt q.devicename_ q.devicename_ "sendCommand".toList
        = Except.ok value
      ∧ value ≠ P.INVALID_PARAMETER ∧ 0 < value ∧ r = { q with sendCommand_ := value } := by
  unfold loadSendCommand at h
  split at h
  · cases h
  · next value hg =>
    simp only at h
    split_ifs at h with h1 h2
    exact ⟨value, hg, h1, by omega, (Except.ok.inj h).symm⟩

theorem loadSendDelay_ok (P : Platform) (cfg : Configuration) (q r : WaremaSendParameters)
    (h : loadSendDelay P cfg q = Except.ok r) :
    ∃ value, getValue cfg.getValueInt q.devicename_ q.devicename_ "sendDelay".toList
        = Except.ok value
      ∧ value ≠ P.INVALID_PARAMETER ∧ r = { q with sendDelayUs_ := value } := by
  unfold loadSendDelay at h
  split at h
  · cases h
  · next value hg =>
    simp only at h
    split_ifs at h with h1
    exact ⟨value, hg, h1, (Except.ok.inj h).symm⟩

/-- What a successful `load()` has read and checked, and what it has stored. -/
theorem load_ok (P : Platform) (cfg : Configuration) (q p : WaremaSendParameters)
    (h : load P cfg q = Except.ok p) :
    ∃ (pin dataLength syncLength sendCommand sendDelay : Int)
      (device down up stop : CppString),
      getValue cfg.getValueInt q.devicename_ q.devicename_ "gpioPin".toList = Except.ok pin
      ∧ P.isValidGpioPin pin = true
      ∧ getValue cfg.getValueInt q.devicename_ q.devicename_ "dataLength".toList
          = Except.ok dataLength
      ∧ dataLength ≠ P.INVALID_PARAMETER ∧ 0 < dataLength
      ∧ getValue cfg.getValueInt q.devicename_ q.devicename_ "syncLength".toList
          = Except.ok syncLength
      ∧ syncLength ≠ P.INVALID_PARAMETER ∧ 0 ≤ syncLength
      ∧ getValue cfg.getValueString q.devicename_ q.devicename_
          "manchesterCodeDevice".toList = Except.ok device
      ∧ device ≠ [] ∧ (∀ c ∈ device, c ∈ "01sS".toList)
      ∧ getValue cfg.getValueString q.devicename_ q.devicename_
          "manchesterCodeDown".toList = Except.ok down
      ∧ down ≠ [] ∧ (∀ c ∈ down, c ∈ "01sS".toList)
      ∧ getValue cfg.getValueString q.devicename_ q.devicename_
          "manchesterCodeUp".toList = Except.ok up
      ∧ up ≠ [] ∧ (∀ c ∈ up, c ∈ "01sS".toList)
      ∧ getValue cfg.getValueString q.devicename_ q.devicename_
          "manchesterCodeStop".toList = Except.ok stop
      ∧ stop ≠ [] ∧ (∀ c ∈ stop, c ∈ "01sS".toList)
      ∧ getValue cfg.getValueInt q.devicename_ q.devicename_ "sendCommand".toList
          = Except.ok sendCommand
      ∧ sendCommand ≠ P.INVALID_PARAMETER ∧ 0 < sendCommand
      ∧ getValue cfg.getValueInt q.devicename_ q.devicename_ "sendDelay".toList
          = Except.ok sendDelay
      ∧ sendDelay ≠ P.INVALID_PARAMETER
      ∧ p = ⟨q.devicename_, (pin % 256).toNat, dataLength, syncLength, device, down, up, stop,
          sendCommand, sendDelay⟩ := by
  unfold load at h
  obtain ⟨q8, h, h9⟩ := except_bind_ok _ _ _ h
  obtain ⟨q7, h, h8⟩ := except_bind_ok _ _ _ h
  obtain ⟨q6, h, h7⟩ := except_bind_ok _ _ _ h
  obtain ⟨q5, h, h6⟩ := except_bind_ok _ _ _ h
  obtain ⟨q4, h, h5⟩ := except_bind_ok _ _ _ h
  obtain ⟨q3, h, h4⟩ := except_bind_ok _ _ _ h
  obtain ⟨q2, h, h3⟩ := except_bind_ok _ _ _ h
  obtain ⟨q1, h1, h2⟩ := except_bind_ok _ _ _ h
  obtain ⟨pin, g1, v1, rfl⟩ := loadGpioPin_ok P cfg q q1 h1
  obtain ⟨dataLength, g2, i2, v2, rfl⟩ := loadDataLength_ok P cfg _ q2 h2
  obtain ⟨syncLength, g3, i3, v3, rfl⟩ := loadSyncLength_ok P cfg _ q3 h3
  obtain ⟨device, l4, rfl⟩ := except_map_ok _ _ _ h4
  obtain ⟨g4, n4, a4⟩ := loadManchestercode_ok cfg _ _ device l4
  obtain ⟨down, l5, rfl⟩ := except_map_ok _ _ _ h5
  obtain ⟨g5, n5, a5⟩ := loadManchestercode_ok cfg _ _ down l5
  obtain ⟨up, l6, rfl⟩ := except_map_ok _ _ _ h6
  obtain ⟨g6, n6, a6⟩ := loadManchestercode_ok cfg _ _ up l6
  obtain ⟨stop, l7, rfl⟩ := except_map_ok _ _ _ h7
  obtain ⟨g7, n7, a7⟩ := loadManchestercode_ok cfg _ _ stop l7
  obtain ⟨sendCommand, g8, i8, v8, rfl⟩ := loadSendCommand_ok P cfg _ q8 h8
  obtain ⟨sendDelay, g9, i9, rfl⟩ := loadSendDelay_ok P cfg _ p h9
  exact ⟨pin, dataLength, syncLength, sendCommand, sendDelay, device, down, up, stop,
    g1, v1, g2, i2, v2, g3, i3, v3, g4, n4, a4, g5, n5, a5, g6, n6, a6, g7, n7, a7,
    g8, i8, v8, g9, i9, rfl⟩

theorem load_loaded (P : Platform) (cfg : Configuration) (q p : WaremaSendParameters)
    (h : load P cfg q = Except.ok p) : p.Loaded P := by
  obtain ⟨pin, dataLength, syncLength, sendCommand, sendDelay, device, down, up, stop,
    -, -, -, i2, -, -, i3, -, -, -, -, -, -, -, -, -, -, -, -, -, -, i8, -, -, i9, rfl⟩ :=
    load_ok P cfg q p h
  exact ⟨i2, i3, i8, i9⟩

end WaremaSendParameters

/-! ## Lemmas: `start` returns -/

namespace WaremaSend

theorem startSend_returns (P : Platform) (p : WaremaSendParameters) (pin : Nat)
    (fragment : CppString) (hL : p.Loaded P) (hdev : p.manchesterCodeDevice_ ≠ []) :
    ∃ t, startSend P p pin fragment
        = some ⟨EXIT_SUCCESS, [], t, pin, fragment ++ p.manchesterCodeDevice_ ++ "S".toList⟩
      ∧ airControl P pin p (fragment ++ p.manchesterCodeDevice_ ++ "S".toList) [] = some t := by
  have hlen : p.manchesterCodeDevice_.length ≠ 0 := fun h => hdev (List.length_eq_zero.mp h)
  have hair := airControl_eq P pin p hL (fragment ++ p.manchesterCodeDevice_ ++ "S".toList) []
  refine ⟨_, ?_, hair⟩
  unfold startSend WaremaSendParameters.getManchesterCodeDevice
  rw [if_pos hlen]
  simp only [Option.bind_eq_bind, Option.some_bind, hair, Option.pure_def]

/-- With loaded parameters, `startAction` returns: with the success exit code when the
action is one of the three, with the failure exit code otherwise. -/
theorem startAction_returns (P : Platform) (p : WaremaSendParameters) (pin : Nat)
    (action_ : CppString) (hL : p.Loaded P) (hdev : p.manchesterCodeDevice_ ≠ [])
    (hup : p.manchesterCodeUp_ ≠ []) (hdown : p.manchesterCodeDown_ ≠ [])
    (hstop : p.manchesterCodeStop_ ≠ []) :
    ∃ r, startAction P p pin action_ = some r
      ∧ ((action_ = "up".toList ∨ action_ = "down".toList ∨ action_ = "stop".toList)
          → r.exitCode = EXIT_SUCCESS)
      ∧ (¬ (action_ = "up".toList ∨ action_ = "down".toList ∨ action_ = "stop".toList)
          → r.exitCode = EXIT_FAILURE) := by
  have hl : ∀ s : CppString, s ≠ [] → s.length ≠ 0 :=
    fun s h hz => h (List.length_eq_zero.mp hz)
  unfold startAction
  split_ifs with h1 h2 h3
  · obtain ⟨t, ht, -⟩ := startSend_returns P p pin p.manchesterCodeUp_ hL hdev
    refine ⟨⟨EXIT_SUCCESS, [], t, pin,
      p.manchesterCodeUp_ ++ p.manchesterCodeDevice_ ++ "S".toList⟩, ?_, fun _ => rfl,
      fun hn => absurd (Or.inl h1) hn⟩
    simp only [WaremaSendParameters.getManchesterCodeUp, if_pos (hl _ hup), Option.some_bind, ht]
  · obtain ⟨t, ht, -⟩ := startSend_returns P p pin p.manchesterCodeDown_ hL hdev
    refine ⟨⟨EXIT_SUCCESS, [], t, pin,
      p.manchesterCodeDown_ ++ p.manchesterCodeDevice_ ++ "S".toList⟩, ?_, fun _ => rfl,
      fun hn => absurd (Or.inr (Or.inl h2)) hn⟩
    simp only [WaremaSendParameters.getManchesterCodeDown, if_pos (hl _ hdown),
      Option.some_bind, ht]
  · obtain ⟨t, ht, -⟩ := startSend_returns P p pin p.manchesterCodeStop_ hL hdev
    refine ⟨⟨EXIT_SUCCESS, [], t, pin,
      p.manchesterCodeStop_ ++ p.manchesterCodeDevice_ ++ "S".toList⟩, ?_, fun _ => rfl,
      fun hn => absurd (Or.inr (Or.inr h3)) hn⟩
    simp only [WaremaSendParameters.getManchesterCodeStop, if_pos (hl _ hstop),
      Option.some_bind, ht]
  · refine ⟨_, rfl, fun h => ?_, fun _ => rfl⟩
    rcases h with h | h | h
    · exact absurd h h1
    · exact absurd h h2
    · exact absurd h h3

/-- When the sentinel is not a valid pin, `start` returns on every descriptor. -/
theorem start_returns (P : Platform) (hP : P.SentinelNotValid) (cfg : Configuration)
    (pin : Nat) (desc : CppString) : ∃ r, start P cfg pin desc = some r := by
  by_cases hlen : (split desc '.').length = 2
  · obtain ⟨device, action, hsplit⟩ := List.length_eq_two.mp hlen
    rw [start_of_pair P cfg pin desc device action hsplit]
    cases hsec : cfg.isValidSection ("waremasend_".toList ++ device) with
    | false =>
      simp only [Bool.not_false, if_true]
      exact ⟨_, rfl⟩
    | true =>
      simp only [Bool.not_true, Bool.false_eq_true, if_false]
      cases hload : WaremaSendParameters.load P cfg (WaremaSendParameters.new P device) with
      | error d => exact ⟨_, rfl⟩
      | ok p =>
        simp only
        have hL := WaremaSendParameters.load_loaded P cfg _ p hload
        obtain ⟨g, dl, sl, sc, sd, dev, down, up, stop, -, hv, -, -, -, -, -, -, -, hdev, -, -,
          hdown, -, -, hup, -, -, hstop, -, -, -, -, -, -, hp⟩ :=
          WaremaSendParameters.load_ok P cfg _ p hload
        have h4 : p.manchesterCodeDevice_ ≠ [] ∧ p.manchesterCodeUp_ ≠ []
            ∧ p.manchesterCodeDown_ ≠ [] ∧ p.manchesterCodeStop_ ≠ []
            ∧ p.gpioPin_ = (g % 256).toNat := by
          rw [hp]
          exact ⟨hdev, hup, hdown, hstop, rfl⟩
        obtain ⟨h4dev, h4up, h4down, h4stop, h4pin⟩ := h4
        by_cases hpin : pin = P.INVALID_GPIO_PIN
        · have hget : p.getGpioPin P = some p.gpioPin_ := by
            unfold WaremaSendParameters.getGpioPin
            rw [if_pos]
            rw [h4pin]
            exact hP g hv
          obtain ⟨r, hr, -⟩ := startAction_returns P p p.gpioPin_ (to_lower action) hL h4dev
            h4up h4down h4stop
          exact ⟨r, by simp only [hpin, if_true, hget, Option.some_bind, hr]⟩
        · simp only [hpin, if_false]
          cases hval : P.isValidGpioPin pin with
          | false =>
      simp only [Bool.not_false, if_true]
      exact ⟨_, rfl⟩
          | true =>
            obtain ⟨r, hr, -⟩ := startAction_returns P p pin (to_lower action) hL h4dev
              h4up h4down h4stop
            exact ⟨r, by simp only [Bool.not_true, Bool.false_eq_true, if_false, hr]⟩
  · exact ⟨_, start_of_not_pair P cfg pin desc hlen⟩

/-- A returning `start` returns one of the two exit codes. -/
theorem start_exitCode (P : Platform) (cfg : Configuration) (pin : Nat) (desc : CppString)
    (r : StartResult) (h : start P cfg pin desc = some r) :
    r.exitCode = EXIT_SUCCESS ∨ r.exitCode = EXIT_FAILURE := by
  by_cases hlen : (split desc '.').length = 2
  · obtain ⟨device, action, hsplit⟩ := List.length_eq_two.mp hlen
    rcases start_pair_cases P cfg pin desc device action r hsplit h with
      ⟨-, hr⟩ | ⟨-, d, -, hr⟩ | ⟨-, p, -, -, -, hr⟩ | ⟨-, p, -, used, -, hact⟩
    · exact Or.inr (by rw [hr])
    · exact Or.inr (by rw [hr])
    · exact Or.inr (by rw [hr])
    · rcases startAction_eq_some P p used _ r hact with ⟨hr, -⟩ | ⟨hok, -⟩
      · exact Or.inr (by rw [hr])
      · exact Or.inl hok
  · rw [start_of_not_pair P cfg pin desc hlen] at h
    exact Or.inr (by rw [← Option.some.inj h])

end WaremaSend

namespace WaremaSend

/-- A `start` that returns the success exit code went through every check. -/
theorem start_success_cases (P : Platform) (cfg : Configuration) (pin : Nat)
    (desc : CppString) (r : StartResult) (h : start P cfg pin desc = some r)
    (hok : r.exitCode = EXIT_SUCCESS) :
    ∃ device action p, split desc '.' = [device, action]
      ∧ cfg.isValidSection ("waremasend_".toList ++ device) = true
      ∧ WaremaSendParameters.load P cfg (WaremaSendParameters.new P device) = Except.ok p
      ∧ (pin = P.INVALID_GPIO_PIN ∧ p.getGpioPin P = some r.gpioPin_
        ∨ pin ≠ P.INVALID_GPIO_PIN ∧ P.isValidGpioPin pin = true ∧ r.gpioPin_ = pin)
      ∧ (to_lower action = "up".toList ∨ to_lower action = "down".toList
        ∨ to_lower action = "stop".toList)
      ∧ airControl P r.gpioPin_ p r.manchestercode_ [] = some r.trace := by
  have hne : EXIT_FAILURE ≠ EXIT_SUCCESS := by decide
  by_cases hlen : (split desc '.').length = 2
  · obtain ⟨device, action, hsplit⟩ := List.length_eq_two.mp hlen
    rcases start_pair_cases P cfg pin desc device action r hsplit h with
      ⟨-, hr⟩ | ⟨-, d, -, hr⟩ | ⟨-, p, -, -, -, hr⟩ | ⟨hsec, p, hload, used, hused, hact⟩
    · rw [hr] at hok
      exact absurd hok hne
    · rw [hr] at hok
      exact absurd hok hne
    · rw [hr] at hok
      exact absurd hok hne
    · rcases startAction_eq_some P p used _ r hact with ⟨hr, -⟩ | ⟨-, -, hp, hair, hc⟩
      · rw [hr] at hok
        exact absurd hok hne
      · refine ⟨device, action, p, hsplit, hsec, hload, ?_, ?_, by rw [hp]; exact hair⟩
        · rw [hp]
          rcases hused with ⟨h1, h2⟩ | ⟨h1, h2, h3⟩
          · exact Or.inl ⟨h1, h2⟩
          · exact Or.inr ⟨h1, h2, h3⟩
        · rcases hc with ⟨h1, -⟩ | ⟨h1, -⟩ | ⟨h1, -⟩
          · exact Or.inl h1
          · exact Or.inr (Or.inl h1)
          · exact Or.inr (Or.inr h1)
  · rw [start_of_not_pair P cfg pin desc hlen] at h
    rw [← Option.some.inj h] at hok
    exact absurd hok hne

end WaremaSend

namespace ManchesterCodeTarget

/-- The cases of a returning `ManchesterCodeTarget::start`. -/
theorem targetStart_cases (P : Platform) (cfg : Configuration)
    (load : Configuration → CppString → Option TargetParameters) (pin : Nat)
    (code : CppString) (r : StartResult) (h : start P cfg load pin code = some r) :
    (r.exitCode = EXIT_FAILURE ∧ r.trace = [] ∧ r.gpioPin_ = pin
        ∧ (cfg.isValidSection name_ = false ∨ load cfg name_ = none
          ∨ (pin ≠ P.INVALID_GPIO_PIN ∧ P.isValidGpioPin pin = false)))
      ∨ (r.exitCode = EXIT_SUCCESS ∧ cfg.isValidSection name_ = true
        ∧ ∃ tp, load cfg name_ = some tp
          ∧ (pin = P.INVALID_GPIO_PIN ∧ r.gpioPin_ = tp.getGpioPin
            ∨ pin ≠ P.INVALID_GPIO_PIN ∧ P.isValidGpioPin pin = true ∧ r.gpioPin_ = pin)
          ∧ airControl r.gpioPin_ tp code [] = some r.trace) := by
  unfold start at h
  cases hsec : cfg.isValidSection name_ with
  | false =>
    simp only [hsec, Bool.not_false, if_true] at h
    cases h
    exact Or.inl ⟨rfl, rfl, rfl, Or.inl rfl⟩
  | true =>
    simp only [hsec, Bool.not_true, Bool.false_eq_true, if_false] at h
    cases hload : load cfg name_ with
    | none =>
      simp only [hload] at h
      cases h
      exact Or.inl ⟨rfl, rfl, rfl, Or.inr (Or.inl rfl)⟩
    | some tp =>
      simp only [hload] at h
      by_cases hpin : pin = P.INVALID_GPIO_PIN
      · simp only [hpin, if_true] at h
        cases hair : airControl tp.getGpioPin tp code [] with
        | none => simp [hair] at h
        | some t =>
          simp only [hair, Option.map_some', Option.some.injEq] at h
          subst h
          exact Or.inr ⟨rfl, rfl, tp, rfl, Or.inl ⟨hpin, rfl⟩, hair⟩
      · simp only [hpin, if_false] at h
        cases hval : P.isValidGpioPin pin with
        | false =>
          simp only [hval, Bool.not_false, if_true] at h
          cases h
          exact Or.inl ⟨rfl, rfl, rfl, Or.inr (Or.inr ⟨hpin, rfl⟩)⟩
        | true =>
          simp only [hval, Bool.not_true, Bool.false_eq_true, if_false] at h
          cases hair : airControl pin tp code [] with
          | none => simp [hair] at h
          | some t =>
            simp only [hair, Option.map_some', Option.some.injEq] at h
            subst h
            exact Or.inr ⟨rfl, rfl, tp, rfl, Or.inr ⟨hpin, rfl, rfl⟩, hair⟩

end ManchesterCodeTarget

theorem except_ok_or_error {ε α : Type} (x : Except ε α) :
    (∃ a, x = Except.ok a) ∨ ∃ e, x = Except.error e := by
  cases x with
  | error e => exact Or.inr ⟨e, rfl⟩
  | ok a => exact Or.inl ⟨a, rfl⟩

theorem mem_alphabet_iff (c : Char) :
    c ∈ "01sS".toList ↔ (c = '0' ∨ c = '1' ∨ c = 's' ∨ c = 'S') := by
  simp [String.toList]

/-! ## Lemmas: unrecognized characters, pins -/

theorem isSymbol_eq_false (c : Char) (h : Spec.isSymbol c = false) :
    c ≠ 's' ∧ c ≠ 'S' ∧ c ≠ '0' ∧ c ≠ '1' := by
  simp only [Spec.isSymbol, Bool.or_eq_false_iff, beq_eq_false_iff_ne, ne_eq] at h
  exact ⟨h.1.2, h.2, h.1.1.1, h.1.1.2⟩

theorem sendAirCommandStep_skip (P : Platform) (pin : Nat) (p : WaremaSendParameters)
    (c : Char) (t : Trace) (h : Spec.isSymbol c = false) :
    WaremaSend.sendAirCommandStep P pin p c t = some t := by
  obtain ⟨h1, h2, h3, h4⟩ := isSymbol_eq_false c h
  simp [WaremaSend.sendAirCommandStep, h1, h2, h3, h4]

theorem sendAirCommandManchesterStep_skip (pin : Nat) (tp : TargetParameters)
    (c : Char) (t : Trace) (h : Spec.isSymbol c = false) :
    ManchesterCodeTarget.sendAirCommandManchesterStep pin tp c t = t := by
  obtain ⟨h1, h2, h3, h4⟩ := isSymbol_eq_false c h
  simp [ManchesterCodeTarget.sendAirCommandManchesterStep, h1, h2, h3, h4]

theorem sendAirCommandLoop_filter (P : Platform) (pin : Nat) (p : WaremaSendParameters)
    (code : List Char) (t : Trace) :
    WaremaSend.sendAirCommandLoop P pin p code t
      = WaremaSend.sendAirCommandLoop P pin p (code.filter Spec.isSymbol) t := by
  induction code generalizing t with
  | nil => rfl
  | cons c rest ih =>
    cases hc : Spec.isSymbol c with
    | false =>
      rw [List.filter_cons_of_neg (by simp [hc])]
      rw [WaremaSend.sendAirCommandLoop, sendAirCommandStep_skip P pin p c t hc]
      exact ih t
    | true =>
      rw [List.filter_cons_of_pos hc]
      rw [WaremaSend.sendAirCommandLoop, WaremaSend.sendAirCommandLoop]
      cases WaremaSend.sendAirCommandStep P pin p c t with
      | none => rfl
      | some t2 => exact ih t2

theorem sendAirCommandManchesterLoop_filter (pin : Nat) (tp : TargetParameters)
    (code : List Char) (t : Trace) :
    ManchesterCodeTarget.sendAirCommandManchesterLoop pin tp code t
      = ManchesterCodeTarget.sendAirCommandManchesterLoop pin tp
          (code.filter Spec.isSymbol) t := by
  induction code generalizing t with
  | nil => rfl
  | cons c rest ih =>
    cases hc : Spec.isSymbol c with
    | false =>
      rw [List.filter_cons_of_neg (by simp [hc])]
      rw [ManchesterCodeTarget.sendAirCommandManchesterLoop,
        sendAirCommandManchesterStep_skip pin tp c t hc]
      exact ih t
    | true =>
      rw [List.filter_cons_of_pos hc]
      rw [ManchesterCodeTarget.sendAirCommandManchesterLoop,
        ManchesterCodeTarget.sendAirCommandManchesterLoop]
      exact ih _

theorem pinsOf_append (a b : Trace) : pinsOf (a ++ b) = pinsOf a ++ pinsOf b := by
  induction a with
  | nil => rfl
  | cons e rest ih => cases e <;> simp [pinsOf, ih]

theorem pinsOf_frame (pin : Nat) (body : Trace)
    (hb : ∀ e ∈ body, (∃ value, e = Event.digitalWrite pin value) ∨ ∃ usec, e = Event.usleep usec) :
    (∀ x ∈ pinsOf (Event.pinMode pin PinMode.OUTPUT ::
        (body ++ [Event.pinMode pin PinMode.INPUT])), x = pin)
      ∧ pin ∈ pinsOf (Event.pinMode pin PinMode.OUTPUT ::
        (body ++ [Event.pinMode pin PinMode.INPUT])) := by
  have hbody : ∀ x ∈ pinsOf body, x = pin := by
    induction body with
    | nil => simp [pinsOf]
    | cons e tl ih =>
      have htl := ih (fun x hx => hb x (List.mem_cons_of_mem _ hx))
      rcases hb e (List.mem_cons_self _ _) with ⟨v, rfl⟩ | ⟨u, rfl⟩
      · intro x hx
        simp only [pinsOf, List.mem_cons] at hx
        rcases hx with rfl | hx
        · rfl
        · exact htl x hx
      · simpa [pinsOf] using htl
  constructor
  · intro x hx
    simp only [pinsOf, pinsOf_append, List.mem_cons, List.mem_append, List.mem_singleton,
      List.not_mem_nil, or_false] at hx
    rcases hx with rfl | hx | rfl
    · rfl
    · exact hbody x hx
    · rfl
  · simp [pinsOf]

namespace WaremaSend

theorem pinsOf_airControl (P : Platform) (pin : Nat) (p : WaremaSendParameters)
    (hL : p.Loaded P) (code : CppString) (t : Trace)
    (h : airControl P pin p code [] = some t) : (∀ x ∈ pinsOf t, x = pin) ∧ pin ∈ pinsOf t := by
  rw [airControl_eq P pin p hL code []] at h
  rw [← Option.some.inj h]
  exact pinsOf_frame pin _ (fun e he => mem_transmission_body pin _ _ _ code _ e he)

theorem start_invalid_given_pin (P : Platform) (cfg : Configuration) (pin : Nat)
    (desc : CppString) (hset : pin ≠ P.INVALID_GPIO_PIN)
    (hbad : P.isValidGpioPin pin = false) :
    ∃ r, start P cfg pin desc = some r ∧ r.exitCode = EXIT_FAILURE := by
  by_cases hlen : (split desc '.').length = 2
  · obtain ⟨device, action, hsplit⟩ := List.length_eq_two.mp hlen
    rw [start_of_pair P cfg pin desc device action hsplit]
    cases hsec : cfg.isValidSection ("waremasend_".toList ++ device) with
    | false =>
      simp only [Bool.not_false, if_true]
      exact ⟨_, rfl, rfl⟩
    | true =>
      simp only [Bool.not_true, Bool.false_eq_true, if_false]
      cases hload : WaremaSendParameters.load P cfg (WaremaSendParameters.new P device) with
      | error d => exact ⟨_, rfl, rfl⟩
      | ok p =>
        simp only [hset, if_false, hbad, Bool.not_false, if_true]
        exact ⟨_, rfl, rfl⟩
  · exact ⟨_, start_of_not_pair P cfg pin desc hlen, rfl⟩

end WaremaSend

namespace ManchesterCodeTarget

theorem targetAirControl_frame (pin : Nat) (tp : TargetParameters) (code : CppString)
    (t : Trace) (h : airControl pin tp code [] = some t) :
    ∃ body, t = Event.pinMode pin PinMode.OUTPUT :: (body ++ [Event.pinMode pin PinMode.INPUT])
      ∧ ∀ e ∈ body, (∃ value, e = Event.digitalWrite pin value) ∨ ∃ usec, e = Event.usleep usec := by
  by_cases ha : tp.getAirCode = AirCode.MANCHESTER
  · rw [targetAirControl_eq pin tp ha code []] at h
    exact ⟨_, by simpa using (Option.some.inj h).symm,
      fun e he => mem_transmission_body pin _ _ _ code _ e he⟩
  · unfold airControl at h
    by_cases hc : (0 : Int) < tp.getSendCommand
    · simp [airControlLoop, hc, sendAirCommandManchester, ha] at h
    · simp only [airControlLoop, hc, if_false, Option.bind_eq_bind, Option.pure_def,
        Option.some_bind, Option.some.injEq] at h
      exact ⟨[], by simpa [pinMode] using h.symm, by simp⟩

theorem targetStart_invalid_given_pin (P : Platform) (cfg : Configuration)
    (load : Configuration → CppString → Option TargetParameters) (pin : Nat)
    (code : CppString) (hset : pin ≠ P.INVALID_GPIO_PIN)
    (hbad : P.isValidGpioPin pin = false) :
    ∃ r, start P cfg load pin code = some r ∧ r.exitCode = EXIT_FAILURE := by
  unfold start
  cases hsec : cfg.isValidSection name_ with
  | false =>
    simp only [Bool.not_false, if_true]
    exact ⟨_, rfl, rfl⟩
  | true =>
    simp only [Bool.not_true, Bool.false_eq_true, if_false]
    cases hload : load cfg name_ with
    | none => exact ⟨_, rfl, rfl⟩
    | some tp =>
      simp only [hset, if_false, hbad, Bool.not_false, if_true]
      exact ⟨_, rfl, rfl⟩

end ManchesterCodeTarget

/-! ## Lemmas: the assembled symbol string -/

namespace WaremaSend

/-- In an accepted run the symbol string is an action fragment, the device fragment and the
terminator, and the trace is that of `airControl` on it. -/
theorem start_success_code (P : Platform) (cfg : Configuration) (pin : Nat)
    (desc : CppString) (r : StartResult) (h : start P cfg pin desc = some r)
    (hok : r.exitCode = EXIT_SUCCESS) :
    ∃ device p fragment,
      WaremaSendParameters.load P cfg (WaremaSendParameters.new P device) = Except.ok p
      ∧ (fragment = p.manchesterCodeUp_ ∨ fragment = p.manchesterCodeDown_
        ∨ fragment = p.manchesterCodeStop_)
      ∧ r.manchestercode_ = fragment ++ p.manchesterCodeDevice_ ++ "S".toList
      ∧ airControl P r.gpioPin_ p r.manchestercode_ [] = some r.trace := by
  have hne : EXIT_FAILURE ≠ EXIT_SUCCESS := by decide
  by_cases hlen : (split desc '.').length = 2
  · obtain ⟨device, action, hsplit⟩ := List.length_eq_two.mp hlen
    rcases start_pair_cases P cfg pin desc device action r hsplit h with
      ⟨-, hr⟩ | ⟨-, d, -, hr⟩ | ⟨-, p, -, -, -, hr⟩ | ⟨-, p, hload, used, -, hact⟩
    · rw [hr] at hok
      exact absurd hok hne
    · rw [hr] at hok
      exact absurd hok hne
    · rw [hr] at hok
      exact absurd hok hne
    · rcases startAction_eq_some P p used _ r hact with ⟨hr, -⟩ | ⟨-, -, hp, hair, hc⟩
      · rw [hr] at hok
        exact absurd hok hne
      · rw [← hp] at hair
        rcases hc with ⟨-, hcode⟩ | ⟨-, hcode⟩ | ⟨-, hcode⟩
        · exact ⟨device, p, _, hload, Or.inl rfl, hcode, hair⟩
        · exact ⟨device, p, _, hload, Or.inr (Or.inl rfl), hcode, hair⟩
        · exact ⟨device, p, _, hload, Or.inr (Or.inr rfl), hcode, hair⟩
  · rw [start_of_not_pair P cfg pin desc hlen] at h
    rw [← Option.some.inj h] at hok
    exact absurd hok hne

end WaremaSend

theorem repeatEvents_getLast {α : Type} (front gap : List α) (last : α) (k : Nat) :
    (repeatEvents (front ++ [last]) gap (k + 1)).getLast? = some last := by
  induction k with
  | zero => simp [repeatEvents]
  | succ j ih =>
    rw [repeatEvents, List.getLast?_append, ih]
    rfl

theorem isSymbol_of_mem_alphabet (c : Char) (h : c ∈ "01sS".toList) :
    Spec.isSymbol c = true := by
  rcases (mem_alphabet_iff c).mp h with rfl | rfl | rfl | rfl <;> rfl

/-! ## Lemmas: a trailing separator -/

namespace WaremaSend

theorem split_append_delimiter (d : Char) (n : Nat) :
    ∀ s : List Char, s.length ≤ n → s ≠ [] → s.getLast? ≠ some d →
      split (s ++ [d]) d = split s d := by
  induction n with
  | zero =>
    intro s hlen hne
    exact absurd (List.length_eq_zero.mp (by omega)) hne
  | succ n ih =>
    intro s hlen hne hlast
    rcases first_delimiter d s with hs | ⟨a, rest, ha, rfl⟩
    · have h1 := split_delimiter d s [] hs
      rw [h1, split_nil, split_no_delimiter d s hne hs]
    · have hrest : rest ≠ [] := by
        intro hnil
        apply hlast
        rw [hnil]
        exact List.getLast?_concat a
      have hrl : rest.getLast? ≠ some d := by
        intro hl
        apply hlast
        rw [List.getLast?_append_of_ne_nil a (List.cons_ne_nil d rest)]
        cases rest with
        | nil => exact absurd rfl hrest
        | cons x xs =>
          rw [List.getLast?_cons_cons]
          exact hl
      have hshort : rest.length ≤ n := by
        simp only [List.length_append, List.length_cons] at hlen
        omega
      have happ : a ++ d :: rest ++ [d] = a ++ d :: (rest ++ [d]) := by simp
      rw [happ, split_delimiter d a _ ha, split_delimiter d a rest ha,
        ih rest hshort hrest hrl]

theorem start_eq_of_split_eq (P : Platform) (cfg : Configuration) (pin : Nat)
    (d1 d2 : CppString) (heq : split d1 '.' = split d2 '.')
    (hlen : (split d2 '.').length = 2) : start P cfg pin d1 = start P cfg pin d2 := by
  obtain ⟨device, action, hsplit⟩ := List.length_eq_two.mp hlen
  rw [start_of_pair P cfg pin d2 device action hsplit,
    start_of_pair P cfg pin d1 device action (heq.trans hsplit)]

/-- On a descriptor with two parts, `start` does not write the message for a malformed
descriptor. -/
theorem start_pair_not_malformed (P : Platform) (cfg : Configuration) (pin : Nat)
    (desc device action : CppString) (hsplit : split desc '.' = [device, action])
    (r : StartResult) (h : start P cfg pin desc = some r) (x : CppString) :
    r.stderr ≠ [Diag.paramDeviceAndAction x] := by
  rcases start_pair_cases P cfg pin desc device action r hsplit h with
    ⟨-, hr⟩ | ⟨-, d, hload, hr⟩ | ⟨-, p, -, -, -, hr⟩ | ⟨-, p, -, used, -, hact⟩
  · rw [hr]
    simp
  · rw [hr]
    intro heq
    have hd := WaremaSendParameters.load_error P cfg _ d hload
    rw [List.head_eq_of_cons_eq heq] at hd
    simp [Diag.fromLoad] at hd
  · rw [hr]
    simp
  · rcases startAction_eq_some P p used _ r hact with ⟨hr, -⟩ | ⟨-, hr, -⟩
    · rw [hr]
      simp
    · rw [hr]
      simp

end WaremaSend

/-! ## The claims -/

/-- C1: for every symbol string and every timing profile (`dataLength`, `syncLength`:
nonnegative and within `int32_t`), one encoding pass of `WaremaSend::sendAirCommand` and of
`ManchesterCodeTarget::sendAirCommandManchester` appends to the trace, for each character
in input order, exactly the events of the specification's table, and nothing else: the
trace of the string is the concatenation of the per-character traces. The remaining
hypotheses say that the assertions of the code hold. -/
theorem sendAirCommand_emits_symbol_table (P : Platform) (pin : Nat)
    (p : WaremaSendParameters) (tp : TargetParameters) (code : CppString) (t : Trace)
    (dataLength syncLength : Nat)
    (hd : (dataLength : Int) ≤ INT32_MAX) (hs : (syncLength : Int) ≤ INT32_MAX)
    (hpd : p.dataLengthUs_ = dataLength) (hps : p.syncLengthUs_ = syncLength)
    (hdi : p.dataLengthUs_ ≠ P.INVALID_PARAMETER) (hsi : p.syncLengthUs_ ≠ P.INVALID_PARAMETER)
    (htd : tp.getDataLength = dataLength) (hts : tp.getSyncLength = syncLength)
    (hta : tp.getAirCode = AirCode.MANCHESTER) :
    WaremaSend.sendAirCommand P pin p code t
        = some (t ++ code.flatMap (Spec.symbolEvents pin dataLength syncLength))
      ∧ ManchesterCodeTarget.sendAirCommandManchester pin tp code t
        = some (t ++ code.flatMap (Spec.symbolEvents pin dataLength syncLength)) := by
  have hfun : Spec.symbolEvents pin dataLength syncLength
      = encodeEvents pin (dataLength / 2) syncLength :=
    funext (symbolEvents_eq_encodeEvents pin dataLength syncLength)
  constructor
  · have h := WaremaSend.sendAirCommandLoop_eq P pin p hdi hsi code t
    rw [hpd, hps, toUseconds_half dataLength hd, toUseconds_natCast syncLength hs] at h
    rw [hfun]
    exact h
  · have h := ManchesterCodeTarget.sendAirCommandManchester_eq pin tp hta code t
    rw [htd, hts, toUseconds_half dataLength hd, toUseconds_natCast syncLength hs] at h
    rw [hfun]
    exact h

/-- Witness of C1: the pass over "s0S1x" with data pulse 500 and sync pulse 5000. -/
theorem sendAirCommand_emits_symbol_table_witness :
    WaremaSend.sendAirCommand examplePlatform 17 (exampleParameters 1 0) "s0S1x".toList []
        = some ([] ++ "s0S1x".toList.flatMap (Spec.symbolEvents 17 500 5000))
      ∧ ManchesterCodeTarget.sendAirCommandManchester 17 (exampleTargetParameters 1 0)
          "s0S1x".toList []
        = some ([] ++ "s0S1x".toList.flatMap (Spec.symbolEvents 17 500 5000)) :=
  sendAirCommand_emits_symbol_table examplePlatform 17 (exampleParameters 1 0)
    (exampleTargetParameters 1 0) "s0S1x".toList [] 500 5000 (by decide) (by decide) rfl rfl
    (by decide) (by decide) rfl rfl rfl

/-- C2, refuted as stated: with `sendCommand = 2` the level-set calls of `airControl` for the
valid symbol string "10S" are the five of the first pass, then a LOW, then the five of the
second pass. The table gives five level-set calls for "10S"; the LOW in the middle belongs to
no symbol: it is the write between the two passes. -/
theorem airControl_levelWrites_counterexample :
    Spec.ValidSymbolString "10S".toList
      ∧ (WaremaSend.airControl examplePlatform 17 (exampleParameters 2 1000) "10S".toList
          []).map levelWrites
        = some [PinLevel.LOW, PinLevel.HIGH, PinLevel.HIGH, PinLevel.LOW, PinLevel.HIGH,
            PinLevel.LOW,
            PinLevel.LOW, PinLevel.HIGH, PinLevel.HIGH, PinLevel.LOW, PinLevel.HIGH]
      ∧ (ManchesterCodeTarget.airControl 17 (exampleTargetParameters 2 1000) "10S".toList
          []).map levelWrites
        = some [PinLevel.LOW, PinLevel.HIGH, PinLevel.HIGH, PinLevel.LOW, PinLevel.HIGH,
            PinLevel.LOW,
            PinLevel.LOW, PinLevel.HIGH, PinLevel.HIGH, PinLevel.LOW, PinLevel.HIGH]
      ∧ "10S".toList.flatMap Spec.symbolLevels
        = [PinLevel.LOW, PinLevel.HIGH, PinLevel.HIGH, PinLevel.LOW, PinLevel.HIGH] := by
  decide

/-- C2, amended: one encoding pass calls level-set exactly once per sync symbol and exactly
twice per data symbol, in input order, and makes no other level-set call. `airControl`
makes the level-set calls of `sendCommand` such passes, and between two consecutive passes
exactly one more, to LOW. -/
theorem airControl_levelWrites (P : Platform) (pin : Nat) (p : WaremaSendParameters)
    (tp : TargetParameters) (code : CppString)
    (hL : p.Loaded P) (hta : tp.getAirCode = AirCode.MANCHESTER) :
    (WaremaSend.sendAirCommand P pin p code []).map levelWrites
        = some (code.flatMap Spec.symbolLevels)
      ∧ (WaremaSend.airControl P pin p code []).map levelWrites
        = some (repeatEvents (code.flatMap Spec.symbolLevels) [PinLevel.LOW]
            p.sendCommand_.toNat)
      ∧ (ManchesterCodeTarget.sendAirCommandManchester pin tp code []).map levelWrites
        = some (code.flatMap Spec.symbolLevels)
      ∧ (ManchesterCodeTarget.airControl pin tp code []).map levelWrites
        = some (repeatEvents (code.flatMap Spec.symbolLevels) [PinLevel.LOW]
            tp.getSendCommand.toNat) := by
  have hgap : ∀ d : Int, levelWrites (gapEvents pin d) = [PinLevel.LOW] := fun d => rfl
  refine ⟨?_, ?_, ?_, ?_⟩
  · rw [WaremaSend.sendAirCommand_eq P pin p hL]
    simp [levelWrites_flatMap_encodeEvents]
  · rw [WaremaSend.airControl_eq P pin p hL]
    simp [levelWrites, levelWrites_append, levelWrites_repeatEvents,
      levelWrites_flatMap_encodeEvents, hgap]
  · rw [ManchesterCodeTarget.sendAirCommandManchester_eq pin tp hta]
    simp [levelWrites_flatMap_encodeEvents]
  · rw [ManchesterCodeTarget.targetAirControl_eq pin tp hta]
    simp [levelWrites, levelWrites_append, levelWrites_repeatEvents,
      levelWrites_flatMap_encodeEvents, hgap]

/-- Witness of the amended C2: three passes over "s01S". -/
theorem airControl_levelWrites_witness :
    (WaremaSend.sendAirCommand examplePlatform 17 (exampleParameters 3 1000) "s01S".toList
        []).map levelWrites = some ("s01S".toList.flatMap Spec.symbolLevels)
      ∧ (WaremaSend.airControl examplePlatform 17 (exampleParameters 3 1000) "s01S".toList
        []).map levelWrites
        = some (repeatEvents ("s01S".toList.flatMap Spec.symbolLevels) [PinLevel.LOW]
            (exampleParameters 3 1000).sendCommand_.toNat)
      ∧ (ManchesterCodeTarget.sendAirCommandManchester 17 (exampleTargetParameters 3 1000)
        "s01S".toList []).map levelWrites = some ("s01S".toList.flatMap Spec.symbolLevels)
      ∧ (ManchesterCodeTarget.airControl 17 (exampleTargetParameters 3 1000) "s01S".toList
        []).map levelWrites
        = some (repeatEvents ("s01S".toList.flatMap Spec.symbolLevels) [PinLevel.LOW]
            (exampleTargetParameters 3 1000).getSendCommand.toNat) :=
  airControl_levelWrites examplePlatform 17 (exampleParameters 3 1000)
    (exampleTargetParameters 3 1000) "s01S".toList (by decide) rfl

/-- C3, refuted as stated: with the odd `dataLength = 3` and `syncLength = 5000` the pass
over the valid symbol string "10S" sleeps 1 + 1 + 1 + 1 + 5000 = 5004 microseconds, where the
claimed sum is 1 * 5000 + 2 * 3 = 5006. -/
theorem sendAirCommand_sleepSum_counterexample :
    (WaremaSend.sendAirCommand examplePlatform 17
        { exampleParameters 1 0 with dataLengthUs_ := 3 } "10S".toList []).map sleepSum
          = some 5004
      ∧ (ManchesterCodeTarget.sendAirCommandManchester 17
        { exampleTargetParameters 1 0 with getDataLength := 3 } "10S".toList []).map sleepSum
          = some 5004
      ∧ Spec.countSync "10S".toList * 5000 + Spec.countData "10S".toList * 3 = 5006 := by
  decide

/-- C3, amended: for every symbol string and every timing profile (`dataLength`,
`syncLength`: nonnegative and within `int32_t`), the sleep durations of one encoding pass sum
to (number of sync symbols) * `syncLength` + (number of data symbols) * 2 * (`dataLength` / 2)
with the truncating quotient; for an even `dataLength` this is (number of sync symbols) *
`syncLength` + (number of data symbols) * `dataLength`. -/
theorem sendAirCommand_sleepSum (P : Platform) (pin : Nat) (p : WaremaSendParameters)
    (tp : TargetParameters) (code : CppString) (dataLength syncLength : Nat)
    (hd : (dataLength : Int) ≤ INT32_MAX) (hs : (syncLength : Int) ≤ INT32_MAX)
    (hpd : p.dataLengthUs_ = dataLength) (hps : p.syncLengthUs_ = syncLength)
    (hdi : p.dataLengthUs_ ≠ P.INVALID_PARAMETER) (hsi : p.syncLengthUs_ ≠ P.INVALID_PARAMETER)
    (htd : tp.getDataLength = dataLength) (hts : tp.getSyncLength = syncLength)
    (hta : tp.getAirCode = AirCode.MANCHESTER) :
    ((WaremaSend.sendAirCommand P pin p code []).map sleepSum
        = some (Spec.countSync code * syncLength
            + Spec.countData code * (2 * (dataLength / 2)))
      ∧ (ManchesterCodeTarget.sendAirCommandManchester pin tp code []).map sleepSum
        = some (Spec.countSync code * syncLength
            + Spec.countData code * (2 * (dataLength / 2))))
      ∧ (dataLength % 2 = 0 →
        (WaremaSend.sendAirCommand P pin p code []).map sleepSum
            = some (Spec.countSync code * syncLength + Spec.countData code * dataLength)
          ∧ (ManchesterCodeTarget.sendAirCommandManchester pin tp code []).map sleepSum
            = some (Spec.countSync code * syncLength + Spec.countData code * dataLength)) := by
  have h1 := WaremaSend.sendAirCommandLoop_eq P pin p hdi hsi code []
  rw [hpd, hps, toUseconds_half dataLength hd, toUseconds_natCast syncLength hs] at h1
  have h2 := ManchesterCodeTarget.sendAirCommandManchester_eq pin tp hta code []
  rw [htd, hts, toUseconds_half dataLength hd, toUseconds_natCast syncLength hs] at h2
  have hsum : (WaremaSend.sendAirCommand P pin p code []).map sleepSum
        = some (Spec.countSync code * syncLength
            + Spec.countData code * (2 * (dataLength / 2)))
      ∧ (ManchesterCodeTarget.sendAirCommandManchester pin tp code []).map sleepSum
        = some (Spec.countSync code * syncLength
            + Spec.countData code * (2 * (dataLength / 2))) := by
    constructor
    · rw [WaremaSend.sendAirCommand, h1]
      simp [sleepSum_flatMap_encodeEvents]
    · rw [h2]
      simp [sleepSum_flatMap_encodeEvents]
  refine ⟨hsum, fun heven => ?_⟩
  have h2d : 2 * (dataLength / 2) = dataLength := by omega
  rw [h2d] at hsum
  exact hsum

/-- Witness of the amended C3: the pass over "s0S1" with data pulse 500, sync pulse 5000. -/
theorem sendAirCommand_sleepSum_witness :
    (WaremaSend.sendAirCommand examplePlatform 17 (exampleParameters 1 0) "s0S1".toList
        []).map sleepSum = some (2 * 5000 + 2 * (2 * (500 / 2)))
      ∧ (ManchesterCodeTarget.sendAirCommandManchester 17 (exampleTargetParameters 1 0)
        "s0S1".toList []).map sleepSum = some (2 * 5000 + 2 * (2 * (500 / 2))) :=
  (sendAirCommand_sleepSum examplePlatform 17 (exampleParameters 1 0)
    (exampleTargetParameters 1 0) "s0S1".toList 500 5000 (by decide) (by decide) rfl rfl
    (by decide) (by decide) rfl rfl rfl).1

/-- C4: for every symbol string, every timing profile, `sendCommand >= 1` and
`sendDelay >= 0` (within `int32_t`), `airControl` returns and the sum of all its sleep
durations is `sendCommand * passDuration + (sendCommand - 1) * sendDelay`, where
`passDuration` is the sum of the sleep durations of one encoding pass of that string. The
remaining hypotheses say that the assertions of the code hold. -/
theorem airControl_sleepSum (P : Platform) (pin : Nat) (p : WaremaSendParameters)
    (tp : TargetParameters) (code : CppString)
    (hL : p.Loaded P) (hta : tp.getAirCode = AirCode.MANCHESTER)
    (hc : 1 ≤ p.sendCommand_) (hd0 : 0 ≤ p.sendDelayUs_) (hd1 : p.sendDelayUs_ ≤ INT32_MAX)
    (htc : 1 ≤ tp.getSendCommand) (htd0 : 0 ≤ tp.getSendDelay)
    (htd1 : tp.getSendDelay ≤ INT32_MAX) :
    (∃ trace pass, WaremaSend.airControl P pin p code [] = some trace
        ∧ WaremaSend.sendAirCommand P pin p code [] = some pass
        ∧ (sleepSum trace : Int)
          = p.sendCommand_ * sleepSum pass + (p.sendCommand_ - 1) * p.sendDelayUs_)
      ∧ ∃ trace pass, ManchesterCodeTarget.airControl pin tp code [] = some trace
        ∧ ManchesterCodeTarget.sendAirCommandManchester pin tp code [] = some pass
        ∧ (sleepSum trace : Int)
          = tp.getSendCommand * sleepSum pass + (tp.getSendCommand - 1) * tp.getSendDelay := by
  have harith : ∀ (c d : Int) (s : Nat), 1 ≤ c → 0 ≤ d →
      ((c.toNat * s + (c.toNat - 1) * d.toNat : Nat) : Int) = c * s + (c - 1) * d := by
    intro c d s h1 h0
    obtain ⟨k, rfl⟩ : ∃ k : Nat, c = (k : Int) + 1 := ⟨(c - 1).toNat, by omega⟩
    obtain ⟨m, rfl⟩ : ∃ m : Nat, d = (m : Int) := ⟨d.toNat, by omega⟩
    have hk : ((k : Int) + 1).toNat = k + 1 := by omega
    rw [hk]
    simp
  constructor
  · refine ⟨_, _, WaremaSend.airControl_eq P pin p hL code [],
      WaremaSend.sendAirCommand_eq P pin p hL code [], ?_⟩
    simp only [List.nil_append]
    have hs : sleepSum (Event.pinMode pin PinMode.OUTPUT ::
        (repeatEvents
          (code.flatMap (encodeEvents pin (toUseconds (Int.tdiv p.dataLengthUs_ 2))
            (toUseconds p.syncLengthUs_)))
          (gapEvents pin p.sendDelayUs_) p.sendCommand_.toNat
          ++ [Event.pinMode pin PinMode.INPUT]))
        = p.sendCommand_.toNat * sleepSum
            (code.flatMap (encodeEvents pin (toUseconds (Int.tdiv p.dataLengthUs_ 2))
              (toUseconds p.syncLengthUs_)))
          + (p.sendCommand_.toNat - 1) * p.sendDelayUs_.toNat := by
      simp [sleepSum, sleepSum_append, sleepSum_repeatEvents, sleepSum_gapEvents,
        toUseconds_of_nonneg _ hd0 hd1]
    rw [hs]
    exact harith _ _ _ hc hd0
  · refine ⟨_, _, ManchesterCodeTarget.targetAirControl_eq pin tp hta code [],
      ManchesterCodeTarget.sendAirCommandManchester_eq pin tp hta code [], ?_⟩
    simp only [List.nil_append]
    have hs : sleepSum (Event.pinMode pin PinMode.OUTPUT ::
        (repeatEvents
          (code.flatMap (encodeEvents pin (toUseconds (Int.tdiv tp.getDataLength 2))
            (toUseconds tp.getSyncLength)))
          (gapEvents pin tp.getSendDelay) tp.getSendCommand.toNat
          ++ [Event.pinMode pin PinMode.INPUT]))
        = tp.getSendCommand.toNat * sleepSum
            (code.flatMap (encodeEvents pin (toUseconds (Int.tdiv tp.getDataLength 2))
              (toUseconds tp.getSyncLength)))
          + (tp.getSendCommand.toNat - 1) * tp.getSendDelay.toNat := by
      simp [sleepSum, sleepSum_append, sleepSum_repeatEvents, sleepSum_gapEvents,
        toUseconds_of_nonneg _ htd0 htd1]
    rw [hs]
    exact harith _ _ _ htc htd0

/-- Witness of C4: three passes over "s0S1" with a delay of 1000 between them. -/
theorem airControl_sleepSum_witness :
    (∃ trace pass,
        WaremaSend.airControl examplePlatform 17 (exampleParameters 3 1000) "s0S1".toList []
          = some trace
        ∧ WaremaSend.sendAirCommand examplePlatform 17 (exampleParameters 3 1000)
          "s0S1".toList [] = some pass
        ∧ (sleepSum trace : Int)
          = (exampleParameters 3 1000).sendCommand_ * sleepSum pass
            + ((exampleParameters 3 1000).sendCommand_ - 1)
              * (exampleParameters 3 1000).sendDelayUs_)
      ∧ ∃ trace pass,
        ManchesterCodeTarget.airControl 17 (exampleTargetParameters 3 1000) "s0S1".toList []
          = some trace
        ∧ ManchesterCodeTarget.sendAirCommandManchester 17 (exampleTargetParameters 3 1000)
          "s0S1".toList [] = some pass
        ∧ (sleepSum trace : Int)
          = (exampleTargetParameters 3 1000).getSendCommand * sleepSum pass
            + ((exampleTargetParameters 3 1000).getSendCommand - 1)
              * (exampleTargetParameters 3 1000).getSendDelay :=
  airControl_sleepSum examplePlatform 17 (exampleParameters 3 1000)
    (exampleTargetParameters 3 1000) "s0S1".toList (by decide) rfl (by decide) (by decide)
    (by decide) (by decide) (by decide) (by decide)

/-- C5: for every `sendCommand >= 1`, `airControl` returns, and its trace is the mode change
to OUTPUT, then `sendCommand` copies of the encoding pass with exactly one pair "write LOW,
sleep `sendDelay`" after each copy except the last, then the mode change to INPUT. So there
are exactly `sendCommand - 1` inter-repeat delays, and none when `sendCommand = 1`. The
sleep is recorded with the duration `usleep` receives, `sendDelay` converted to `useconds_t`.
The remaining hypotheses say that the assertions of the code hold. -/
theorem airControl_repeats (P : Platform) (pin : Nat) (p : WaremaSendParameters)
    (tp : TargetParameters) (code : CppString)
    (hL : p.Loaded P) (hta : tp.getAirCode = AirCode.MANCHESTER)
    (hc : 1 ≤ p.sendCommand_) (htc : 1 ≤ tp.getSendCommand) :
    (∃ pass, WaremaSend.sendAirCommand P pin p code [] = some pass
        ∧ WaremaSend.airControl P pin p code []
          = some (Event.pinMode pin PinMode.OUTPUT ::
              (pass ++ (List.replicate (p.sendCommand_.toNat - 1)
                  ([Event.digitalWrite pin PinLevel.LOW,
                    Event.usleep (toUseconds p.sendDelayUs_)] ++ pass)).flatten
                ++ [Event.pinMode pin PinMode.INPUT]))
        ∧ (p.sendCommand_ = 1 → WaremaSend.airControl P pin p code []
          = some (Event.pinMode pin PinMode.OUTPUT ::
              (pass ++ [Event.pinMode pin PinMode.INPUT]))))
      ∧ ∃ pass, ManchesterCodeTarget.sendAirCommandManchester pin tp code [] = some pass
        ∧ ManchesterCodeTarget.airControl pin tp code []
          = some (Event.pinMode pin PinMode.OUTPUT ::
              (pass ++ (List.replicate (tp.getSendCommand.toNat - 1)
                  ([Event.digitalWrite pin PinLevel.LOW,
                    Event.usleep (toUseconds tp.getSendDelay)] ++ pass)).flatten
                ++ [Event.pinMode pin PinMode.INPUT]))
        ∧ (tp.getSendCommand = 1 → ManchesterCodeTarget.airControl pin tp code []
          = some (Event.pinMode pin PinMode.OUTPUT ::
              (pass ++ [Event.pinMode pin PinMode.INPUT]))) := by
  have hsucc : ∀ c : Int, 1 ≤ c → c.toNat = (c.toNat - 1) + 1 := fun c h => by omega
  constructor
  · have hmain : WaremaSend.airControl P pin p code []
        = some (Event.pinMode pin PinMode.OUTPUT ::
            (code.flatMap (encodeEvents pin (toUseconds (Int.tdiv p.dataLengthUs_ 2))
                (toUseconds p.syncLengthUs_))
              ++ (List.replicate (p.sendCommand_.toNat - 1)
                ([Event.digitalWrite pin PinLevel.LOW,
                  Event.usleep (toUseconds p.sendDelayUs_)]
                  ++ code.flatMap (encodeEvents pin (toUseconds (Int.tdiv p.dataLengthUs_ 2))
                    (toUseconds p.syncLengthUs_)))).flatten
              ++ [Event.pinMode pin PinMode.INPUT])) := by
      rw [WaremaSend.airControl_eq P pin p hL code [], hsucc _ hc, repeatEvents_succ]
      simp [gapEvents]
    refine ⟨_, WaremaSend.sendAirCommand_eq P pin p hL code [], ?_, ?_⟩
    · simpa using hmain
    · intro h1
      rw [hmain, h1]
      simp
  · have hmain : ManchesterCodeTarget.airControl pin tp code []
        = some (Event.pinMode pin PinMode.OUTPUT ::
            (code.flatMap (encodeEvents pin (toUseconds (Int.tdiv tp.getDataLength 2))
                (toUseconds tp.getSyncLength))
              ++ (List.replicate (tp.getSendCommand.toNat - 1)
                ([Event.digitalWrite pin PinLevel.LOW,
                  Event.usleep (toUseconds tp.getSendDelay)]
                  ++ code.flatMap (encodeEvents pin (toUseconds (Int.tdiv tp.getDataLength 2))
                    (toUseconds tp.getSyncLength)))).flatten
              ++ [Event.pinMode pin PinMode.INPUT])) := by
      rw [ManchesterCodeTarget.targetAirControl_eq pin tp hta code [], hsucc _ htc,
        repeatEvents_succ]
      simp [gapEvents]
    refine ⟨_, ManchesterCodeTarget.sendAirCommandManchester_eq pin tp hta code [], ?_, ?_⟩
    · simpa using hmain
    · intro h1
      rw [hmain, h1]
      simp

/-- Witness of C5: two passes over "s1" with a delay of 1000 between them. -/
theorem airControl_repeats_witness :
    WaremaSend.airControl examplePlatform 17 (exampleParameters 2 1000) "s1".toList []
        = some [Event.pinMode 17 PinMode.OUTPUT,
            Event.digitalWrite 17 PinLevel.LOW, Event.usleep 5000,
            Event.digitalWrite 17 PinLevel.LOW, Event.usleep 250,
            Event.digitalWrite 17 PinLevel.HIGH, Event.usleep 250,
            Event.digitalWrite 17 PinLevel.LOW, Event.usleep 1000,
            Event.digitalWrite 17 PinLevel.LOW, Event.usleep 5000,
            Event.digitalWrite 17 PinLevel.LOW, Event.usleep 250,
            Event.digitalWrite 17 PinLevel.HIGH, Event.usleep 250,
            Event.pinMode 17 PinMode.INPUT] := by
  obtain ⟨⟨pass, hpass, htrace, -⟩, -⟩ := airControl_repeats examplePlatform 17
    (exampleParameters 2 1000) (exampleTargetParameters 2 1000) "s1".toList (by decide) rfl
    (by decide) (by decide)
  have hp : pass = [Event.digitalWrite 17 PinLevel.LOW, Event.usleep 5000,
      Event.digitalWrite 17 PinLevel.LOW, Event.usleep 250,
      Event.digitalWrite 17 PinLevel.HIGH, Event.usleep 250] :=
    Option.some.inj (hpass.symm.trans (by decide))
  rw [htrace, hp]
  decide

/-- C6: whenever the assertions of the code hold, `airControl` returns, and its trace starts
with one mode change to OUTPUT on the selected pin, ends with one mode change to INPUT on the
same pin, and everything between the two is a level-set on that same pin or a sleep: there
is no other mode change, and no level-set or sleep outside the two mode changes. -/
theorem airControl_mode_frame (P : Platform) (pin : Nat) (p : WaremaSendParameters)
    (tp : TargetParameters) (code : CppString)
    (hL : p.Loaded P) (hta : tp.getAirCode = AirCode.MANCHESTER) :
    (∃ body, WaremaSend.airControl P pin p code []
          = some (Event.pinMode pin PinMode.OUTPUT :: (body ++ [Event.pinMode pin PinMode.INPUT]))
        ∧ ∀ e ∈ body, (∃ value, e = Event.digitalWrite pin value) ∨ ∃ usec, e = Event.usleep usec)
      ∧ ∃ body, ManchesterCodeTarget.airControl pin tp code []
          = some (Event.pinMode pin PinMode.OUTPUT :: (body ++ [Event.pinMode pin PinMode.INPUT]))
        ∧ ∀ e ∈ body, (∃ value, e = Event.digitalWrite pin value) ∨ ∃ usec, e = Event.usleep usec :=
  ⟨⟨_, by simpa using WaremaSend.airControl_eq P pin p hL code [],
      fun e he => mem_transmission_body pin _ _ _ code _ e he⟩,
    ⟨_, by simpa using ManchesterCodeTarget.targetAirControl_eq pin tp hta code [],
      fun e he => mem_transmission_body pin _ _ _ code _ e he⟩⟩

/-- Witness of C6: one pass over "S". -/
theorem airControl_mode_frame_witness :
    ∃ body, WaremaSend.airControl examplePlatform 17 (exampleParameters 1 0) "S".toList []
          = some (Event.pinMode 17 PinMode.OUTPUT :: (body ++ [Event.pinMode 17 PinMode.INPUT]))
        ∧ ∀ e ∈ body, (∃ value, e = Event.digitalWrite 17 value) ∨ ∃ usec, e = Event.usleep usec :=
  (airControl_mode_frame examplePlatform 17 (exampleParameters 1 0)
    (exampleTargetParameters 1 0) "S".toList (by decide) rfl).1

/-- C7, refuted as stated: in the transmission of "10S" the only call before the first
level-set is the mode change to OUTPUT, so the line is in output mode immediately before the
first symbol, even when it was in input mode before the call. -/
theorem airControl_mode_before_first_symbol_counterexample :
    (WaremaSend.airControl examplePlatform 17 (exampleParameters 1 0) "10S".toList []).map
        beforeFirstWrite = some [Event.pinMode 17 PinMode.OUTPUT]
      ∧ (WaremaSend.airControl examplePlatform 17 (exampleParameters 1 0) "10S".toList []).map
        (fun trace => modeAfter 17 PinMode.INPUT (beforeFirstWrite trace))
          = some PinMode.OUTPUT
      ∧ (ManchesterCodeTarget.airControl 17 (exampleTargetParameters 1 0) "10S".toList
          []).map beforeFirstWrite = some [Event.pinMode 17 PinMode.OUTPUT]
      ∧ (ManchesterCodeTarget.airControl 17 (exampleTargetParameters 1 0) "10S".toList []).map
        (fun trace => modeAfter 17 PinMode.INPUT (beforeFirstWrite trace))
          = some PinMode.OUTPUT := by
  decide

/-- C7, amended: whenever the assertions of the code hold, `airControl` returns and the line
is in input mode immediately after the call, whatever its mode before the call; when a
symbol is emitted, the line is in output mode immediately before the first one. The
transmitter sets output mode before and input mode after driving the line. -/
theorem airControl_mode_before_and_after (P : Platform) (pin : Nat)
    (p : WaremaSendParameters) (tp : TargetParameters) (code : CppString) (init : PinMode)
    (hL : p.Loaded P) (hta : tp.getAirCode = AirCode.MANCHESTER) :
    (∃ trace, WaremaSend.airControl P pin p code [] = some trace
        ∧ modeAfter pin init trace = PinMode.INPUT
        ∧ (levelWrites trace ≠ [] →
          modeAfter pin init (beforeFirstWrite trace) = PinMode.OUTPUT))
      ∧ ∃ trace, ManchesterCodeTarget.airControl pin tp code [] = some trace
        ∧ modeAfter pin init trace = PinMode.INPUT
        ∧ (levelWrites trace ≠ [] →
          modeAfter pin init (beforeFirstWrite trace) = PinMode.OUTPUT) := by
  have key : ∀ body : Trace,
      (∀ e ∈ body, (∃ value, e = Event.digitalWrite pin value) ∨ ∃ usec, e = Event.usleep usec) →
      modeAfter pin init
          (Event.pinMode pin PinMode.OUTPUT :: (body ++ [Event.pinMode pin PinMode.INPUT]))
        = PinMode.INPUT
      ∧ (levelWrites
          (Event.pinMode pin PinMode.OUTPUT :: (body ++ [Event.pinMode pin PinMode.INPUT])) ≠ [] →
        modeAfter pin init (beforeFirstWrite
          (Event.pinMode pin PinMode.OUTPUT :: (body ++ [Event.pinMode pin PinMode.INPUT])))
          = PinMode.OUTPUT) := by
    intro body hb
    constructor
    · simp [modeAfter, modeAfter_body pin _ body hb]
    · intro hw
      have hw2 : levelWrites body ≠ [] := by
        simpa [levelWrites, levelWrites_append] using hw
      simp [beforeFirstWrite, modeAfter, modeAfter_beforeFirstWrite_body pin _ body hb _ hw2]
  constructor
  · refine ⟨_, by simpa using WaremaSend.airControl_eq P pin p hL code [], ?_⟩
    exact key _ (fun e he => mem_transmission_body pin _ _ _ code _ e he)
  · refine ⟨_, by simpa using ManchesterCodeTarget.targetAirControl_eq pin tp hta code [], ?_⟩
    exact key _ (fun e he => mem_transmission_body pin _ _ _ code _ e he)

/-- Witness of the amended C7: one pass over "s", the line in input mode beforehand. -/
theorem airControl_mode_before_and_after_witness :
    ∃ trace, WaremaSend.airControl examplePlatform 17 (exampleParameters 1 0) "s".toList []
          = some trace
        ∧ modeAfter 17 PinMode.INPUT trace = PinMode.INPUT
        ∧ (levelWrites trace ≠ [] →
          modeAfter 17 PinMode.INPUT (beforeFirstWrite trace) = PinMode.OUTPUT) :=
  (airControl_mode_before_and_after examplePlatform 17 (exampleParameters 1 0)
    (exampleTargetParameters 1 0) "s".toList PinMode.INPUT (by decide) rfl).1

/-- C8: whenever `WaremaSend::start` accepts a descriptor (returns the success exit code), the
descriptor has two parts `device` and `action`, the parameters of `device` were loaded, the
lower-cased action token is "up", "down" or "stop", and the symbol string handed to
`airControl`, whose trace is the trace of `start`, is the corresponding configured action
fragment followed by the device fragment followed by a single 'S'. -/
theorem start_transmits_assembled_code (P : Platform) (cfg : Configuration) (pin : Nat)
    (desc : CppString) (r : WaremaSend.StartResult)
    (h : WaremaSend.start P cfg pin desc = some r) (hok : r.exitCode = EXIT_SUCCESS) :
    ∃ device action p, WaremaSend.split desc '.' = [device, action]
      ∧ WaremaSendParameters.load P cfg (WaremaSendParameters.new P device) = Except.ok p
      ∧ WaremaSend.airControl P r.gpioPin_ p r.manchestercode_ [] = some r.trace
      ∧ ((WaremaSend.to_lower action = "up".toList ∧ r.manchestercode_
            = p.manchesterCodeUp_ ++ p.manchesterCodeDevice_ ++ "S".toList)
        ∨ (WaremaSend.to_lower action = "down".toList ∧ r.manchestercode_
            = p.manchesterCodeDown_ ++ p.manchesterCodeDevice_ ++ "S".toList)
        ∨ (WaremaSend.to_lower action = "stop".toList ∧ r.manchestercode_
            = p.manchesterCodeStop_ ++ p.manchesterCodeDevice_ ++ "S".toList)) := by
  have hne : EXIT_FAILURE ≠ EXIT_SUCCESS := by decide
  by_cases hlen : (WaremaSend.split desc '.').length = 2
  · obtain ⟨device, action, hsplit⟩ := List.length_eq_two.mp hlen
    refine ⟨device, action, ?_⟩
    rcases WaremaSend.start_pair_cases P cfg pin desc device action r hsplit h with
      ⟨-, hr⟩ | ⟨-, d, -, hr⟩ | ⟨-, p, -, -, -, hr⟩ | ⟨-, p, hload, used, -, hact⟩
    · rw [hr] at hok
      exact absurd hok hne
    · rw [hr] at hok
      exact absurd hok hne
    · rw [hr] at hok
      exact absurd hok hne
    · rcases WaremaSend.startAction_eq_some P p used _ r hact with ⟨hr, -⟩ | ⟨-, -, hp, hair, hc⟩
      · rw [hr] at hok
        exact absurd hok hne
      · exact ⟨p, hsplit, hload, by rw [hp]; exact hair, hc⟩
  · rw [WaremaSend.start_of_not_pair P cfg pin desc hlen] at h
    rw [← Option.some.inj h] at hok
    exact absurd hok hne

/-- Witness of C8: device `shutter1`, action "UP", `manchesterCodeUp` "1010" and
`manchesterCodeDevice` "0011" give the symbol string "10100011S". -/
theorem start_transmits_assembled_code_witness :
    (WaremaSend.start examplePlatform exampleConfiguration 255 "shutter1.UP".toList).map
      (fun r => r.manchestercode_) = some "10100011S".toList := by
  cases hr : WaremaSend.start examplePlatform exampleConfiguration 255 "shutter1.UP".toList with
  | none => exact absurd hr (by decide)
  | some r =>
    have hexit : (WaremaSend.start examplePlatform exampleConfiguration 255
        "shutter1.UP".toList).map (fun r => r.exitCode) = some EXIT_SUCCESS := by decide
    rw [hr] at hexit
    have hok : r.exitCode = EXIT_SUCCESS := Option.some.inj hexit
    obtain ⟨device, action, p, hsplit, hload, -, hcode⟩ :=
      start_transmits_assembled_code examplePlatform exampleConfiguration 255
        "shutter1.UP".toList r hr hok
    have hs : [device, action] = ["shutter1".toList, "UP".toList] :=
      hsplit.symm.trans (by decide)
    obtain ⟨rfl, rfl⟩ : device = "shutter1".toList ∧ action = "UP".toList := by
      simpa using hs
    have hp : p = exampleParameters 3 1000 :=
      Except.ok.inj (hload.symm.trans (by rfl))
    subst hp
    rcases hcode with ⟨-, hc⟩ | ⟨hno, -⟩ | ⟨hno, -⟩
    · simp only [Option.map_some', hc]
      rfl
    · exact absurd hno (by decide)
    · exact absurd hno (by decide)

/-- C9, refuted as stated: the descriptor "shutter1.up." holds two separators, so it is not
a device part and an action part separated by exactly one '.', and yet `start` does not
fail on it: it returns the success exit code with nothing written to `std::cerr`. -/
theorem start_malformed_counterexample :
    (WaremaSend.start examplePlatform exampleConfiguration 255 "shutter1.up.".toList).map
        (fun r => (r.exitCode, r.stderr)) = some (EXIT_SUCCESS, [])
      ∧ "shutter1.up.".toList.count '.' = 2
      ∧ ¬ ∃ device action : CppString, '.' ∉ device ∧ '.' ∉ action
          ∧ "shutter1.up.".toList = device ++ '.' :: action := by
  refine ⟨by decide, by decide, ?_⟩
  rintro ⟨device, action, hd, ha, heq⟩
  have hcount := congrArg (List.count '.') heq
  rw [List.count_append, List.count_cons_self, List.count_eq_zero_of_not_mem hd,
    List.count_eq_zero_of_not_mem ha] at hcount
  revert hcount
  decide

/-- C9, amended: for every descriptor, `WaremaSend::start` fails as malformed input (failure
exit code, message "Error: param deviceandaction: ...") if and only if `split` does not
yield exactly two parts, and that is the case if and only if the descriptor is neither
`device.action` with a non-empty action nor `device.action.` (one trailing separator, which
`split` drops), where `device` and `action` hold no '.'. In particular a descriptor with no
separator fails. -/
theorem start_malformed_iff (P : Platform) (cfg : Configuration) (pin : Nat)
    (desc : CppString) :
    ((∃ r, WaremaSend.start P cfg pin desc = some r ∧ r.exitCode = EXIT_FAILURE
          ∧ r.stderr = [Diag.paramDeviceAndAction desc])
        ↔ ¬ ∃ device action : CppString, '.' ∉ device ∧ '.' ∉ action
            ∧ (desc = device ++ '.' :: action ∧ action ≠ []
              ∨ desc = device ++ '.' :: (action ++ ['.'])))
      ∧ ((WaremaSend.split desc '.').length ≠ 2
        ↔ ¬ ∃ device action : CppString, '.' ∉ device ∧ '.' ∉ action
            ∧ (desc = device ++ '.' :: action ∧ action ≠ []
              ∨ desc = device ++ '.' :: (action ++ ['.'])))
      ∧ ('.' ∉ desc → WaremaSend.start P cfg pin desc
          = some ⟨EXIT_FAILURE, [Diag.paramDeviceAndAction desc], [], pin, []⟩) := by
  have hiff := WaremaSend.split_length_two_iff '.' desc
  refine ⟨?_, not_congr hiff, ?_⟩
  rotate_left
  · intro hdot
    apply WaremaSend.start_of_not_pair
    intro hlen
    obtain ⟨device, action, -, -, ⟨h, -⟩ | h⟩ := hiff.mp hlen <;>
      exact hdot (by rw [h]; simp)
  have hne : ∀ l : List Diag, ∀ d, d.fromLoad = true → l = [d] →
      l ≠ [Diag.paramDeviceAndAction desc] := by
    intro l d hd hl heq
    rw [hl] at heq
    have := List.head_eq_of_cons_eq heq
    rw [this] at hd
    simp [Diag.fromLoad] at hd
  · constructor
    · rintro ⟨r, hr, hfail, herr⟩ hform
      have hlen := hiff.mpr hform
      obtain ⟨device, action, hsplit⟩ := List.length_eq_two.mp hlen
      rcases WaremaSend.start_pair_cases P cfg pin desc device action r hsplit hr with
        ⟨-, hr⟩ | ⟨-, d, hload, hr⟩ | ⟨-, p, -, -, -, hr⟩ | ⟨-, p, hload, used, -, hact⟩
      · rw [hr] at herr
        simp at herr
      · rw [hr] at herr
        exact hne _ d (WaremaSendParameters.load_error P cfg _ d hload) rfl herr
      · rw [hr] at herr
        simp at herr
      · rcases WaremaSend.startAction_eq_some P p used _ r hact with
          ⟨hr, -⟩ | ⟨hok, -, -, -, -⟩
        · rw [hr] at herr
          simp at herr
        · rw [hok] at hfail
          exact absurd hfail (by decide)
    · intro hform
      have hlen : (WaremaSend.split desc '.').length ≠ 2 := fun h => hform (hiff.mp h)
      exact ⟨_, WaremaSend.start_of_not_pair P cfg pin desc hlen, rfl, rfl⟩

/-- Witness of the amended C9: the descriptor "shutter1" holds no separator. -/
theorem start_malformed_iff_witness :
    WaremaSend.start examplePlatform exampleConfiguration 255 "shutter1".toList
      = some ⟨EXIT_FAILURE, [Diag.paramDeviceAndAction "shutter1".toList], [], 255, []⟩ :=
  (start_malformed_iff examplePlatform exampleConfiguration 255 "shutter1".toList).2.2
    (by decide)

/-- C10: for every descriptor with two parts whose device section exists, whose parameters
load and whose pin is acceptable (the given pin is valid, or none was given and the loaded one
passes the assertion of `getGpioPin`), `WaremaSend::start` fails with the invalid-action
message if and only if the lower-cased action token is none of "up", "down", "stop". -/
theorem start_invalid_action_iff (P : Platform) (cfg : Configuration) (pin : Nat)
    (desc device action : CppString) (p : WaremaSendParameters)
    (hsplit : WaremaSend.split desc '.' = [device, action])
    (hsec : cfg.isValidSection ("waremasend_".toList ++ device) = true)
    (hload : WaremaSendParameters.load P cfg (WaremaSendParameters.new P device) = Except.ok p)
    (hpin : if pin = P.INVALID_GPIO_PIN then p.gpioPin_ ≠ P.INVALID_GPIO_PIN
      else P.isValidGpioPin pin = true) :
    (∃ r, WaremaSend.start P cfg pin desc = some r ∧ r.exitCode = EXIT_FAILURE
        ∧ r.stderr = [Diag.actionInvalid (WaremaSend.to_lower action)])
      ↔ (WaremaSend.to_lower action ≠ "up".toList
        ∧ WaremaSend.to_lower action ≠ "down".toList
        ∧ WaremaSend.to_lower action ≠ "stop".toList) := by
  constructor
  · rintro ⟨r, hr, hfail, herr⟩
    rcases WaremaSend.start_pair_cases P cfg pin desc device action r hsplit hr with
      ⟨hs, -⟩ | ⟨-, d, hl, -⟩ | ⟨-, q, -, -, -, hr⟩ | ⟨-, q, -, used, -, hact⟩
    · rw [hsec] at hs
      cases hs
    · rw [hload] at hl
      cases hl
    · rw [hr] at herr
      simp at herr
    · rcases WaremaSend.startAction_eq_some P q used _ r hact with
        ⟨-, h1, h2, h3⟩ | ⟨hok, -, -, -, -⟩
      · exact ⟨h1, h2, h3⟩
      · rw [hok] at hfail
        exact absurd hfail (by decide)
  · rintro ⟨h1, h2, h3⟩
    rw [WaremaSend.start_of_pair P cfg pin desc device action hsplit]
    simp only [hsec, Bool.not_true, Bool.false_eq_true, if_false, hload]
    by_cases hp : pin = P.INVALID_GPIO_PIN
    · rw [if_pos hp] at hpin
      simp only [hp, if_true, WaremaSendParameters.getGpioPin, hpin, ne_eq, not_false_eq_true,
        Option.some_bind, WaremaSend.startAction, h1, h2, h3, if_false]
      exact ⟨_, rfl, rfl, rfl⟩
    · rw [if_neg hp] at hpin
      simp only [hp, if_false, hpin, Bool.not_true, Bool.false_eq_true,
        WaremaSend.startAction, h1, h2, h3]
      exact ⟨_, rfl, rfl, rfl⟩

/-- Witness of C10: device `shutter1`, action "sideways". -/
theorem start_invalid_action_iff_witness :
    ∃ r, WaremaSend.start examplePlatform exampleConfiguration 255 "shutter1.sideways".toList
        = some r ∧ r.exitCode = EXIT_FAILURE
      ∧ r.stderr = [Diag.actionInvalid (WaremaSend.to_lower "sideways".toList)] :=
  (start_invalid_action_iff examplePlatform exampleConfiguration 255
    "shutter1.sideways".toList "shutter1".toList "sideways".toList (exampleParameters 3 1000)
    (by decide) (by decide) (by rfl) (by decide)).mpr ⟨by decide, by decide, by decide⟩

/-- C11: whenever `WaremaSend::start` or `ManchesterCodeTarget::start` returns the failure
exit code, the recorded trace is empty: no mode-set, level-set or sleep was issued. -/
theorem start_failure_trace_empty (P : Platform) (cfg : Configuration)
    (load : Configuration → CppString → Option TargetParameters) (pin : Nat)
    (desc code : CppString) :
    (∀ r, WaremaSend.start P cfg pin desc = some r → r.exitCode = EXIT_FAILURE → r.trace = [])
      ∧ (∀ r, ManchesterCodeTarget.start P cfg load pin code = some r →
        r.exitCode = EXIT_FAILURE → r.trace = []) := by
  have hne : EXIT_SUCCESS ≠ EXIT_FAILURE := by decide
  constructor
  · intro r h hfail
    by_cases hlen : (WaremaSend.split desc '.').length = 2
    · obtain ⟨device, action, hsplit⟩ := List.length_eq_two.mp hlen
      rcases WaremaSend.start_pair_cases P cfg pin desc device action r hsplit h with
        ⟨-, hr⟩ | ⟨-, d, -, hr⟩ | ⟨-, p, -, -, -, hr⟩ | ⟨-, p, -, used, -, hact⟩
      · rw [hr]
      · rw [hr]
      · rw [hr]
      · rcases WaremaSend.startAction_eq_some P p used _ r hact with ⟨hr, -⟩ | ⟨hok, -⟩
        · rw [hr]
        · rw [hok] at hfail
          exact absurd hfail hne
    · rw [WaremaSend.start_of_not_pair P cfg pin desc hlen] at h
      rw [← Option.some.inj h]
  · intro r h hfail
    rcases ManchesterCodeTarget.targetStart_cases P cfg load pin code r h with
      ⟨-, ht, -⟩ | ⟨hok, -⟩
    · exact ht
    · rw [hok] at hfail
      exact absurd hfail hne

/-- Witness of C11: the malformed descriptor "shutter1", and the Manchester target on a
configuration that has no section `warema_sample`. -/
theorem start_failure_trace_empty_witness :
    (WaremaSend.start examplePlatform exampleConfiguration 99 "shutter1".toList).map
        (fun r => (r.exitCode, r.trace)) = some (EXIT_FAILURE, [])
      ∧ (ManchesterCodeTarget.start examplePlatform exampleConfiguration exampleTargetLoad 99
        "10S".toList).map (fun r => (r.exitCode, r.trace)) = some (EXIT_FAILURE, []) := by
  obtain ⟨h1, h2⟩ := start_failure_trace_empty examplePlatform exampleConfiguration
    exampleTargetLoad 99 "shutter1".toList "10S".toList
  constructor
  · cases hr : WaremaSend.start examplePlatform exampleConfiguration 99 "shutter1".toList with
    | none => exact absurd hr (by decide)
    | some r =>
      have hexit : (WaremaSend.start examplePlatform exampleConfiguration 99
          "shutter1".toList).map (fun r => r.exitCode) = some EXIT_FAILURE := by decide
      rw [hr] at hexit
      have hf : r.exitCode = EXIT_FAILURE := Option.some.inj hexit
      simp only [Option.map_some', hf, h1 r hr hf]
  · cases hr : ManchesterCodeTarget.start examplePlatform exampleConfiguration
        exampleTargetLoad 99 "10S".toList with
    | none => exact absurd hr (by decide)
    | some r =>
      have hexit : (ManchesterCodeTarget.start examplePlatform exampleConfiguration
          exampleTargetLoad 99 "10S".toList).map (fun r => r.exitCode)
            = some EXIT_FAILURE := by decide
      rw [hr] at hexit
      have hf : r.exitCode = EXIT_FAILURE := Option.some.inj hexit
      simp only [Option.map_some', hf, h2 r hr hf]

/-- C12: when the sentinel pin is not a valid pin, `WaremaSend::start` returns on every
descriptor; it returns the success exit code if and only if the descriptor splits into two
parts, the section `waremasend_<device>` exists, all parameters load, the pin given on the
command line is unset or valid, and the lower-cased action is "up", "down" or "stop"; in
every other case it returns the failure exit code; and in the success case its trace is
exactly the trace of one complete `airControl` transmission. -/
theorem start_success_iff (P : Platform) (hP : P.SentinelNotValid) (cfg : Configuration)
    (pin : Nat) (desc : CppString) :
    ((∃ r, WaremaSend.start P cfg pin desc = some r ∧ r.exitCode = EXIT_SUCCESS)
        ↔ ∃ device action p, WaremaSend.split desc '.' = [device, action]
          ∧ cfg.isValidSection ("waremasend_".toList ++ device) = true
          ∧ WaremaSendParameters.load P cfg (WaremaSendParameters.new P device) = Except.ok p
          ∧ (pin = P.INVALID_GPIO_PIN ∨ P.isValidGpioPin pin = true)
          ∧ (WaremaSend.to_lower action = "up".toList
            ∨ WaremaSend.to_lower action = "down".toList
            ∨ WaremaSend.to_lower action = "stop".toList))
      ∧ ((¬ ∃ device action p, WaremaSend.split desc '.' = [device, action]
          ∧ cfg.isValidSection ("waremasend_".toList ++ device) = true
          ∧ WaremaSendParameters.load P cfg (WaremaSendParameters.new P device) = Except.ok p
          ∧ (pin = P.INVALID_GPIO_PIN ∨ P.isValidGpioPin pin = true)
          ∧ (WaremaSend.to_lower action = "up".toList
            ∨ WaremaSend.to_lower action = "down".toList
            ∨ WaremaSend.to_lower action = "stop".toList))
        → ∃ r, WaremaSend.start P cfg pin desc = some r ∧ r.exitCode = EXIT_FAILURE)
      ∧ (∀ r, WaremaSend.start P cfg pin desc = some r → r.exitCode = EXIT_SUCCESS →
        ∃ device p,
          WaremaSendParameters.load P cfg (WaremaSendParameters.new P device) = Except.ok p
          ∧ WaremaSend.airControl P r.gpioPin_ p r.manchestercode_ [] = some r.trace) := by
  have hne : EXIT_FAILURE ≠ EXIT_SUCCESS := by decide
  have hforward : (∃ r, WaremaSend.start P cfg pin desc = some r ∧ r.exitCode = EXIT_SUCCESS)
      → ∃ device action p, WaremaSend.split desc '.' = [device, action]
          ∧ cfg.isValidSection ("waremasend_".toList ++ device) = true
          ∧ WaremaSendParameters.load P cfg (WaremaSendParameters.new P device) = Except.ok p
          ∧ (pin = P.INVALID_GPIO_PIN ∨ P.isValidGpioPin pin = true)
          ∧ (WaremaSend.to_lower action = "up".toList
            ∨ WaremaSend.to_lower action = "down".toList
            ∨ WaremaSend.to_lower action = "stop".toList) := by
    rintro ⟨r, h, hok⟩
    obtain ⟨device, action, p, h1, h2, h3, h4, h5, -⟩ :=
      WaremaSend.start_success_cases P cfg pin desc r h hok
    refine ⟨device, action, p, h1, h2, h3, ?_, h5⟩
    rcases h4 with ⟨h, -⟩ | ⟨-, h, -⟩
    · exact Or.inl h
    · exact Or.inr h
  refine ⟨⟨hforward, ?_⟩, ?_, ?_⟩
  · rintro ⟨device, action, p, hsplit, hsec, hload, hpin, hact⟩
    obtain ⟨r, hr⟩ := WaremaSend.start_returns P hP cfg pin desc
    refine ⟨r, hr, ?_⟩
    rcases WaremaSend.start_pair_cases P cfg pin desc device action r hsplit hr with
      ⟨hs, -⟩ | ⟨-, d, hl, -⟩ | ⟨-, q, -, hp1, hp2, -⟩ | ⟨-, q, -, used, -, hsa⟩
    · rw [hsec] at hs
      cases hs
    · rw [hload] at hl
      cases hl
    · rcases hpin with h | h
      · exact absurd h hp1
      · rw [h] at hp2
        cases hp2
    · rcases WaremaSend.startAction_eq_some P q used _ r hsa with
        ⟨-, h1, h2, h3⟩ | ⟨hok, -⟩
      · rcases hact with h | h | h
        · exact absurd h h1
        · exact absurd h h2
        · exact absurd h h3
      · exact hok
  · intro hnot
    obtain ⟨r, hr⟩ := WaremaSend.start_returns P hP cfg pin desc
    rcases WaremaSend.start_exitCode P cfg pin desc r hr with hok | hfail
    · exact absurd (hforward ⟨r, hr, hok⟩) hnot
    · exact ⟨r, hr, hfail⟩
  · intro r h hok
    obtain ⟨device, action, p, -, -, h3, -, -, h6⟩ :=
      WaremaSend.start_success_cases P cfg pin desc r h hok
    exact ⟨device, p, h3, h6⟩

/-- Witness of C12: on the example platform the sentinel 255 is not among the valid pins 0
to 27, and the descriptor "shutter1.stop" is accepted. -/
theorem start_success_iff_witness :
    ∃ r, WaremaSend.start examplePlatform exampleConfiguration 255 "shutter1.stop".toList
      = some r ∧ r.exitCode = EXIT_SUCCESS :=
  (start_success_iff examplePlatform
    (by
      intro value hv
      simp only [examplePlatform, decide_eq_true_eq] at hv
      show (value % 256).toNat ≠ 255
      omega)
    exampleConfiguration 255 "shutter1.stop".toList).1.mpr
    ⟨"shutter1".toList, "stop".toList, exampleParameters 3 1000, by decide, by decide, by rfl,
      Or.inl rfl, Or.inr (Or.inr (by decide))⟩

/-- C13, refuted as stated: in the fragment "012x" the first character outside the alphabet
is the '2', so `loadManchestercode` (and with it `load`) reports position 3, not 4. -/
theorem loadManchestercode_position_counterexample :
    WaremaSendParameters.loadManchestercode
        (exampleConfigurationWith (some 500) 1000 "012x".toList)
        (WaremaSendParameters.new examplePlatform "shutter1".toList)
        "manchesterCodeUp".toList
      = Except.error
          (Diag.illegalCharacter "shutter1".toList "manchesterCodeUp".toList 3)
      ∧ WaremaSendParameters.load examplePlatform
          (exampleConfigurationWith (some 500) 1000 "012x".toList)
          (WaremaSendParameters.new examplePlatform "shutter1".toList)
        = Except.error
            (Diag.illegalCharacter "shutter1".toList "manchesterCodeUp".toList 3) :=
  ⟨by rfl, by rfl⟩

/-- C13, amended: for every code fragment that contains a character outside the alphabet,
`loadManchestercode` fails and reports the 1-indexed position of the first such character:
the fragment is `before ++ c :: after` with `before` inside the alphabet and `c` outside it,
and the position reported is `before.length + 1`. For "012x" that is 3 (the '2'). -/
theorem loadManchestercode_reports_first_illegal (cfg : Configuration)
    (q : WaremaSendParameters) (name var : CppString)
    (hget : WaremaSendParameters.getValue cfg.getValueString q.devicename_ q.devicename_ name
      = Except.ok var)
    (hbad : ∃ c ∈ var, c ∉ "01sS".toList) :
    ∃ before c after, var = before ++ c :: after
      ∧ (∀ x ∈ before, x ∈ "01sS".toList) ∧ c ∉ "01sS".toList
      ∧ WaremaSendParameters.loadManchestercode cfg q name
        = Except.error (Diag.illegalCharacter q.devicename_ name (before.length + 1)) := by
  have hne : var.length ≠ 0 := by
    obtain ⟨c, hc, -⟩ := hbad
    intro h0
    rw [List.length_eq_zero.mp h0] at hc
    simp at hc
  cases hf : find_first_not_of "01sS".toList var with
  | none =>
    obtain ⟨c, hc, hnot⟩ := hbad
    exact absurd ((find_first_not_of_eq_none _ _).mp hf c hc) hnot
  | some i =>
    obtain ⟨before, c, after, hvar, hlen, hc, hall⟩ := find_first_not_of_eq_some _ _ i hf
    refine ⟨before, c, after, hvar, hall, hc, ?_⟩
    unfold WaremaSendParameters.loadManchestercode
    simp only [hget, hne, if_false, hf, hlen]

/-- Witness of the amended C13: the fragment "012x". -/
theorem loadManchestercode_reports_first_illegal_witness :
    ∃ before c after, "012x".toList = before ++ c :: after
      ∧ (∀ x ∈ before, x ∈ "01sS".toList) ∧ c ∉ "01sS".toList
      ∧ WaremaSendParameters.loadManchestercode
          (exampleConfigurationWith (some 500) 1000 "012x".toList)
          (WaremaSendParameters.new examplePlatform "shutter1".toList)
          "manchesterCodeUp".toList
        = Except.error (Diag.illegalCharacter
            (WaremaSendParameters.new examplePlatform "shutter1".toList).devicename_
            "manchesterCodeUp".toList (before.length + 1)) :=
  loadManchestercode_reports_first_illegal
    (exampleConfigurationWith (some 500) 1000 "012x".toList)
    (WaremaSendParameters.new examplePlatform "shutter1".toList) "manchesterCodeUp".toList
    "012x".toList (by rfl) ⟨'2', by decide, by decide⟩

/-- C14: for every configuration, if `load` returns true then `dataLength > 0`,
`syncLength >= 0`, `sendCommand > 0`, and each of the four code fragments is a non-empty
string over the alphabet; conversely, a configuration whose resolved `dataLength` is `<= 0`,
whose `syncLength` is `< 0`, whose `sendCommand` is `<= 0`, or one of whose four code
fragments is empty or holds a character outside the alphabet, makes `load` return false. -/
theorem load_establishes_ranges (P : Platform) (cfg : Configuration)
    (q : WaremaSendParameters) :
    (∀ p, WaremaSendParameters.load P cfg q = Except.ok p →
        0 < p.dataLengthUs_ ∧ 0 ≤ p.syncLengthUs_ ∧ 0 < p.sendCommand_
        ∧ (p.manchesterCodeDevice_ ≠ [] ∧ Spec.ValidSymbolString p.manchesterCodeDevice_)
        ∧ (p.manchesterCodeDown_ ≠ [] ∧ Spec.ValidSymbolString p.manchesterCodeDown_)
        ∧ (p.manchesterCodeUp_ ≠ [] ∧ Spec.ValidSymbolString p.manchesterCodeUp_)
        ∧ (p.manchesterCodeStop_ ≠ [] ∧ Spec.ValidSymbolString p.manchesterCodeStop_))
      ∧ (∀ value, WaremaSendParameters.getValue cfg.getValueInt q.devicename_ q.devicename_
          "dataLength".toList = Except.ok value → value ≤ 0 →
        ∃ d, WaremaSendParameters.load P cfg q = Except.error d)
      ∧ (∀ value, WaremaSendParameters.getValue cfg.getValueInt q.devicename_ q.devicename_
          "syncLength".toList = Except.ok value → value < 0 →
        ∃ d, WaremaSendParameters.load P cfg q = Except.error d)
      ∧ (∀ value, WaremaSendParameters.getValue cfg.getValueInt q.devicename_ q.devicename_
          "sendCommand".toList = Except.ok value → value ≤ 0 →
        ∃ d, WaremaSendParameters.load P cfg q = Except.error d)
      ∧ (∀ name var, (name = "manchesterCodeDevice".toList ∨ name = "manchesterCodeDown".toList
            ∨ name = "manchesterCodeUp".toList ∨ name = "manchesterCodeStop".toList) →
          WaremaSendParameters.getValue cfg.getValueString q.devicename_ q.devicename_ name
            = Except.ok var →
          (var = [] ∨ ∃ c ∈ var, ¬ (c = '0' ∨ c = '1' ∨ c = 's' ∨ c = 'S')) →
        ∃ d, WaremaSendParameters.load P cfg q = Except.error d) := by
  have hvalid : ∀ s : CppString, (∀ c ∈ s, c ∈ "01sS".toList) → Spec.ValidSymbolString s :=
    fun s h c hc => (mem_alphabet_iff c).mp (h c hc)
  have hfail : (¬ ∃ p, WaremaSendParameters.load P cfg q = Except.ok p) →
      ∃ d, WaremaSendParameters.load P cfg q = Except.error d := by
    intro hno
    rcases except_ok_or_error (WaremaSendParameters.load P cfg q) with h | h
    · exact absurd h hno
    · exact h
  refine ⟨?_, ?_, ?_, ?_, ?_⟩
  · intro p h
    obtain ⟨pin, dataLength, syncLength, sendCommand, sendDelay, device, down, up, stop,
      -, -, -, -, v2, -, -, v3, -, n4, a4, -, n5, a5, -, n6, a6, -, n7, a7, -, -, v8, -, -,
      rfl⟩ := WaremaSendParameters.load_ok P cfg q p h
    exact ⟨v2, v3, v8, ⟨n4, hvalid _ a4⟩, ⟨n5, hvalid _ a5⟩, ⟨n6, hvalid _ a6⟩,
      ⟨n7, hvalid _ a7⟩⟩
  · intro value hget hle
    apply hfail
    rintro ⟨p, h⟩
    obtain ⟨pin, dataLength, syncLength, sendCommand, sendDelay, device, down, up, stop,
      -, -, g2, -, v2, -⟩ := WaremaSendParameters.load_ok P cfg q p h
    rw [hget] at g2
    cases g2
    omega
  · intro value hget hlt
    apply hfail
    rintro ⟨p, h⟩
    obtain ⟨pin, dataLength, syncLength, sendCommand, sendDelay, device, down, up, stop,
      -, -, -, -, -, g3, -, v3, -⟩ := WaremaSendParameters.load_ok P cfg q p h
    rw [hget] at g3
    cases g3
    omega
  · intro value hget hle
    apply hfail
    rintro ⟨p, h⟩
    obtain ⟨pin, dataLength, syncLength, sendCommand, sendDelay, device, down, up, stop,
      -, -, -, -, -, -, -, -, -, -, -, -, -, -, -, -, -, -, -, -, g8, -, v8, -⟩ :=
      WaremaSendParameters.load_ok P cfg q p h
    rw [hget] at g8
    cases g8
    omega
  · intro name var hname hget hbad
    apply hfail
    rintro ⟨p, h⟩
    obtain ⟨pin, dataLength, syncLength, sendCommand, sendDelay, device, down, up, stop,
      -, -, -, -, -, -, -, -, g4, n4, a4, g5, n5, a5, g6, n6, a6, g7, n7, a7, -⟩ :=
      WaremaSendParameters.load_ok P cfg q p h
    have hgood : var ≠ [] ∧ ∀ c ∈ var, c ∈ "01sS".toList := by
      rcases hname with rfl | rfl | rfl | rfl
      · rw [hget] at g4
        cases g4
        exact ⟨n4, a4⟩
      · rw [hget] at g5
        cases g5
        exact ⟨n5, a5⟩
      · rw [hget] at g6
        cases g6
        exact ⟨n6, a6⟩
      · rw [hget] at g7
        cases g7
        exact ⟨n7, a7⟩
    rcases hbad with hnil | ⟨c, hc, hnot⟩
    · exact hgood.1 hnil
    · exact hnot ((mem_alphabet_iff c).mp (hgood.2 c hc))

/-- Witness of C14: a configuration with `dataLength = -5` makes `load` return false. -/
theorem load_establishes_ranges_witness :
    ∃ d, WaremaSendParameters.load examplePlatform
        (exampleConfigurationWith (some (-5)) 1000 "1010".toList)
        (WaremaSendParameters.new examplePlatform "shutter1".toList) = Except.error d :=
  (load_establishes_ranges examplePlatform
    (exampleConfigurationWith (some (-5)) 1000 "1010".toList)
    (WaremaSendParameters.new examplePlatform "shutter1".toList)).2.1 (-5) (by rfl)
    (by decide)

set_option maxRecDepth 8192 in
/-- C15, the code at the failing input: with `sendDelay = -5` in the configuration, `load`
returns true and stores `-5`; `start` then succeeds, and after each of the first two of the
three passes `usleep` receives 4294967291 microseconds, so that the whole transmission
sleeps 3 * 9000 + 2 * 4294967291 microseconds. -/
theorem load_accepts_negative_sendDelay :
    WaremaSendParameters.load examplePlatform
        (exampleConfigurationWith (some 500) (-5) "1010".toList)
        (WaremaSendParameters.new examplePlatform "shutter1".toList)
      = Except.ok (exampleParameters 3 (-5))
      ∧ (exampleParameters 3 (-5)).sendDelayUs_ = -5
      ∧ (exampleParameters 3 (-5)).getSendDelay examplePlatform = some (-5)
      ∧ (WaremaSend.start examplePlatform
          (exampleConfigurationWith (some 500) (-5) "1010".toList) 255
          "shutter1.up".toList).map
        (fun r => (r.exitCode, (r.trace.filter
          (fun e => decide (e = Event.usleep 4294967291))).length, sleepSum r.trace))
          = some (EXIT_SUCCESS, 2, 8589961582) :=
  ⟨by rfl, by decide, by decide, by decide⟩

/-- C16: for every configuration and key, `getValue` returns the value of the key in the
device-specific section `waremasend_<device>` when it is present there, otherwise the value
of the key in the section `waremasend` when it is present there, and fails exactly when the
key is absent from both, with the message that names the key. In particular, when
`dataLength` is absent from both sections `load` fails, and with the message that names
`dataLength` once the pin is loaded. -/
theorem getValue_falls_back (P : Platform) (cfg : Configuration) (q : WaremaSendParameters)
    {α : Type} (get : CppString → CppString → Option α)
    (devicename section_ name : CppString) :
    (∀ value, get ("waremasend".toList ++ "_".toList ++ devicename) name = some value →
        WaremaSendParameters.getValue get devicename section_ name = Except.ok value)
      ∧ (∀ value, get ("waremasend".toList ++ "_".toList ++ devicename) name = none →
        get "waremasend".toList name = some value →
        WaremaSendParameters.getValue get devicename section_ name = Except.ok value)
      ∧ ((∃ d, WaremaSendParameters.getValue get devicename section_ name = Except.error d)
        ↔ get ("waremasend".toList ++ "_".toList ++ devicename) name = none
          ∧ get "waremasend".toList name = none)
      ∧ (∀ d, WaremaSendParameters.getValue get devicename section_ name = Except.error d →
        d = Diag.missingParameter name)
      ∧ (cfg.getValueInt ("waremasend".toList ++ "_".toList ++ q.devicename_)
            "dataLength".toList = none →
          cfg.getValueInt "waremasend".toList "dataLength".toList = none →
        (∃ d, WaremaSendParameters.load P cfg q = Except.error d)
          ∧ ∀ q1, WaremaSendParameters.loadGpioPin P cfg q = Except.ok q1 →
            WaremaSendParameters.load P cfg q
              = Except.error (Diag.missingParameter "dataLength".toList)) := by
  have hdef : ∀ {β : Type} (g : CppString → CppString → Option β) (dev sec key : CppString),
      WaremaSendParameters.getValue g dev sec key
        = match g ("waremasend".toList ++ "_".toList ++ dev) key with
          | some value => Except.ok value
          | none =>
            match g "waremasend".toList key with
            | some value => Except.ok value
            | none => Except.error (Diag.missingParameter key) := fun _ _ _ _ => rfl
  refine ⟨?_, ?_, ?_, ?_, ?_⟩
  · intro value h
    rw [hdef, h]
  · intro value h1 h2
    rw [hdef, h1, h2]
  · rw [hdef]
    cases h1 : get ("waremasend".toList ++ "_".toList ++ devicename) name with
    | some v => simp
    | none =>
      cases h2 : get "waremasend".toList name with
      | some v => simp
      | none => simp
  · intro d h
    rw [hdef] at h
    cases h1 : get ("waremasend".toList ++ "_".toList ++ devicename) name with
    | some v =>
      rw [h1] at h
      cases h
    | none =>
      cases h2 : get "waremasend".toList name with
      | some v =>
        rw [h1, h2] at h
        cases h
      | none =>
        rw [h1, h2] at h
        cases h
        rfl
  · intro h1 h2
    have hdl : ∀ q1 : WaremaSendParameters, q1.devicename_ = q.devicename_ →
        WaremaSendParameters.loadDataLength P cfg q1
          = Except.error (Diag.missingParameter "dataLength".toList) := by
      intro q1 hq
      unfold WaremaSendParameters.loadDataLength
      rw [hdef, hq, h1, h2]
    constructor
    · rcases except_ok_or_error (WaremaSendParameters.load P cfg q) with ⟨p, h⟩ | h
      · obtain ⟨pin, dataLength, syncLength, sendCommand, sendDelay, device, down, up, stop,
          -, -, g2, -⟩ := WaremaSendParameters.load_ok P cfg q p h
        rw [hdef, h1, h2] at g2
        cases g2
      · exact h
    · intro q1 hq1
      obtain ⟨value, -, -, hq⟩ := WaremaSendParameters.loadGpioPin_ok P cfg q q1 hq1
      have hd := hdl q1 (by rw [hq])
      unfold WaremaSendParameters.load
      rw [hq1]
      simp only [bind, Except.bind]
      rw [hd]

/-- Witness of C16: in the example configuration without `dataLength`, `load` fails with
the message that names `dataLength`. -/
theorem getValue_falls_back_witness :
    WaremaSendParameters.load examplePlatform
        (exampleConfigurationWith none 1000 "1010".toList)
        (WaremaSendParameters.new examplePlatform "shutter1".toList)
      = Except.error (Diag.missingParameter "dataLength".toList) :=
  ((getValue_falls_back examplePlatform (exampleConfigurationWith none 1000 "1010".toList)
    (WaremaSendParameters.new examplePlatform "shutter1".toList)
    (exampleConfigurationWith none 1000 "1010".toList).getValueInt "shutter1".toList
    "shutter1".toList "dataLength".toList).2.2.2.2 (by rfl) (by rfl)).2
    { WaremaSendParameters.new examplePlatform "shutter1".toList with gpioPin_ := 17 }
    (by rfl)

/-- C17: for every string, the encoding pass skips each unrecognized character: the step for
such a character leaves the trace as it is and does not halt, and the pass over a string is
the pass over the string with all unrecognized characters removed, for `WaremaSend` and for
`ManchesterCodeTarget` (whose string is taken as supplied). When the assertions of the code
hold, both passes return. -/
theorem sendAirCommand_skips_unrecognized (P : Platform) (pin : Nat)
    (p : WaremaSendParameters) (tp : TargetParameters) (code : CppString) (t : Trace) :
    (∀ c, Spec.isSymbol c = false →
        WaremaSend.sendAirCommandStep P pin p c t = some t
        ∧ ManchesterCodeTarget.sendAirCommandManchesterStep pin tp c t = t)
      ∧ WaremaSend.sendAirCommand P pin p code t
        = WaremaSend.sendAirCommand P pin p (code.filter Spec.isSymbol) t
      ∧ ManchesterCodeTarget.sendAirCommandManchester pin tp code t
        = ManchesterCodeTarget.sendAirCommandManchester pin tp (code.filter Spec.isSymbol) t
      ∧ (p.Loaded P → ∃ trace, WaremaSend.sendAirCommand P pin p code t = some trace)
      ∧ (tp.getAirCode = AirCode.MANCHESTER →
        ∃ trace, ManchesterCodeTarget.sendAirCommandManchester pin tp code t = some trace) := by
  refine ⟨fun c hc => ⟨sendAirCommandStep_skip P pin p c t hc,
    sendAirCommandManchesterStep_skip pin tp c t hc⟩,
    sendAirCommandLoop_filter P pin p code t, ?_,
    fun hL => ⟨_, WaremaSend.sendAirCommand_eq P pin p hL code t⟩,
    fun ha => ⟨_, ManchesterCodeTarget.sendAirCommandManchester_eq pin tp ha code t⟩⟩
  unfold ManchesterCodeTarget.sendAirCommandManchester
  rw [sendAirCommandManchesterLoop_filter]

/-- Witness of C17: the pass over "1x0 S?" is the pass over "10S". -/
theorem sendAirCommand_skips_unrecognized_witness :
    "1x0 S?".toList.filter Spec.isSymbol = "10S".toList
      ∧ WaremaSend.sendAirCommandStep examplePlatform 17 (exampleParameters 1 0) 'x' []
        = some []
      ∧ ManchesterCodeTarget.sendAirCommandManchester 17 (exampleTargetParameters 1 0)
          "1x0 S?".toList []
        = ManchesterCodeTarget.sendAirCommandManchester 17 (exampleTargetParameters 1 0)
          ("1x0 S?".toList.filter Spec.isSymbol) [] :=
  ⟨by decide,
    ((sendAirCommand_skips_unrecognized examplePlatform 17 (exampleParameters 1 0)
      (exampleTargetParameters 1 0) "1x0 S?".toList []).1 'x' (by decide)).1,
    (sendAirCommand_skips_unrecognized examplePlatform 17 (exampleParameters 1 0)
      (exampleTargetParameters 1 0) "1x0 S?".toList []).2.2.1⟩

/-- C18: the events that `airControl` appends to the trace are a function of the pin, the
symbol string, `dataLength`, `syncLength`, `sendCommand` and `sendDelay` only: two runs with
these arguments equal append the same events, whatever the other members, the platform
constants and the trace of earlier calls. The remaining hypotheses say that the assertions
of the code hold in both runs. -/
theorem airControl_deterministic (P1 P2 : Platform) (pin : Nat)
    (p1 p2 : WaremaSendParameters) (tp1 tp2 : TargetParameters) (code : CppString)
    (t1 t2 : Trace)
    (hL1 : p1.Loaded P1) (hL2 : p2.Loaded P2)
    (hd : p1.dataLengthUs_ = p2.dataLengthUs_) (hs : p1.syncLengthUs_ = p2.syncLengthUs_)
    (hc : p1.sendCommand_ = p2.sendCommand_) (hy : p1.sendDelayUs_ = p2.sendDelayUs_)
    (ha1 : tp1.getAirCode = AirCode.MANCHESTER) (ha2 : tp2.getAirCode = AirCode.MANCHESTER)
    (htd : tp1.getDataLength = tp2.getDataLength) (hts : tp1.getSyncLength = tp2.getSyncLength)
    (htc : tp1.getSendCommand = tp2.getSendCommand)
    (hty : tp1.getSendDelay = tp2.getSendDelay) :
    (∃ events, WaremaSend.airControl P1 pin p1 code t1 = some (t1 ++ events)
        ∧ WaremaSend.airControl P2 pin p2 code t2 = some (t2 ++ events))
      ∧ ∃ events, ManchesterCodeTarget.airControl pin tp1 code t1 = some (t1 ++ events)
        ∧ ManchesterCodeTarget.airControl pin tp2 code t2 = some (t2 ++ events) := by
  constructor
  · refine ⟨_, WaremaSend.airControl_eq P1 pin p1 hL1 code t1, ?_⟩
    rw [WaremaSend.airControl_eq P2 pin p2 hL2 code t2, hd, hs, hc, hy]
  · refine ⟨_, ManchesterCodeTarget.targetAirControl_eq pin tp1 ha1 code t1, ?_⟩
    rw [ManchesterCodeTarget.targetAirControl_eq pin tp2 ha2 code t2, htd, hts, htc, hty]

/-- Witness of C18: two runs over "10S", the second one after an earlier run, with another
device name and other code fragments. -/
theorem airControl_deterministic_witness :
    ∃ events,
      WaremaSend.airControl examplePlatform 17 (exampleParameters 2 1000) "10S".toList []
          = some ([] ++ events)
        ∧ WaremaSend.airControl examplePlatform 17
            { exampleParameters 2 1000 with
              devicename_ := "blind2".toList, manchesterCodeUp_ := "11".toList }
            "10S".toList [Event.pinMode 17 PinMode.OUTPUT, Event.pinMode 17 PinMode.INPUT]
          = some ([Event.pinMode 17 PinMode.OUTPUT, Event.pinMode 17 PinMode.INPUT]
              ++ events) :=
  (airControl_deterministic examplePlatform examplePlatform 17 (exampleParameters 2 1000)
    { exampleParameters 2 1000 with
      devicename_ := "blind2".toList, manchesterCodeUp_ := "11".toList }
    (exampleTargetParameters 2 1000) (exampleTargetParameters 2 1000) "10S".toList []
    [Event.pinMode 17 PinMode.OUTPUT, Event.pinMode 17 PinMode.INPUT]
    (by decide) (by decide) rfl rfl rfl rfl rfl rfl rfl rfl rfl rfl).1

/-- C20: the two encoders are equivalent. When both classes hold the same `dataLength` and
`syncLength` and the assertions of the code hold, `WaremaSend::sendAirCommand` and
`ManchesterCodeTarget::sendAirCommandManchester` return the same trace for every symbol
string and pin; when they also hold the same `sendCommand` and `sendDelay`, the two
`airControl` return the same trace. -/
theorem encoders_equivalent (P : Platform) (pin : Nat) (p : WaremaSendParameters)
    (tp : TargetParameters) (code : CppString) (t : Trace)
    (hL : p.Loaded P) (ha : tp.getAirCode = AirCode.MANCHESTER)
    (hd : tp.getDataLength = p.dataLengthUs_) (hs : tp.getSyncLength = p.syncLengthUs_) :
    (∃ trace, WaremaSend.sendAirCommand P pin p code t = some trace
        ∧ ManchesterCodeTarget.sendAirCommandManchester pin tp code t = some trace)
      ∧ (tp.getSendCommand = p.sendCommand_ → tp.getSendDelay = p.sendDelayUs_ →
        ∃ trace, WaremaSend.airControl P pin p code t = some trace
          ∧ ManchesterCodeTarget.airControl pin tp code t = some trace) := by
  constructor
  · refine ⟨_, WaremaSend.sendAirCommand_eq P pin p hL code t, ?_⟩
    rw [ManchesterCodeTarget.sendAirCommandManchester_eq pin tp ha code t, hd, hs]
  · intro hc hy
    refine ⟨_, WaremaSend.airControl_eq P pin p hL code t, ?_⟩
    rw [ManchesterCodeTarget.targetAirControl_eq pin tp ha code t, hd, hs, hc, hy]

/-- Witness of C20: the two classes on "s10S" with three passes. -/
theorem encoders_equivalent_witness :
    WaremaSend.sendAirCommand examplePlatform 17 (exampleParameters 3 1000) "s10S".toList []
        = ManchesterCodeTarget.sendAirCommandManchester 17 (exampleTargetParameters 3 1000)
            "s10S".toList []
      ∧ WaremaSend.airControl examplePlatform 17 (exampleParameters 3 1000) "s10S".toList []
        = ManchesterCodeTarget.airControl 17 (exampleTargetParameters 3 1000)
            "s10S".toList [] := by
  obtain ⟨⟨t1, h1, h2⟩, hair⟩ := encoders_equivalent examplePlatform 17
    (exampleParameters 3 1000) (exampleTargetParameters 3 1000) "s10S".toList []
    (by decide) rfl rfl rfl
  obtain ⟨t2, h3, h4⟩ := hair rfl rfl
  exact ⟨h1.trans h2.symm, h3.trans h4.symm⟩

/-- C19: in an accepted run of `WaremaSend::start` and of `ManchesterCodeTarget::start`,
every `pinMode` and `digitalWrite` addresses one pin, the member `gpioPin_`, and that pin is
the one given on the command line when one was given (it differs from the sentinel), in which
case it is valid, and the configured `gpioPin` otherwise (for `WaremaSend`: the configured
value as stored in a `uint8_t`); a given pin that is not valid makes `start` return the
failure exit code. So the configured pin is never driven when a pin was given. -/
theorem start_drives_selected_pin (P : Platform) (cfg : Configuration)
    (load : Configuration → CppString → Option TargetParameters) (pin : Nat)
    (desc code : CppString) :
    (∀ r, WaremaSend.start P cfg pin desc = some r → r.exitCode = EXIT_SUCCESS →
        (∀ x ∈ pinsOf r.trace, x = r.gpioPin_) ∧ r.gpioPin_ ∈ pinsOf r.trace
        ∧ (pin ≠ P.INVALID_GPIO_PIN → P.isValidGpioPin pin = true ∧ r.gpioPin_ = pin)
        ∧ (pin = P.INVALID_GPIO_PIN → ∃ device action value,
            WaremaSend.split desc '.' = [device, action]
            ∧ WaremaSendParameters.getValue cfg.getValueInt device device "gpioPin".toList
              = Except.ok value
            ∧ P.isValidGpioPin value = true ∧ (r.gpioPin_ : Int) = value % 256))
      ∧ (pin ≠ P.INVALID_GPIO_PIN → P.isValidGpioPin pin = false →
        ∃ r, WaremaSend.start P cfg pin desc = some r ∧ r.exitCode = EXIT_FAILURE)
      ∧ (∀ r, ManchesterCodeTarget.start P cfg load pin code = some r →
        r.exitCode = EXIT_SUCCESS →
        (∀ x ∈ pinsOf r.trace, x = r.gpioPin_) ∧ r.gpioPin_ ∈ pinsOf r.trace
        ∧ (pin ≠ P.INVALID_GPIO_PIN → P.isValidGpioPin pin = true ∧ r.gpioPin_ = pin)
        ∧ (pin = P.INVALID_GPIO_PIN → ∃ tp,
            load cfg ManchesterCodeTarget.name_ = some tp ∧ r.gpioPin_ = tp.getGpioPin))
      ∧ (pin ≠ P.INVALID_GPIO_PIN → P.isValidGpioPin pin = false →
        ∃ r, ManchesterCodeTarget.start P cfg load pin code = some r
          ∧ r.exitCode = EXIT_FAILURE) := by
  have hne : EXIT_FAILURE ≠ EXIT_SUCCESS := by decide
  refine ⟨?_, WaremaSend.start_invalid_given_pin P cfg pin desc, ?_,
    ManchesterCodeTarget.targetStart_invalid_given_pin P cfg load pin code⟩
  · intro r h hok
    obtain ⟨device, action, p, hsplit, -, hload, hpin, -, hair⟩ :=
      WaremaSend.start_success_cases P cfg pin desc r h hok
    have hL := WaremaSendParameters.load_loaded P cfg _ p hload
    obtain ⟨hall, hmem⟩ := WaremaSend.pinsOf_airControl P r.gpioPin_ p hL _ _ hair
    refine ⟨hall, hmem, ?_, ?_⟩
    · intro hset
      rcases hpin with ⟨h1, -⟩ | ⟨-, h2, h3⟩
      · exact absurd h1 hset
      · exact ⟨h2, h3⟩
    · intro hunset
      rcases hpin with ⟨-, hget⟩ | ⟨h1, -⟩
      · obtain ⟨value, dl, sl, sc, sd, dev, down, up, stop, g1, v1, -, -, -, -, -, -, -, -,
          -, -, -, -, -, -, -, -, -, -, -, -, -, -, -, hp⟩ :=
          WaremaSendParameters.load_ok P cfg _ p hload
        refine ⟨device, action, value, hsplit, g1, v1, ?_⟩
        unfold WaremaSendParameters.getGpioPin at hget
        split_ifs at hget
        rw [← Option.some.inj hget, hp]
        exact Int.toNat_of_nonneg (Int.emod_nonneg _ (by decide))
      · exact absurd hunset h1
  · intro r h hok
    rcases ManchesterCodeTarget.targetStart_cases P cfg load pin code r h with
      ⟨hfail, -⟩ | ⟨-, -, tp, hload, hpin, hair⟩
    · rw [hfail] at hok
      exact absurd hok hne
    · obtain ⟨body, ht, hbody⟩ :=
        ManchesterCodeTarget.targetAirControl_frame r.gpioPin_ tp code r.trace hair
      have hframe := pinsOf_frame r.gpioPin_ body hbody
      rw [← ht] at hframe
      refine ⟨hframe.1, hframe.2, ?_, ?_⟩
      · intro hset
        rcases hpin with ⟨h1, -⟩ | ⟨-, h2, h3⟩
        · exact absurd h1 hset
        · exact ⟨h2, h3⟩
      · intro hunset
        rcases hpin with ⟨-, h2⟩ | ⟨h1, -⟩
        · exact ⟨tp, hload, h2⟩
        · exact absurd hunset h1

/-- Witness of C19: with pin 4 given on the command line, `start` drives pin 4 and not the
configured pin 17; with the invalid pin 99 it fails. -/
theorem start_drives_selected_pin_witness :
    (WaremaSend.start examplePlatform exampleConfiguration 4 "shutter1.up".toList).map
        (fun r => (r.exitCode, r.gpioPin_)) = some (EXIT_SUCCESS, 4)
      ∧ (WaremaSend.start examplePlatform exampleConfiguration 255 "shutter1.up".toList).map
        (fun r => (r.exitCode, r.gpioPin_)) = some (EXIT_SUCCESS, 17)
      ∧ ∃ r, WaremaSend.start examplePlatform exampleConfiguration 99 "shutter1.up".toList
          = some r ∧ r.exitCode = EXIT_FAILURE :=
  ⟨by decide, by decide,
    (start_drives_selected_pin examplePlatform exampleConfiguration exampleTargetLoad 99
      "shutter1.up".toList "10S".toList).2.1 (by decide) (by decide)⟩

/-- C21: whenever `WaremaSend::start` reaches transmission (it returns the success exit code,
its trace being that of `airControl`), the assembled symbol string holds only characters of
the alphabet, ends with 'S' and has length at least 3; so the encoder skips no character of
it, and the last level written before the line is returned to input mode is HIGH. -/
theorem start_symbol_string_wellformed (P : Platform) (cfg : Configuration) (pin : Nat)
    (desc : CppString) (r : WaremaSend.StartResult)
    (h : WaremaSend.start P cfg pin desc = some r) (hok : r.exitCode = EXIT_SUCCESS) :
    Spec.ValidSymbolString r.manchestercode_
      ∧ r.manchestercode_.getLast? = some 'S'
      ∧ 3 ≤ r.manchestercode_.length
      ∧ r.manchestercode_.filter Spec.isSymbol = r.manchestercode_
      ∧ (levelWrites r.trace).getLast? = some PinLevel.HIGH
      ∧ r.trace.getLast? = some (Event.pinMode r.gpioPin_ PinMode.INPUT) := by
  obtain ⟨device, p, fragment, hload, hfrag, hcode, hair⟩ :=
    WaremaSend.start_success_code P cfg pin desc r h hok
  have hL := WaremaSendParameters.load_loaded P cfg _ p hload
  obtain ⟨g, dl, sl, sc, sd, dev, down, up, stop, -, -, -, -, -, -, -, -, -, n4, a4, -, n5,
    a5, -, n6, a6, -, n7, a7, -, -, v8, -, -, hp⟩ :=
    WaremaSendParameters.load_ok P cfg _ p hload
  have hdev : p.manchesterCodeDevice_ ≠ [] ∧ ∀ c ∈ p.manchesterCodeDevice_, c ∈ "01sS".toList := by
    rw [hp]
    exact ⟨n4, a4⟩
  have hfr : fragment ≠ [] ∧ ∀ c ∈ fragment, c ∈ "01sS".toList := by
    rcases hfrag with rfl | rfl | rfl
    · rw [hp]
      exact ⟨n6, a6⟩
    · rw [hp]
      exact ⟨n5, a5⟩
    · rw [hp]
      exact ⟨n7, a7⟩
  have hsc : 0 < p.sendCommand_ := by
    rw [hp]
    exact v8
  have hall : ∀ c ∈ r.manchestercode_, c ∈ "01sS".toList := by
    intro c hc
    rw [hcode] at hc
    simp only [List.mem_append] at hc
    rcases hc with (hc | hc) | hc
    · exact hfr.2 c hc
    · exact hdev.2 c hc
    · simp only [String.toList, List.mem_singleton] at hc
      rw [hc]
      decide
  have hlen1 : 1 ≤ fragment.length := List.length_pos.mpr hfr.1
  have hlen2 : 1 ≤ p.manchesterCodeDevice_.length := List.length_pos.mpr hdev.1
  refine ⟨fun c hc => (mem_alphabet_iff c).mp (hall c hc), ?_, ?_, ?_, ?_, ?_⟩
  · rw [hcode]
    exact List.getLast?_concat _
  · rw [hcode]
    simp only [List.length_append, String.toList, List.length_singleton]
    omega
  · exact List.filter_eq_self.mpr (fun c hc => isSymbol_of_mem_alphabet c (hall c hc))
  · rw [WaremaSend.airControl_eq P r.gpioPin_ p hL r.manchestercode_ []] at hair
    rw [← Option.some.inj hair]
    obtain ⟨k, hk⟩ : ∃ k, p.sendCommand_.toNat = k + 1 :=
      ⟨p.sendCommand_.toNat - 1, by omega⟩
    have hpass : ∀ half sync : Nat,
        levelWrites (r.manchestercode_.flatMap (encodeEvents r.gpioPin_ half sync))
          = (fragment ++ p.manchesterCodeDevice_).flatMap Spec.symbolLevels
            ++ [PinLevel.HIGH] := by
      intro half sync
      rw [levelWrites_flatMap_encodeEvents, hcode, List.flatMap_append]
      rfl
    simp only [List.nil_append, levelWrites, levelWrites_append, levelWrites_repeatEvents,
      hpass, hk, List.append_nil]
    exact repeatEvents_getLast _ _ _ k
  · rw [WaremaSend.airControl_eq P r.gpioPin_ p hL r.manchestercode_ []] at hair
    rw [← Option.some.inj hair]
    simp only [List.nil_append]
    rw [← List.cons_append]
    exact List.getLast?_concat _

/-- Witness of C21: the accepted descriptor "shutter1.up" of the example configuration. -/
theorem start_symbol_string_wellformed_witness :
    (WaremaSend.start examplePlatform exampleConfiguration 255 "shutter1.up".toList).map
      (fun r => (r.manchestercode_.getLast?, (levelWrites r.trace).getLast?))
        = some (some 'S', some PinLevel.HIGH) := by
  cases hr : WaremaSend.start examplePlatform exampleConfiguration 255 "shutter1.up".toList with
  | none => exact absurd hr (by decide)
  | some r =>
    have hexit : (WaremaSend.start examplePlatform exampleConfiguration 255
        "shutter1.up".toList).map (fun r => r.exitCode) = some EXIT_SUCCESS := by decide
    rw [hr] at hexit
    have hok : r.exitCode = EXIT_SUCCESS := Option.some.inj hexit
    obtain ⟨-, hlast, -, -, hhigh, -⟩ :=
      start_symbol_string_wellformed examplePlatform exampleConfiguration 255
        "shutter1.up".toList r hr hok
    simp only [Option.map_some', hlast, hhigh]

/-- C22: `split(s, '.')` drops an empty trailing token. `split("")` is the empty list, and for
every non-empty `s` that does not end in '.', `split(s ++ ".") = split(s)`. Hence a
descriptor with a trailing separator whose `split` has two parts is treated by `start`
exactly like the descriptor without it; a non-empty device name followed by a single '.' is
rejected as having one part; and a descriptor that starts with '.' followed by a non-empty
action without '.' has two parts, with an empty device name. -/
theorem split_drops_trailing_token (P : Platform) (cfg : Configuration) (pin : Nat) :
    WaremaSend.split [] '.' = []
      ∧ (∀ s : CppString, s ≠ [] → s.getLast? ≠ some '.' →
        WaremaSend.split (s ++ ".".toList) '.' = WaremaSend.split s '.')
      ∧ (∀ s : CppString, s ≠ [] → s.getLast? ≠ some '.' →
        (WaremaSend.split s '.').length = 2 →
        WaremaSend.start P cfg pin (s ++ ".".toList) = WaremaSend.start P cfg pin s)
      ∧ (∀ device : CppString, device ≠ [] → '.' ∉ device →
        WaremaSend.split (device ++ ".".toList) '.' = [device]
        ∧ WaremaSend.start P cfg pin (device ++ ".".toList)
          = some ⟨EXIT_FAILURE, [Diag.paramDeviceAndAction (device ++ ".".toList)], [], pin,
              []⟩)
      ∧ (∀ action : CppString, action ≠ [] → '.' ∉ action →
        WaremaSend.split (".".toList ++ action) '.' = [[], action]
        ∧ WaremaSend.start P cfg pin (".".toList ++ action)
          ≠ some ⟨EXIT_FAILURE, [Diag.paramDeviceAndAction (".".toList ++ action)], [], pin,
              []⟩) := by
  have hdrop : ∀ s : CppString, s ≠ [] → s.getLast? ≠ some '.' →
      WaremaSend.split (s ++ ".".toList) '.' = WaremaSend.split s '.' :=
    fun s hne hlast => WaremaSend.split_append_delimiter '.' s.length s (le_refl _) hne hlast
  refine ⟨rfl, hdrop, ?_, ?_, ?_⟩
  · intro s hne hlast hlen
    exact WaremaSend.start_eq_of_split_eq P cfg pin _ _ (hdrop s hne hlast) hlen
  · intro device hne hdot
    have hsplit : WaremaSend.split (device ++ ".".toList) '.' = [device] := by
      have hlast : device.getLast? ≠ some '.' := by
        intro hl
        exact hdot (List.mem_of_getLast?_eq_some hl)
      rw [hdrop device hne hlast, WaremaSend.split_no_delimiter '.' device hne hdot]
    refine ⟨hsplit, WaremaSend.start_of_not_pair P cfg pin _ ?_⟩
    rw [hsplit]
    simp
  · intro action hne hdot
    have hsplit : WaremaSend.split (".".toList ++ action) '.' = [[], action] := by
      have h := WaremaSend.split_delimiter '.' [] action (by simp)
      rw [WaremaSend.split_no_delimiter '.' action hne hdot] at h
      exact h
    refine ⟨hsplit, ?_⟩
    intro hbad
    exact WaremaSend.start_pair_not_malformed P cfg pin _ [] action hsplit _ hbad _ rfl

/-- Witness of C22: "dev.up." splits like "dev.up", "shutter1.up." is treated like
"shutter1.up", "dev." has one part, and ".up" has two parts with an empty device name, which
a configuration that keeps every key in the type-wide section accepts. -/
theorem split_drops_trailing_token_witness :
    WaremaSend.split ("dev.up".toList ++ ".".toList) '.' = WaremaSend.split "dev.up".toList '.'
      ∧ WaremaSend.start examplePlatform exampleConfiguration 255
          ("shutter1.up".toList ++ ".".toList)
        = WaremaSend.start examplePlatform exampleConfiguration 255 "shutter1.up".toList
      ∧ WaremaSend.split ("dev".toList ++ ".".toList) '.' = ["dev".toList]
      ∧ WaremaSend.split (".".toList ++ "up".toList) '.' = [[], "up".toList]
      ∧ (WaremaSend.start examplePlatform exampleConfigurationTypeWide 255 ".up".toList).map
          (fun r => (r.exitCode, r.manchestercode_)) = some (EXIT_SUCCESS, "10100011S".toList) :=
  ⟨(split_drops_trailing_token examplePlatform exampleConfiguration 255).2.1 "dev.up".toList
      (by decide) (by decide),
    (split_drops_trailing_token examplePlatform exampleConfiguration 255).2.2.1
      "shutter1.up".toList (by decide) (by decide) (by decide),
    ((split_drops_trailing_token examplePlatform exampleConfiguration 255).2.2.2.1
      "dev".toList (by decide) (by decide)).1,
    ((split_drops_trailing_token examplePlatform exampleConfiguration 255).2.2.2.2
      "up".toList (by decide) (by decide)).1,
    by decide⟩

/-- C23: for every `dataLength > 0` (within `int32_t`), the step for a data symbol '0' or '1'
writes a level, sleeps the truncating quotient `dataLength / 2`, writes the other level and
sleeps `dataLength / 2` again, in both encoders: both half-pulses are held for the same
duration, and the symbol blocks for `2 * (dataLength / 2)` microseconds in total, which is
`dataLength` when `dataLength` is even and `dataLength - 1` when it is odd. The remaining
hypothesis says that the assertion of `getDataLength` holds. -/
theorem data_symbol_half_pulses (P : Platform) (pin : Nat) (p : WaremaSendParameters)
    (tp : TargetParameters) (c : Char) (t : Trace) (dataLength : Nat)
    (hpos : 0 < dataLength) (hmax : (dataLength : Int) ≤ INT32_MAX)
    (hpd : p.dataLengthUs_ = dataLength) (hdi : p.dataLengthUs_ ≠ P.INVALID_PARAMETER)
    (htd : tp.getDataLength = dataLength) (hc : c = '0' ∨ c = '1') :
    Int.tdiv (dataLength : Int) 2 = ((dataLength / 2 : Nat) : Int)
      ∧ ∃ first second,
        first ≠ second
        ∧ WaremaSend.sendAirCommandStep P pin p c t
          = some (t ++ [Event.digitalWrite pin first, Event.usleep (dataLength / 2),
              Event.digitalWrite pin second, Event.usleep (dataLength / 2)])
        ∧ ManchesterCodeTarget.sendAirCommandManchesterStep pin tp c t
          = t ++ [Event.digitalWrite pin first, Event.usleep (dataLength / 2),
              Event.digitalWrite pin second, Event.usleep (dataLength / 2)]
        ∧ sleepSum [Event.digitalWrite pin first, Event.usleep (dataLength / 2),
              Event.digitalWrite pin second, Event.usleep (dataLength / 2)]
            = 2 * (dataLength / 2)
        ∧ (dataLength % 2 = 0 →
          sleepSum [Event.digitalWrite pin first, Event.usleep (dataLength / 2),
              Event.digitalWrite pin second, Event.usleep (dataLength / 2)] = dataLength)
        ∧ (dataLength % 2 = 1 →
          sleepSum [Event.digitalWrite pin first, Event.usleep (dataLength / 2),
              Event.digitalWrite pin second, Event.usleep (dataLength / 2)]
            = dataLength - 1) := by
  have hhalf := toUseconds_half dataLength hmax
  have hsum : ∀ first second : PinLevel,
      sleepSum [Event.digitalWrite pin first, Event.usleep (dataLength / 2),
        Event.digitalWrite pin second, Event.usleep (dataLength / 2)]
        = 2 * (dataLength / 2) := by
    intro first second
    simp only [sleepSum]
    omega
  have hdi2 : (dataLength : Int) ≠ P.INVALID_PARAMETER := by
    rw [← hpd]
    exact hdi
  refine ⟨by simpa using (Int.ofNat_tdiv dataLength 2).symm, ?_⟩
  rcases hc with rfl | rfl
  · refine ⟨PinLevel.HIGH, PinLevel.LOW, by decide, ?_, ?_, hsum _ _, ?_, ?_⟩
    · simp [WaremaSend.sendAirCommandStep, WaremaSendParameters.getDataLength, hpd, hdi2,
        digitalWrite, usleep, hhalf]
    · simp [ManchesterCodeTarget.sendAirCommandManchesterStep, htd, digitalWrite, usleep,
        hhalf]
    · intro heven
      rw [hsum]
      omega
    · intro hodd
      rw [hsum]
      omega
  · refine ⟨PinLevel.LOW, PinLevel.HIGH, by decide, ?_, ?_, hsum _ _, ?_, ?_⟩
    · simp [WaremaSend.sendAirCommandStep, WaremaSendParameters.getDataLength, hpd, hdi2,
        digitalWrite, usleep, hhalf]
    · simp [ManchesterCodeTarget.sendAirCommandManchesterStep, htd, digitalWrite, usleep,
        hhalf]
    · intro heven
      rw [hsum]
      omega
    · intro hodd
      rw [hsum]
      omega

/-- Witness of C23: with `dataLength = 1` the symbol '0' sleeps 0 + 0 microseconds. -/
theorem data_symbol_half_pulses_witness :
    WaremaSend.sendAirCommandStep examplePlatform 17
        { exampleParameters 1 0 with dataLengthUs_ := 1 } '0' []
      = some [Event.digitalWrite 17 PinLevel.HIGH, Event.usleep 0,
          Event.digitalWrite 17 PinLevel.LOW, Event.usleep 0] := by
  obtain ⟨-, first, second, -, hstep, -, -, -, -⟩ :=
    data_symbol_half_pulses examplePlatform 17
      { exampleParameters 1 0 with dataLengthUs_ := 1 }
      { exampleTargetParameters 1 0 with getDataLength := 1 } '0' [] 1 (by decide)
      (by decide) rfl (by decide) rfl (Or.inl rfl)
  rw [hstep]
  exact hstep.symm.trans (by decide)

end AirControl
